import Mathlib

/-! Error envelope of `pkg/roachpb/errors.go`.

A shallow embedding of the error envelope (`Error`), its detail variants and
the dispatch functions `NewError`, `SetDetail`, `GetDetail` and `GoError`.

Conventions of the embedding:

* a Go pointer to a struct is the struct value; a pointer that may be `nil`
  is an `Option`; detail values handed to the functions are non-nil pointers;
* a Go `panic` is the `Except.error` result carrying the panic text;
* a method with a pointer receiver that mutates its receiver returns the
  updated value;
* types and helpers declared outside `errors.go` (generated protobuf code,
  `hlc`, `uuid`, the `String` methods of keys, leases, transactions, ...) are
  either small records holding what `errors.go` reads of them, or parameters
  collected in `Fmt`.
-/

namespace Roachpb

/-! ## Types declared outside `errors.go` -/

/-- Byte string `Key`. -/
abbrev Key := List Nat

/-- Byte string `RKey`, the key type of range descriptors. -/
abbrev RKey := List Nat

/-- Identifier `uuid.UUID`. -/
abbrev UUID := Nat

/-- Hybrid logical clock reading `hlc.Timestamp`. -/
structure Timestamp where
  WallTime : Int
  Logical : Int
  deriving DecidableEq, Repr, Inhabited

/-- Entry of `Transaction.ObservedTimestamps`. -/
structure ObservedTimestamp where
  NodeID : Int
  Timestamp : Timestamp
  deriving DecidableEq, Repr, Inhabited

/-- Replica descriptor; `errors.go` only prints it, `raw` stands for its state. -/
structure ReplicaDescriptor where
  raw : Nat
  deriving DecidableEq, Repr, Inhabited

/-- Range lease; `errors.go` only prints it, `raw` stands for its state. -/
structure Lease where
  raw : Nat
  deriving DecidableEq, Repr, Inhabited

/-- Stored value; `errors.go` only prints it, `raw` stands for its state. -/
structure Value where
  raw : Nat
  deriving DecidableEq, Repr, Inhabited

/-- Write intent: `errors.go` reads its `Key`, `raw` stands for the rest. -/
structure Intent where
  Key : Key
  raw : Nat
  deriving DecidableEq, Repr, Inhabited

/-- Range descriptor: `errors.go` reads `StartKey` and `EndKey`. -/
structure RangeDescriptor where
  StartKey : RKey
  EndKey : RKey
  raw : Nat
  deriving DecidableEq, Repr, Inhabited

/-- Modelled from the spec: the transaction record (`Transaction`, declared in
the transaction-model collaborator, with its `Clone` and `Update`). The record
holds the three members `errors.go` reads; a member is unset when it has its
zero value. -/
structure Transaction where
  ID : UUID
  MaxTimestamp : Timestamp
  ObservedTimestamps : List ObservedTimestamp
  deriving DecidableEq, Repr, Inhabited

/-- Modelled from the spec: `Transaction.Clone`, a deep copy, which on values
is the same record. -/
def Transaction.Clone (t : Transaction) : Transaction := t

/-- Modelled from the spec: `Transaction.Update`, the field-wise merge of `o`
into the receiver: a member set in `o` wins, a member unset in `o` is kept. -/
def Transaction.Update (t o : Transaction) : Transaction :=
  { ID := if o.ID = 0 then t.ID else o.ID
    MaxTimestamp := if o.MaxTimestamp = ⟨0, 0⟩ then t.MaxTimestamp else o.MaxTimestamp
    ObservedTimestamps :=
      if o.ObservedTimestamps = [] then t.ObservedTimestamps else o.ObservedTimestamps }

/-- Restart directive `TransactionRestart`. `errors.go` names `NONE` and
`IMMEDIATE`; `other` stands for any further member of the generated
enumeration. `NONE` is the zero value. -/
inductive TransactionRestart where
  | NONE
  | IMMEDIATE
  | other (code : Nat)
  deriving DecidableEq, Repr

instance : Inhabited TransactionRestart := ⟨TransactionRestart.NONE⟩

/-- Position of the failed request, `ErrPosition`. -/
structure ErrPosition where
  Index : Int
  deriving DecidableEq, Repr, Inhabited

/-- Renderings that `fmt` and the `String` methods of other packages produce
for values of types declared outside `errors.go`. A field named `s...` or
`v...` is the text `fmt` prints for the verb `%s` or `%v` and an operand of
that type (`...Ptr` for a pointer operand). -/
structure Fmt where
  keyString : Key → String
  sKey : Key → String
  sRKey : RKey → String
  sTxn : Transaction → String
  sTxnPtr : Option Transaction → String
  sTimestamp : Timestamp → String
  vTimestamp : Timestamp → String
  vTimestampPtr : Option Timestamp → String
  sLease : Lease → String
  sLeasePtr : Lease → String
  sReplica : ReplicaDescriptor → String
  sValuePtr : Option Value → String
  vIntentPtr : Intent → String
  sAbortedReason : Int → String
  sRetryReason : Int → String
  sStatusReason : Int → String
  sRangeFeedReason : Int → String

/-- Value carried by a Go `panic`: here always a text. -/
abbrev Panic := String

/-- Text of `%d` for an integer operand. -/
def fmtD (n : Int) : String := toString n

/-- Text of `%t` for a boolean operand. -/
def fmtT (b : Bool) : String := if b then "true" else "false"

/-! ## Detail variants -/

/-- Struct `NodeUnavailableError`. -/
structure NodeUnavailableError where
  deriving DecidableEq, Repr, Inhabited

/-- Struct `NotLeaseHolderError`. -/
structure NotLeaseHolderError where
  CustomMsg : String
  LeaseHolder : Option ReplicaDescriptor
  Lease : Option Lease
  RangeID : Int
  Replica : ReplicaDescriptor
  deriving DecidableEq, Repr, Inhabited

/-- Struct `LeaseRejectedError`. -/
structure LeaseRejectedError where
  Existing : Lease
  Requested : Lease
  Message : String
  deriving DecidableEq, Repr, Inhabited

/-- Struct `SendError`. -/
structure SendError where
  Message : String
  deriving DecidableEq, Repr, Inhabited

/-- Struct `RangeNotFoundError`. -/
structure RangeNotFoundError where
  RangeID : Int
  StoreID : Int
  deriving DecidableEq, Repr, Inhabited

/-- Struct `RangeKeyMismatchError`. -/
structure RangeKeyMismatchError where
  RequestStartKey : Key
  RequestEndKey : Key
  MismatchedRange : Option RangeDescriptor
  deriving DecidableEq, Repr, Inhabited

/-- Struct `AmbiguousResultError`. -/
structure AmbiguousResultError where
  Message : String
  deriving DecidableEq, Repr, Inhabited

/-- Struct `TransactionAbortedError`. -/
structure TransactionAbortedError where
  Reason : Int
  deriving DecidableEq, Repr, Inhabited

/-- Struct `TransactionRetryWithProtoRefreshError`. -/
structure TransactionRetryWithProtoRefreshError where
  Msg : String
  TxnID : UUID
  Transaction : Transaction
  deriving DecidableEq, Repr, Inhabited

/-- Struct `TransactionPushError`. -/
structure TransactionPushError where
  PusheeTxn : Transaction
  deriving DecidableEq, Repr, Inhabited

/-- Struct `TransactionRetryError`. -/
structure TransactionRetryError where
  Reason : Int
  ExtraMsg : String
  deriving DecidableEq, Repr, Inhabited

/-- Struct `TransactionStatusError`. -/
structure TransactionStatusError where
  Msg : String
  Reason : Int
  deriving DecidableEq, Repr, Inhabited

/-- Struct `WriteIntentError`. -/
structure WriteIntentError where
  Intents : List Intent
  deriving DecidableEq, Repr, Inhabited

/-- Struct `WriteTooOldError`. -/
structure WriteTooOldError where
  Timestamp : Timestamp
  ActualTimestamp : Roachpb.Timestamp
  deriving DecidableEq, Repr, Inhabited

/-- Struct `ReadWithinUncertaintyIntervalError`. -/
structure ReadWithinUncertaintyIntervalError where
  ReadTimestamp : Timestamp
  ExistingTimestamp : Timestamp
  MaxTimestamp : Option Timestamp
  ObservedTimestamps : List ObservedTimestamp
  deriving DecidableEq, Repr, Inhabited

/-- Struct `OpRequiresTxnError`. -/
structure OpRequiresTxnError where
  deriving DecidableEq, Repr, Inhabited

/-- Struct `ConditionFailedError`. -/
structure ConditionFailedError where
  ActualValue : Option Value
  deriving DecidableEq, Repr, Inhabited

/-- Struct `RaftGroupDeletedError`. -/
structure RaftGroupDeletedError where
  deriving DecidableEq, Repr, Inhabited

/-- Struct `ReplicaCorruptionError`. -/
structure ReplicaCorruptionError where
  ErrorMsg : String
  Processed : Bool
  deriving DecidableEq, Repr, Inhabited

/-- Struct `ReplicaTooOldError`. -/
structure ReplicaTooOldError where
  ReplicaID : Int
  deriving DecidableEq, Repr, Inhabited

/-- Struct `StoreNotFoundError`. -/
structure StoreNotFoundError where
  StoreID : Int
  deriving DecidableEq, Repr, Inhabited

/-- Struct `TxnAlreadyEncounteredErrorError`. -/
structure TxnAlreadyEncounteredErrorError where
  PrevError : String
  deriving DecidableEq, Repr, Inhabited

/-- Struct `IntegerOverflowError`. -/
structure IntegerOverflowError where
  Key : Key
  CurrentValue : Int
  IncrementValue : Int
  deriving DecidableEq, Repr, Inhabited

/-- Struct `UnsupportedRequestError`. -/
structure UnsupportedRequestError where
  deriving DecidableEq, Repr, Inhabited

/-- Struct `BatchTimestampBeforeGCError`. -/
structure BatchTimestampBeforeGCError where
  Timestamp : Timestamp
  Threshold : Roachpb.Timestamp
  deriving DecidableEq, Repr, Inhabited

/-- Struct `IntentMissingError`. -/
structure IntentMissingError where
  Key : Key
  WrongIntent : Option Intent
  deriving DecidableEq, Repr, Inhabited

/-- Struct `MergeInProgressError`. -/
structure MergeInProgressError where
  deriving DecidableEq, Repr, Inhabited

/-- Struct `RangeFeedRetryError`. -/
structure RangeFeedRetryError where
  Reason : Int
  deriving DecidableEq, Repr, Inhabited

/-- Struct `IndeterminateCommitError`. -/
structure IndeterminateCommitError where
  StagingTxn : Transaction
  deriving DecidableEq, Repr, Inhabited

mutual
/-- Modelled from the spec: the detail union `ErrorDetail` (generated code),
a slot holding zero or one payload of the closed set of variants. -/
inductive ErrorDetail where
  | empty
  | holds (d : Detail)
/-- Closed set of detail variants: the types of `errors.go` asserted to
implement `ErrorDetailInterface`, `internalError` apart. `MixedSuccess` is the
struct `MixedSuccessError` with its fields `Wrapped` and `WrappedMessage`. -/
inductive Detail where
  | NotLeaseHolder (v : NotLeaseHolderError)
  | RangeNotFound (v : RangeNotFoundError)
  | RangeKeyMismatch (v : RangeKeyMismatchError)
  | ReadWithinUncertaintyInterval (v : ReadWithinUncertaintyIntervalError)
  | TransactionAborted (v : TransactionAbortedError)
  | TransactionPush (v : TransactionPushError)
  | TransactionRetry (v : TransactionRetryError)
  | TransactionStatus (v : TransactionStatusError)
  | WriteIntent (v : WriteIntentError)
  | WriteTooOld (v : WriteTooOldError)
  | OpRequiresTxn (v : OpRequiresTxnError)
  | ConditionFailed (v : ConditionFailedError)
  | LeaseRejected (v : LeaseRejectedError)
  | NodeUnavailable (v : NodeUnavailableError)
  | Send (v : SendError)
  | RaftGroupDeleted (v : RaftGroupDeletedError)
  | ReplicaCorruption (v : ReplicaCorruptionError)
  | ReplicaTooOld (v : ReplicaTooOldError)
  | AmbiguousResult (v : AmbiguousResultError)
  | StoreNotFound (v : StoreNotFoundError)
  | TransactionRetryWithProtoRefresh (v : TransactionRetryWithProtoRefreshError)
  | IntegerOverflow (v : IntegerOverflowError)
  | UnsupportedRequest (v : UnsupportedRequestError)
  | MixedSuccess (Wrapped : ErrorDetail) (WrappedMessage : String)
  | BatchTimestampBeforeGC (v : BatchTimestampBeforeGCError)
  | TxnAlreadyEncounteredError (v : TxnAlreadyEncounteredErrorError)
  | IntentMissing (v : IntentMissingError)
  | MergeInProgress (v : MergeInProgressError)
  | RangeFeedRetry (v : RangeFeedRetryError)
  | IndeterminateCommit (v : IndeterminateCommitError)
end

instance : Inhabited ErrorDetail := ⟨ErrorDetail.empty⟩

/-- Envelope `Error`. -/
structure Error where
  Message : String
  UnexposedTxn : Option Transaction
  TransactionRestart : TransactionRestart
  Detail : ErrorDetail
  Index : Option ErrPosition

/-- Zero value `Error{}`, the envelope `NewError` starts from: no message, no
transaction, classification `NONE`, empty detail slot, no index. -/
def Error.zero : Error :=
  { Message := "", UnexposedTxn := none, TransactionRestart := TransactionRestart.NONE,
    Detail := ErrorDetail.empty, Index := none }

/-- Struct `UnhandledRetryableError`. -/
structure UnhandledRetryableError where
  PErr : Error

/-! ## Envelope accessors used by the formatters -/

/-- Method `(*Error).String`; the receiver may be nil. -/
def Error.String (e : Option Roachpb.Error) : String :=
  match e with
  | none => "<nil>"
  | some e => e.Message

/-- Method `(*Error).GetTxn`; the receiver may be nil. -/
def Error.GetTxn (e : Option Roachpb.Error) : Option Transaction :=
  match e with
  | none => none
  | some e => e.UnexposedTxn

/-! ## Formatters `message` and `Error` of the detail variants -/

/-- Method `(*NodeUnavailableError).message`. -/
def NodeUnavailableError.message (_F : Fmt) (_e : NodeUnavailableError)
    (_pErr : Option Roachpb.Error) : String :=
  "node unavailable; try another peer"

/-- Method `(*NotLeaseHolderError).message`. -/
def NotLeaseHolderError.message (F : Fmt) (e : NotLeaseHolderError)
    (_pErr : Option Roachpb.Error) : String :=
  let pfx := "[NotLeaseHolderError] "
  if e.CustomMsg ≠ "" then pfx ++ e.CustomMsg
  else
    match e.LeaseHolder, e.Lease with
    | none, _ =>
      pfx ++ "r" ++ fmtD e.RangeID ++ ": replica " ++ F.sReplica e.Replica ++
        " not lease holder; lease holder unknown"
    | some _, some l =>
      pfx ++ "r" ++ fmtD e.RangeID ++ ": replica " ++ F.sReplica e.Replica ++
        " not lease holder; current lease is " ++ F.sLeasePtr l
    | some h, none =>
      pfx ++ "r" ++ fmtD e.RangeID ++ ": replica " ++ F.sReplica e.Replica ++
        " not lease holder; replica " ++ F.sReplica h ++ " is"

/-- Method `(*LeaseRejectedError).message`. -/
def LeaseRejectedError.message (F : Fmt) (e : LeaseRejectedError)
    (_pErr : Option Roachpb.Error) : String :=
  "cannot replace lease " ++ F.sLease e.Existing ++ " with " ++ F.sLease e.Requested ++
    ": " ++ e.Message

/-- Method `(*SendError).message`. -/
def SendError.message (_F : Fmt) (s : SendError) (_pErr : Option Roachpb.Error) : String :=
  "failed to send RPC: " ++ s.Message

/-- Method `(*RangeNotFoundError).message`. -/
def RangeNotFoundError.message (_F : Fmt) (e : RangeNotFoundError)
    (_pErr : Option Roachpb.Error) : String :=
  let msg := "r" ++ fmtD e.RangeID ++ " was not found"
  if e.StoreID ≠ 0 then msg ++ (" on s" ++ fmtD e.StoreID) else msg

/-- Method `(*RangeKeyMismatchError).message`. -/
def RangeKeyMismatchError.message (F : Fmt) (e : RangeKeyMismatchError)
    (_pErr : Option Roachpb.Error) : String :=
  match e.MismatchedRange with
  | some r =>
    "key range " ++ F.sKey e.RequestStartKey ++ "-" ++ F.sKey e.RequestEndKey ++
      " outside of bounds of range " ++ F.sRKey r.StartKey ++ "-" ++ F.sRKey r.EndKey
  | none =>
    "key range " ++ F.sKey e.RequestStartKey ++ "-" ++ F.sKey e.RequestEndKey ++
      " could not be located within a range on store"

/-- Method `(*AmbiguousResultError).message`. -/
def AmbiguousResultError.message (_F : Fmt) (e : AmbiguousResultError)
    (_pErr : Option Roachpb.Error) : String :=
  "result is ambiguous (" ++ e.Message ++ ")"

/-- Method `(*TransactionAbortedError).Error`. -/
def TransactionAbortedError.Error (F : Fmt) (e : TransactionAbortedError) : String :=
  "TransactionAbortedError(" ++ F.sAbortedReason e.Reason ++ ")"

/-- Method `(*TransactionAbortedError).message`. -/
def TransactionAbortedError.message (F : Fmt) (e : TransactionAbortedError)
    (pErr : Option Roachpb.Error) : String :=
  "TransactionAbortedError(" ++ F.sAbortedReason e.Reason ++ "): " ++
    F.sTxnPtr (Error.GetTxn pErr)

/-- Method `(*TransactionRetryWithProtoRefreshError).message`. -/
def TransactionRetryWithProtoRefreshError.message (_F : Fmt)
    (e : TransactionRetryWithProtoRefreshError) (_pErr : Option Roachpb.Error) : String :=
  "TransactionRetryWithProtoRefreshError: " ++ e.Msg

/-- Method `(*TransactionPushError).message`. -/
def TransactionPushError.message (F : Fmt) (e : TransactionPushError)
    (pErr : Option Roachpb.Error) : String :=
  let s := "failed to push " ++ F.sTxn e.PusheeTxn
  if Error.GetTxn pErr = none then s
  else "txn " ++ F.sTxnPtr (Error.GetTxn pErr) ++ " " ++ s

/-- Method `(*TransactionRetryError).Error`. -/
def TransactionRetryError.Error (F : Fmt) (e : TransactionRetryError) : String :=
  "TransactionRetryError: retry txn (" ++ F.sRetryReason e.Reason ++ ")"

/-- Method `(*TransactionRetryError).message`. -/
def TransactionRetryError.message (F : Fmt) (e : TransactionRetryError)
    (pErr : Option Roachpb.Error) : String :=
  e.Error F ++ ": " ++ F.sTxnPtr (Error.GetTxn pErr)

/-- Method `(*TransactionStatusError).Error`. -/
def TransactionStatusError.Error (F : Fmt) (e : TransactionStatusError) : String :=
  "TransactionStatusError: " ++ e.Msg ++ " (" ++ F.sStatusReason e.Reason ++ ")"

/-- Method `(*TransactionStatusError).message`. -/
def TransactionStatusError.message (F : Fmt) (e : TransactionStatusError)
    (pErr : Option Roachpb.Error) : String :=
  e.Error F ++ ": " ++ F.sTxnPtr (Error.GetTxn pErr)

/-- Loop `for i := range xs` of `WriteIntentError.message`: writes the keys of
`xs` to `buf`, with `", "` before every key but the first; `i` is the index of
the head of `xs`. -/
def writeIntentKeys (F : Fmt) : Nat → List Intent → String → String
  | _, [], buf => buf
  | i, x :: xs, buf =>
    writeIntentKeys F (i + 1) xs ((if i > 0 then buf ++ ", " else buf) ++ F.keyString x.Key)

/-- Method `(*WriteIntentError).message`. The slice `end` of the source is
`none` when it is nil. -/
def WriteIntentError.message (F : Fmt) (e : WriteIntentError)
    (_pErr : Option Roachpb.Error) : String :=
  let buf := "conflicting intents on "
  let maxBegin := 5
  let maxEnd := 5
  let parts : List Intent × Option (List Intent) :=
    if e.Intents.length ≤ maxBegin + maxEnd then (e.Intents, none)
    else (e.Intents.take maxBegin, some (e.Intents.drop (e.Intents.length - maxEnd)))
  let buf := writeIntentKeys F 0 parts.1 buf
  match parts.2 with
  | none => buf
  | some last => writeIntentKeys F 0 last (buf ++ " ... ")

/-- Method `(*WriteTooOldError).message`. -/
def WriteTooOldError.message (F : Fmt) (e : WriteTooOldError)
    (_pErr : Option Roachpb.Error) : String :=
  "WriteTooOldError: write at timestamp " ++ F.sTimestamp e.Timestamp ++
    " too old; wrote at " ++ F.sTimestamp e.ActualTimestamp

/-- Loop over the observed timestamps in
`ReadWithinUncertaintyIntervalError.message`: a blank before every entry but
the first; `i` is the index of the head of the list. -/
def writeObserved (F : Fmt) : Nat → List ObservedTimestamp → String → String
  | _, [], ts => ts
  | i, ot :: ots, ts =>
    writeObserved F (i + 1) ots
      ((if i > 0 then ts ++ " " else ts) ++
        ("\x7b" ++ fmtD ot.NodeID ++ " " ++ F.vTimestamp ot.Timestamp ++ "\x7d"))

/-- Method `(*ReadWithinUncertaintyIntervalError).message`. -/
def ReadWithinUncertaintyIntervalError.message (F : Fmt)
    (e : ReadWithinUncertaintyIntervalError) (_pErr : Option Roachpb.Error) : String :=
  let ts := writeObserved F 0 e.ObservedTimestamps "[" ++ "]"
  "ReadWithinUncertaintyIntervalError: read at time " ++ F.sTimestamp e.ReadTimestamp ++
    " encountered previous write with future timestamp " ++
    F.sTimestamp e.ExistingTimestamp ++ " within uncertainty interval `t <= " ++
    F.vTimestampPtr e.MaxTimestamp ++ "`; observed timestamps: " ++ ts

/-- Method `(*OpRequiresTxnError).message`. -/
def OpRequiresTxnError.message (_F : Fmt) (_e : OpRequiresTxnError)
    (_pErr : Option Roachpb.Error) : String :=
  "the operation requires transactional context"

/-- Method `(*ConditionFailedError).message`. -/
def ConditionFailedError.message (F : Fmt) (e : ConditionFailedError)
    (_pErr : Option Roachpb.Error) : String :=
  "unexpected value: " ++ F.sValuePtr e.ActualValue

/-- Method `(*RaftGroupDeletedError).message`. -/
def RaftGroupDeletedError.message (_F : Fmt) (_e : RaftGroupDeletedError)
    (_pErr : Option Roachpb.Error) : String :=
  "raft group deleted"

/-- Method `(*ReplicaCorruptionError).message`. -/
def ReplicaCorruptionError.message (_F : Fmt) (e : ReplicaCorruptionError)
    (_pErr : Option Roachpb.Error) : String :=
  let msg := "replica corruption (processed=" ++ fmtT e.Processed ++ ")"
  if e.ErrorMsg ≠ "" then msg ++ (": " ++ e.ErrorMsg) else msg

/-- Method `(*ReplicaTooOldError).message`. -/
def ReplicaTooOldError.message (_F : Fmt) (_e : ReplicaTooOldError)
    (_pErr : Option Roachpb.Error) : String :=
  "sender replica too old, discarding message"

/-- Method `(*StoreNotFoundError).message`. -/
def StoreNotFoundError.message (_F : Fmt) (e : StoreNotFoundError)
    (_pErr : Option Roachpb.Error) : String :=
  "store " ++ fmtD e.StoreID ++ " was not found"

/-- Method `(*TxnAlreadyEncounteredErrorError).message`. -/
def TxnAlreadyEncounteredErrorError.message (_F : Fmt) (e : TxnAlreadyEncounteredErrorError)
    (_pErr : Option Roachpb.Error) : String :=
  "txn already encountered an error; cannot be used anymore (previous err: " ++
    e.PrevError ++ ")"

/-- Method `(*IntegerOverflowError).message`. -/
def IntegerOverflowError.message (F : Fmt) (e : IntegerOverflowError)
    (_pErr : Option Roachpb.Error) : String :=
  "key " ++ F.sKey e.Key ++ " with value " ++ fmtD e.CurrentValue ++ " incremented by " ++
    fmtD e.IncrementValue ++ " results in overflow"

/-- Method `(*UnsupportedRequestError).message`. -/
def UnsupportedRequestError.message (_F : Fmt) (_e : UnsupportedRequestError)
    (_pErr : Option Roachpb.Error) : String :=
  "unsupported request"

/-- Method `(*BatchTimestampBeforeGCError).message`. -/
def BatchTimestampBeforeGCError.message (F : Fmt) (e : BatchTimestampBeforeGCError)
    (_pErr : Option Roachpb.Error) : String :=
  "batch timestamp " ++ F.vTimestamp e.Timestamp ++ " must be after replica GC threshold " ++
    F.vTimestamp e.Threshold

/-- Method `(*IntentMissingError).message`. -/
def IntentMissingError.message (F : Fmt) (e : IntentMissingError)
    (_pErr : Option Roachpb.Error) : String :=
  let detail :=
    match e.WrongIntent with
    | some w => "; found intent " ++ F.vIntentPtr w ++ " at key instead"
    | none => ""
  "intent missing" ++ detail

/-- Method `(*MergeInProgressError).message`. -/
def MergeInProgressError.message (_F : Fmt) (_e : MergeInProgressError)
    (_pErr : Option Roachpb.Error) : String :=
  "merge in progress"

/-- Method `(*RangeFeedRetryError).message`. -/
def RangeFeedRetryError.message (F : Fmt) (e : RangeFeedRetryError)
    (_pErr : Option Roachpb.Error) : String :=
  "retry rangefeed (" ++ F.sRangeFeedReason e.Reason ++ ")"

/-- Method `(*IndeterminateCommitError).message`. -/
def IndeterminateCommitError.message (F : Fmt) (e : IndeterminateCommitError)
    (pErr : Option Roachpb.Error) : String :=
  let s := "found txn in indeterminate STAGING state " ++ F.sTxn e.StagingTxn
  if Error.GetTxn pErr = none then s
  else "txn " ++ F.sTxnPtr (Error.GetTxn pErr) ++ " " ++ s

/-! ## Dynamic dispatch on a detail value -/

mutual
/-- Method `Error()` of a detail value, by its dynamic type. For
`MixedSuccessError` it is `message(nil)`, whose operand `e.GetWrapped()` is
printed with `%s`, that is through the `Error()` of the wrapped failure. -/
def Detail.Error (F : Fmt) : Detail → String
  | .NotLeaseHolder v => v.message F none
  | .RangeNotFound v => v.message F none
  | .RangeKeyMismatch v => v.message F none
  | .ReadWithinUncertaintyInterval v => v.message F none
  | .TransactionAborted v => v.Error F
  | .TransactionPush v => v.message F none
  | .TransactionRetry v => v.Error F
  | .TransactionStatus v => v.Error F
  | .WriteIntent v => v.message F none
  | .WriteTooOld v => v.message F none
  | .OpRequiresTxn v => v.message F none
  | .ConditionFailed v => v.message F none
  | .LeaseRejected v => v.message F none
  | .NodeUnavailable v => v.message F none
  | .Send v => v.message F none
  | .RaftGroupDeleted v => v.message F none
  | .ReplicaCorruption v => v.message F none
  | .ReplicaTooOld v => v.message F none
  | .AmbiguousResult v => v.message F none
  | .StoreNotFound v => v.message F none
  | .TransactionRetryWithProtoRefresh v => v.message F none
  | .IntegerOverflow v => v.message F none
  | .UnsupportedRequest v => v.message F none
  | .MixedSuccess w m =>
    "the batch experienced mixed success and failure: " ++ ErrorDetail.wrappedText F w m
  | .BatchTimestampBeforeGC v => v.message F none
  | .TxnAlreadyEncounteredError v => v.message F none
  | .IntentMissing v => v.message F none
  | .MergeInProgress v => v.message F none
  | .RangeFeedRetry v => v.message F none
  | .IndeterminateCommit v => v.message F none
/-- Text `GetWrapped().Error()` of a `MixedSuccessError` with union slot `w`
and `WrappedMessage` `m`: the `Error()` of the payload when the slot holds
one, else the text of `errors.New(m)`. -/
def ErrorDetail.wrappedText (F : Fmt) : ErrorDetail → String → String
  | .empty, m => m
  | .holds d, _ => Detail.Error F d
end

/-- Method `(*MixedSuccessError).message`, on the fields of the struct. -/
def MixedSuccessError.message (F : Fmt) (Wrapped : ErrorDetail) (WrappedMessage : String)
    (_pErr : Option Roachpb.Error) : String :=
  "the batch experienced mixed success and failure: " ++
    ErrorDetail.wrappedText F Wrapped WrappedMessage

/-- Method `message(pErr)` of a detail value, by its dynamic type. -/
def Detail.message (F : Fmt) (d : Detail) (pErr : Option Roachpb.Error) : String :=
  match d with
  | .NotLeaseHolder v => v.message F pErr
  | .RangeNotFound v => v.message F pErr
  | .RangeKeyMismatch v => v.message F pErr
  | .ReadWithinUncertaintyInterval v => v.message F pErr
  | .TransactionAborted v => v.message F pErr
  | .TransactionPush v => v.message F pErr
  | .TransactionRetry v => v.message F pErr
  | .TransactionStatus v => v.message F pErr
  | .WriteIntent v => v.message F pErr
  | .WriteTooOld v => v.message F pErr
  | .OpRequiresTxn v => v.message F pErr
  | .ConditionFailed v => v.message F pErr
  | .LeaseRejected v => v.message F pErr
  | .NodeUnavailable v => v.message F pErr
  | .Send v => v.message F pErr
  | .RaftGroupDeleted v => v.message F pErr
  | .ReplicaCorruption v => v.message F pErr
  | .ReplicaTooOld v => v.message F pErr
  | .AmbiguousResult v => v.message F pErr
  | .StoreNotFound v => v.message F pErr
  | .TransactionRetryWithProtoRefresh v => v.message F pErr
  | .IntegerOverflow v => v.message F pErr
  | .UnsupportedRequest v => v.message F pErr
  | .MixedSuccess w m => MixedSuccessError.message F w m pErr
  | .BatchTimestampBeforeGC v => v.message F pErr
  | .TxnAlreadyEncounteredError v => v.message F pErr
  | .IntentMissing v => v.message F pErr
  | .MergeInProgress v => v.message F pErr
  | .RangeFeedRetry v => v.message F pErr
  | .IndeterminateCommit v => v.message F pErr

/-- Type assertion `err.(transactionRestartError)` on a detail value: the
result of `canRestartTransaction()` when the dynamic type has the method,
`none` when it has not. -/
def Detail.canRestartTransaction : Detail → Option TransactionRestart
  | .TransactionAborted _ => some TransactionRestart.IMMEDIATE
  | .TransactionPush _ => some TransactionRestart.IMMEDIATE
  | .TransactionRetry _ => some TransactionRestart.IMMEDIATE
  | .WriteTooOld _ => some TransactionRestart.IMMEDIATE
  | .ReadWithinUncertaintyInterval _ => some TransactionRestart.IMMEDIATE
  | _ => none

/-- Type assertion `err.(ClientVisibleAmbiguousError)` on a detail value:
whether the dynamic type has the marker method `ClientVisibleAmbiguousError`. -/
def Detail.isClientVisibleAmbiguousError : Detail → Bool
  | .AmbiguousResult _ => true
  | _ => false

/-- Type assertion `err.(ClientVisibleRetryError)` on a detail value: whether
the dynamic type has the marker method `ClientVisibleRetryError`. -/
def Detail.isClientVisibleRetryError : Detail → Bool
  | .TransactionRetryWithProtoRefresh _ => true
  | _ => false

/-- Text of `%T` for a detail value. -/
def Detail.typeName : Detail → String
  | .NotLeaseHolder _ => "*roachpb.NotLeaseHolderError"
  | .RangeNotFound _ => "*roachpb.RangeNotFoundError"
  | .RangeKeyMismatch _ => "*roachpb.RangeKeyMismatchError"
  | .ReadWithinUncertaintyInterval _ => "*roachpb.ReadWithinUncertaintyIntervalError"
  | .TransactionAborted _ => "*roachpb.TransactionAbortedError"
  | .TransactionPush _ => "*roachpb.TransactionPushError"
  | .TransactionRetry _ => "*roachpb.TransactionRetryError"
  | .TransactionStatus _ => "*roachpb.TransactionStatusError"
  | .WriteIntent _ => "*roachpb.WriteIntentError"
  | .WriteTooOld _ => "*roachpb.WriteTooOldError"
  | .OpRequiresTxn _ => "*roachpb.OpRequiresTxnError"
  | .ConditionFailed _ => "*roachpb.ConditionFailedError"
  | .LeaseRejected _ => "*roachpb.LeaseRejectedError"
  | .NodeUnavailable _ => "*roachpb.NodeUnavailableError"
  | .Send _ => "*roachpb.SendError"
  | .RaftGroupDeleted _ => "*roachpb.RaftGroupDeletedError"
  | .ReplicaCorruption _ => "*roachpb.ReplicaCorruptionError"
  | .ReplicaTooOld _ => "*roachpb.ReplicaTooOldError"
  | .AmbiguousResult _ => "*roachpb.AmbiguousResultError"
  | .StoreNotFound _ => "*roachpb.StoreNotFoundError"
  | .TransactionRetryWithProtoRefresh _ => "*roachpb.TransactionRetryWithProtoRefreshError"
  | .IntegerOverflow _ => "*roachpb.IntegerOverflowError"
  | .UnsupportedRequest _ => "*roachpb.UnsupportedRequestError"
  | .MixedSuccess _ _ => "*roachpb.MixedSuccessError"
  | .BatchTimestampBeforeGC _ => "*roachpb.BatchTimestampBeforeGCError"
  | .TxnAlreadyEncounteredError _ => "*roachpb.TxnAlreadyEncounteredErrorError"
  | .IntentMissing _ => "*roachpb.IntentMissingError"
  | .MergeInProgress _ => "*roachpb.MergeInProgressError"
  | .RangeFeedRetry _ => "*roachpb.RangeFeedRetryError"
  | .IndeterminateCommit _ => "*roachpb.IndeterminateCommitError"

/-! ## Values of the Go interface type `error` -/

/-- Failure whose dynamic type is none of the types of `errors.go`: a native
error, or any other type with an `Error()` method. `text` is its `Error()`,
`typeName` its `%T`; `message` is its method `message(*Error)` when the type
implements `ErrorDetailInterface`, `restart` the result of its
`canRestartTransaction()` when it implements `transactionRestartError`. -/
structure ForeignError where
  typeName : String
  text : String
  message : Option (Option Roachpb.Error → String)
  restart : Option TransactionRestart

/-- Failure: a value of the interface type `error` whose methods can be
called, by dynamic type: the pass-through `*internalError`, a detail variant
or `*UnhandledRetryableError`, each held by a pointer that is not nil, or a
failure of any other type. A nil `error` is `none : Option GoErr`. -/
inductive GoErr where
  | internalError (e : Roachpb.Error)
  | detail (d : Detail)
  | unhandledRetryable (u : UnhandledRetryableError)
  | foreign (f : ForeignError)

/-- Method `Error()` of a failure, by dynamic type. -/
def GoErr.Error (F : Fmt) : GoErr → String
  | .internalError e => Roachpb.Error.String (some e)
  | .detail d => d.Error F
  | .unhandledRetryable u => u.PErr.Message
  | .foreign f => f.text

/-- Type assertion `err.(*internalError)`. -/
def GoErr.asInternalError : GoErr → Option Roachpb.Error
  | .internalError e => some e
  | _ => none

/-- Type assertion `err.(ErrorDetailInterface)`: the method `message` of the
failure when its type has one. -/
def GoErr.asErrorDetailInterface (F : Fmt) : GoErr → Option (Option Roachpb.Error → String)
  | .internalError e => some (fun _ => Roachpb.Error.String (some e))
  | .detail d => some (d.message F)
  | .unhandledRetryable _ => none
  | .foreign f => f.message

/-- Type assertion `err.(transactionRestartError)`: the result of
`canRestartTransaction()` when the type of the failure has the method. -/
def GoErr.asTransactionRestartError : GoErr → Option TransactionRestart
  | .internalError e => some e.TransactionRestart
  | .detail d => d.canRestartTransaction
  | .unhandledRetryable _ => none
  | .foreign f => f.restart

/-- Text of `%T` for a failure. -/
def GoErr.typeName : GoErr → String
  | .internalError _ => "*roachpb.internalError"
  | .detail d => d.typeName
  | .unhandledRetryable _ => "*roachpb.UnhandledRetryableError"
  | .foreign f => f.typeName

/-- Modelled from the spec: `ErrorDetail.SetInner` (generated code), "set
payload if type is known, else report false". The known types are the detail
variants; the result is the updated slot and the reported boolean. -/
def ErrorDetail.SetInner (slot : ErrorDetail) (err : GoErr) : ErrorDetail × Bool :=
  match err with
  | .detail d => (ErrorDetail.holds d, true)
  | _ => (slot, false)

/-- Modelled from the spec: `ErrorDetail.GetInner` (generated code), "get
payload, else report absent". -/
def ErrorDetail.GetInner : ErrorDetail → Option Detail
  | .empty => none
  | .holds d => some d

/-! ## Interface values that hold a nil pointer -/

/-- Pointer types of `errors.go` whose nil pointer `SetDetail` reads through:
`*internalError`, of which it copies the pointee, `*UnhandledRetryableError`,
whose `Error()` reads the field `PErr`, and the detail variants whose `message`
reads a field of its receiver. The variants whose `message` returns a fixed
text without reading the receiver (`NodeUnavailableError`,
`OpRequiresTxnError`, `RaftGroupDeletedError`, `ReplicaTooOldError`,
`UnsupportedRequestError`, `MergeInProgressError`) are not listed: `SetDetail`
hands a nil pointer of theirs to `SetInner`, generated code outside the
source. -/
inductive NilPointer where
  | internalError
  | UnhandledRetryable
  | NotLeaseHolder
  | RangeNotFound
  | RangeKeyMismatch
  | ReadWithinUncertaintyInterval
  | TransactionAborted
  | TransactionPush
  | TransactionRetry
  | TransactionStatus
  | WriteIntent
  | WriteTooOld
  | ConditionFailed
  | LeaseRejected
  | Send
  | ReplicaCorruption
  | AmbiguousResult
  | StoreNotFound
  | TransactionRetryWithProtoRefresh
  | IntegerOverflow
  | MixedSuccess
  | BatchTimestampBeforeGC
  | TxnAlreadyEncounteredError
  | IntentMissing
  | RangeFeedRetry
  | IndeterminateCommit
  deriving DecidableEq, Repr

/-- Value of the interface type `error` other than the nil interface, as a
caller can pass it: a failure, or an interface value that holds a nil pointer
of one of the types of `NilPointer`; such a value is not nil, it passes the
test `err == nil`. The nil interface is `none : Option ErrorValue`. -/
inductive ErrorValue where
  | value (g : GoErr)
  | nilPointer (p : NilPointer)

/-- A failure is passed as the interface value that holds it. -/
instance : Coe GoErr ErrorValue := ⟨ErrorValue.value⟩

/-- A failure or nil is passed as the interface value that holds it or as the
nil interface. -/
instance : Coe (Option GoErr) (Option ErrorValue) := ⟨Option.map ErrorValue.value⟩

/-- Text of the run-time panic on a read through a nil pointer. -/
def nilPointerDereference : Panic :=
  "runtime error: invalid memory address or nil pointer dereference"

/-! ## Construction, extraction and conversion -/

/-- Method `(*Error).SetDetail`: the updated envelope, or the panic. An
interface value that holds a nil pointer passes the test `err == nil`; the
first statement that reads through the pointer panics: the copy
`*e = *(*Error)(intErr)` for `*internalError`, the call `sErr.message(e)` for a
detail variant of `NilPointer`, the call `err.Error()` for
`*UnhandledRetryableError`. -/
def Error.SetDetail (F : Fmt) (e : Roachpb.Error) (err : Option ErrorValue) :
    Except Panic Roachpb.Error :=
  match err with
  | none => Except.error "nil err argument"
  | some (ErrorValue.nilPointer _) => Except.error nilPointerDereference
  | some (ErrorValue.value err) =>
    match err.asInternalError with
    | some intErr => Except.ok intErr
    | none =>
      let e : Roachpb.Error :=
        match err.asErrorDetailInterface F with
        | some msg => { e with Message := msg (some e) }
        | none => { e with Message := err.Error F }
      let r : Bool × Roachpb.Error :=
        match err.asTransactionRestartError with
        | some c => (true, { e with TransactionRestart := c })
        | none => (false, e)
      let isTxnError := r.1
      let e := r.2
      let set := e.Detail.SetInner err
      let e : Roachpb.Error := { e with Detail := set.1 }
      if !set.2 then
        if !err.asInternalError.isSome && isTxnError then
          Except.error ("transactionRestartError " ++ err.typeName ++ " must be an ErrorDetail")
        else Except.ok e
      else Except.ok e

/-- Function `NewError`: `none` is the nil `*Error`. -/
def NewError (F : Fmt) (err : Option ErrorValue) : Except Panic (Option Roachpb.Error) :=
  match err with
  | none => Except.ok none
  | some err =>
    match Error.SetDetail F Error.zero (some err) with
    | Except.error p => Except.error p
    | Except.ok e => Except.ok (some e)

/-- Method `(*Error).GetDetail`; the receiver may be nil, and so may the
result. -/
def Error.GetDetail (e : Option Roachpb.Error) : Option GoErr :=
  match e with
  | none => none
  | some e =>
    match e.Detail.GetInner with
    | some d => some (GoErr.detail d)
    | none => some (GoErr.internalError e)

/-- Method `(*Error).GoError`; the receiver may be nil, and so may the
result. -/
def Error.GoError (e : Option Roachpb.Error) : Option GoErr :=
  match e with
  | none => none
  | some e =>
    if e.TransactionRestart ≠ TransactionRestart.NONE then
      some (GoErr.unhandledRetryable { PErr := e })
    else Error.GetDetail (some e)

/-! ## Transaction snapshot of the envelope -/

/-- Method `(*Error).SetTxn`, on a non-nil receiver: the updated envelope.
`clone` is the method `Transaction.Clone` that the call `txn.Clone()` runs; it
is declared outside `errors.go`, and unless another function is given it is
the model of the spec. -/
def Error.SetTxn (F : Fmt) (e : Roachpb.Error) (txn : Option Transaction)
    (clone : Transaction → Transaction := Transaction.Clone) : Roachpb.Error :=
  let e : Roachpb.Error := { e with UnexposedTxn := txn }
  let e : Roachpb.Error :=
    match txn with
    | some t => { e with UnexposedTxn := some (clone t) }
    | none => e
  match e.Detail.GetInner with
  | some sErr => { e with Message := sErr.message F (some e) }
  | none => e

/-- Method `(*Error).UpdateTxn`, on a non-nil receiver: the updated envelope.
The call `e.UnexposedTxn.Update(o)` changes the snapshot in place. `clone` is
the method `Transaction.Clone` that the call `o.Clone()` runs; it is declared
outside `errors.go`, and unless another function is given it is the model of
the spec. -/
def Error.UpdateTxn (e : Roachpb.Error) (o : Option Transaction)
    (clone : Transaction → Transaction := Transaction.Clone) : Roachpb.Error :=
  match o with
  | none => e
  | some o =>
    match e.UnexposedTxn with
    | none => { e with UnexposedTxn := some (clone o) }
    | some s => { e with UnexposedTxn := some (s.Update o) }

/-- Function `NewErrorWithTxn`. When `NewError` returns the nil envelope, the
call `e.SetTxn(txn)` writes through a nil pointer, a run-time panic. `clone` is
the method `Transaction.Clone` that `SetTxn` runs. -/
def NewErrorWithTxn (F : Fmt) (err : Option ErrorValue) (txn : Option Transaction)
    (clone : Transaction → Transaction := Transaction.Clone) :
    Except Panic (Option Roachpb.Error) :=
  match NewError F err with
  | Except.error p => Except.error p
  | Except.ok none => Except.error nilPointerDereference
  | Except.ok (some e) => Except.ok (some (e.SetTxn F txn clone))

/-! ## Constructors of detail variants -/

/-- Function `NewRangeKeyMismatchError`: the new value, or the panic.
`IsInitialized` is the method `(*RangeDescriptor).IsInitialized` and `plusV`
the text of `%+v` for a range descriptor, both declared outside `errors.go`. -/
def NewRangeKeyMismatchError (IsInitialized : RangeDescriptor → Bool)
    (plusV : RangeDescriptor → String) (start end_ : Key) (desc : Option RangeDescriptor) :
    Except Panic RangeKeyMismatchError :=
  match desc with
  | some d =>
    if !IsInitialized d then
      Except.error ("descriptor is not initialized: " ++ plusV d)
    else
      Except.ok { RequestStartKey := start, RequestEndKey := end_, MismatchedRange := desc }
  | none =>
    Except.ok { RequestStartKey := start, RequestEndKey := end_, MismatchedRange := desc }

/-- Struct `MixedSuccessError`; as a detail value it is `Detail.MixedSuccess`. -/
structure MixedSuccessError where
  Wrapped : ErrorDetail
  WrappedMessage : String

/-- A `*MixedSuccessError` as a value of the interface type `error`. -/
def MixedSuccessError.toGoErr (m : MixedSuccessError) : GoErr :=
  GoErr.detail (Detail.MixedSuccess m.Wrapped m.WrappedMessage)

/-- Type assertion `detail.(*MixedSuccessError)`. -/
def GoErr.asMixedSuccessError : GoErr → Option MixedSuccessError
  | .detail (.MixedSuccess w m) => some { Wrapped := w, WrappedMessage := m }
  | _ => none

/-- Function `WrapWithMixedSuccessError`, on a non-nil failure. -/
def WrapWithMixedSuccessError (F : Fmt) (detail : GoErr) : MixedSuccessError :=
  match detail.asMixedSuccessError with
  | some m => m
  | none =>
    let m : MixedSuccessError := { Wrapped := ErrorDetail.empty, WrappedMessage := "" }
    let set := m.Wrapped.SetInner detail
    let m : MixedSuccessError := { m with Wrapped := set.1 }
    if !set.2 then { m with WrappedMessage := detail.Error F } else m

/-- Function `errors.New` of the standard library: a native error with the
given text and no other method. -/
def errorsNew (text : String) : GoErr :=
  GoErr.foreign
    { typeName := "*errors.errorString", text := text, message := none, restart := none }

/-- Method `(*MixedSuccessError).GetWrapped`. -/
def MixedSuccessError.GetWrapped (e : MixedSuccessError) : GoErr :=
  match e.Wrapped.GetInner with
  | some w => GoErr.detail w
  | none => errorsNew e.WrappedMessage

/-- Function `NewReadWithinUncertaintyIntervalError`. -/
def NewReadWithinUncertaintyIntervalError (readTS existingTS : Timestamp)
    (txn : Option Transaction) : ReadWithinUncertaintyIntervalError :=
  let rwue : ReadWithinUncertaintyIntervalError :=
    { ReadTimestamp := readTS, ExistingTimestamp := existingTS, MaxTimestamp := none,
      ObservedTimestamps := [] }
  match txn with
  | some txn =>
    let maxTS := txn.MaxTimestamp
    { rwue with MaxTimestamp := some maxTS, ObservedTimestamps := txn.ObservedTimestamps }
  | none => rwue

/-- Function `NewTransactionRetryWithProtoRefreshError`. -/
def NewTransactionRetryWithProtoRefreshError (msg : String) (txnID : UUID)
    (txn : Transaction) : TransactionRetryWithProtoRefreshError :=
  { Msg := msg, TxnID := txnID, Transaction := txn }

/-- Method `uuid.UUID.Equal`: whether the two identifiers are the same bytes. -/
def UUID.Equal (a b : UUID) : Bool := decide (a = b)

/-- Method `(*TransactionRetryWithProtoRefreshError).PrevTxnAborted`. -/
def TransactionRetryWithProtoRefreshError.PrevTxnAborted
    (e : TransactionRetryWithProtoRefreshError) : Bool :=
  !UUID.Equal e.TxnID e.Transaction.ID

/-! ## Sample values -/

/-- Sample rendering, used to evaluate the definitions at concrete inputs. -/
def sampleFmt : Fmt :=
  { keyString := fun k => toString k
    sKey := fun k => toString k
    sRKey := fun k => toString k
    sTxn := fun t => "txn#" ++ toString t.ID
    sTxnPtr := fun t => match t with
      | none => "<nil>"
      | some t => "txn#" ++ toString t.ID
    sTimestamp := fun t => toString t.WallTime ++ "," ++ toString t.Logical
    vTimestamp := fun t => toString t.WallTime ++ "," ++ toString t.Logical
    vTimestampPtr := fun t => match t with
      | none => "<nil>"
      | some t => toString t.WallTime ++ "," ++ toString t.Logical
    sLease := fun l => "lease#" ++ toString l.raw
    sLeasePtr := fun l => "lease#" ++ toString l.raw
    sReplica := fun r => "replica#" ++ toString r.raw
    sValuePtr := fun v => match v with
      | none => "<nil>"
      | some v => "value#" ++ toString v.raw
    vIntentPtr := fun i => "intent#" ++ toString i.raw
    sAbortedReason := fun r => toString r
    sRetryReason := fun r => toString r
    sStatusReason := fun r => toString r
    sRangeFeedReason := fun r => toString r }

/-- Sample failure of a type outside `errors.go` that declares a restart
classification (it has a `canRestartTransaction` method). -/
def sampleRestartError : ForeignError :=
  { typeName := "*roachpb.testError", text := "test", message := none,
    restart := some TransactionRestart.IMMEDIATE }

/-- Sample native error, as `errors.New("boom")` makes one. -/
def samplePlainError : ForeignError :=
  { typeName := "*errors.errorString", text := "boom", message := none, restart := none }

/-- Sample failure of a type outside the union that has a `message` method of
its own, whose text differs from its `Error()`. -/
def sampleFormattedError : ForeignError :=
  { typeName := "*roachpb.testDetail", text := "plain",
    message := some (fun _ => "formatted"), restart := none }

/-- Sample envelope classified `IMMEDIATE` with an empty detail slot. -/
def sampleRestartEnvelope : Roachpb.Error :=
  { Message := "retry me", UnexposedTxn := none,
    TransactionRestart := TransactionRestart.IMMEDIATE, Detail := ErrorDetail.empty,
    Index := none }

/-- Sample envelope classified `NONE` holding a `SendError`. -/
def sampleSendEnvelope : Roachpb.Error :=
  { Message := "failed to send RPC: x", UnexposedTxn := none,
    TransactionRestart := TransactionRestart.NONE,
    Detail := ErrorDetail.holds (Detail.Send { Message := "x" }), Index := none }

/-- Sample transaction `A`: identifier 1 and maximum timestamp 2 are set. -/
def sampleTxnA : Transaction :=
  { ID := 1, MaxTimestamp := ⟨2, 0⟩, ObservedTimestamps := [] }

/-- Sample transaction `B`: identifier 3 is set, the maximum timestamp is not. -/
def sampleTxnB : Transaction :=
  { ID := 3, MaxTimestamp := ⟨0, 0⟩, ObservedTimestamps := [] }

/-- Sample function for `Transaction.Clone`: the copy it returns has the
members of its argument. -/
def sampleClone (t : Transaction) : Transaction :=
  { ID := t.ID, MaxTimestamp := t.MaxTimestamp, ObservedTimestamps := t.ObservedTimestamps }

/-- Sample envelope holding a `TransactionPushError`, with no transaction
attached: the envelope `NewError` makes of that detail under `sampleFmt`. -/
def samplePushEnvelope : Roachpb.Error :=
  { Message := "failed to push txn#3", UnexposedTxn := none,
    TransactionRestart := TransactionRestart.IMMEDIATE,
    Detail := ErrorDetail.holds (Detail.TransactionPush { PusheeTxn := sampleTxnB }),
    Index := none }

/-- Sample envelope holding a `SendError` and carrying the snapshot `A`. -/
def sampleTxnEnvelope : Roachpb.Error :=
  { sampleSendEnvelope with UnexposedTxn := some sampleTxnA }

/-- Sample list of `n` intents, with keys `[0]`, `[1]`, ... -/
def sampleIntents (n : Nat) : List Intent :=
  (List.range n).map (fun i => { Key := [i], raw := 0 })

/-- Sample `TransactionStatusError`, as `NewTransactionCommittedStatusError`
makes one, with reason 1 for `REASON_TXN_COMMITTED`. -/
def sampleStatusError : TransactionStatusError :=
  { Msg := "already committed", Reason := 1 }

/-- Variants whose formatter is said to ignore its envelope: the list of the
property on envelope-independent formatters, written from that list, to be
compared with the formatters of `errors.go`. -/
def Spec.envelopeIndependentGroup : Detail → Bool
  | .NodeUnavailable _ => true
  | .NotLeaseHolder _ => true
  | .LeaseRejected _ => true
  | .Send _ => true
  | .RangeNotFound _ => true
  | .RangeKeyMismatch _ => true
  | .AmbiguousResult _ => true
  | .TransactionRetryWithProtoRefresh _ => true
  | .WriteIntent _ => true
  | .WriteTooOld _ => true
  | .ReadWithinUncertaintyInterval _ => true
  | .OpRequiresTxn _ => true
  | .ConditionFailed _ => true
  | .RaftGroupDeleted _ => true
  | .ReplicaCorruption _ => true
  | .ReplicaTooOld _ => true
  | .StoreNotFound _ => true
  | .TxnAlreadyEncounteredError _ => true
  | .IntegerOverflow _ => true
  | .UnsupportedRequest _ => true
  | .MixedSuccess _ _ => true
  | .BatchTimestampBeforeGC _ => true
  | .IntentMissing _ => true
  | .MergeInProgress _ => true
  | .RangeFeedRetry _ => true
  | _ => false

/-- Table of the spec, row "Immediate-retry (bump epoch)": transaction-aborted,
transaction-push-failed, transaction-retry, write-too-old and
read-within-uncertainty-interval. Written from the table, to be compared with
`Detail.canRestartTransaction`. -/
def Spec.immediateRetryGroup : Detail → Bool
  | .TransactionAborted _ => true
  | .TransactionPush _ => true
  | .TransactionRetry _ => true
  | .WriteTooOld _ => true
  | .ReadWithinUncertaintyInterval _ => true
  | _ => false

end Roachpb

/-! Operators of `pkg/sql/exec`: `count.go` and `orderedsynchronizer.go`.

Conventions of the embedding, besides those above:

* a column vector (`coldata.Vec`) is a function from the physical index to the
  value, a selection vector a function from the logical to the physical index;
  a Go slice with one entry per input is a function on the input indices;
  vectors and slices are read within their bounds;
* an input `Operator` is the list of the batches its `Next` calls still
  return; once the list is used up it returns zero-length batches. -/

namespace Exec

/-- Value held by a column vector. -/
abbrev Val := Int

/-- Column type `types.T`. -/
abbrev T := Nat

/-- Column type `types.Int64`. -/
def T.Int64 : T := 1

/-- Batch `coldata.Batch`: its `Length()`, its column vectors `ColVec(i)` and
its `Selection()`, `none` when that is nil. -/
structure Batch where
  length : Nat
  cols : Nat → Nat → Val
  sel : Option (Nat → Nat)

/-- Method `Batch.SetLength`. -/
def Batch.SetLength (b : Batch) (n : Nat) : Batch := { b with length := n }

/-- Functions `coldata.NewMemBatch` and `coldata.NewMemBatchWithSize`: a batch of
length 0 with zeroed vectors and no selection. -/
def NewMemBatch (_types : List T) : Batch :=
  { length := 0, cols := fun _ _ => 0, sel := none }

/-- Input of an operator, an `Operator` itself: the batches its successive
`Next` calls return. -/
structure Operator where
  remaining : List Batch

/-- Method `Operator.Init` of an input. -/
def Operator.Init (op : Operator) : Operator := op

/-- Method `Operator.Next` of an input: the batch returned and the input
afterwards; a zero-length batch once the input is used up. -/
def Operator.Next (op : Operator) : Batch × Operator :=
  match op.remaining with
  | [] => (NewMemBatch [], op)
  | b :: rest => (b, { remaining := rest })

/-- Value of an `int64` after an arithmetic operation: the result modulo
`2^64`, in the signed range. -/
def wrapInt64 (x : Int) : Int := (x + 2 ^ 63) % 2 ^ 64 - 2 ^ 63

/-! ## `count.go` -/

/-- Struct `countOp`. -/
structure countOp where
  input : Operator
  internalBatch : Batch
  done : Bool
  count : Int

/-- Function `NewCountOp`. -/
def NewCountOp (input : Operator) : countOp :=
  { input := input, internalBatch := NewMemBatch [T.Int64], done := false, count := 0 }

/-- Method `(*countOp).Init`. -/
def countOp.Init (c : countOp) : countOp :=
  { c with
    input := c.input.Init
    internalBatch := c.internalBatch.SetLength 1
    count := 0
    done := false }

/-- Assignment `b.ColVec(0).Int64()[0] = v`. -/
def Batch.setInt64 (b : Batch) (v : Int) : Batch :=
  { b with cols := fun c i => if c = 0 ∧ i = 0 then v else b.cols c i }

/-- Loop `for` of `(*countOp).Next`, by recursion on the batches the input
still returns: each round takes the next batch of the input. -/
def countOp.nextLoop (c : countOp) : List Batch → countOp × Batch
  | [] =>
    let c : countOp :=
      { c with input := { remaining := [] }, done := true,
               internalBatch := c.internalBatch.setInt64 c.count }
    (c, c.internalBatch)
  | bat :: rest =>
    let length := bat.length
    if length = 0 then
      let c : countOp :=
        { c with input := { remaining := rest }, done := true,
                 internalBatch := c.internalBatch.setInt64 c.count }
      (c, c.internalBatch)
    else
      countOp.nextLoop { c with count := wrapInt64 (c.count + (length : Int)) } rest

/-- Method `(*countOp).Next`: the operator afterwards and the batch returned. -/
def countOp.Next (c : countOp) : countOp × Batch :=
  if c.done then
    let c : countOp := { c with internalBatch := c.internalBatch.SetLength 0 }
    (c, c.internalBatch)
  else
    countOp.nextLoop c c.input.remaining

/-- Lengths of the batches an input returns before its first zero-length
batch. -/
def lengthsBeforeZero (bs : List Batch) : List Nat :=
  (bs.takeWhile (fun b => b.length ≠ 0)).map (fun b => b.length)

/-! ## `orderedsynchronizer.go` -/

/-- Direction `encoding.Direction` of an ordering column; `other` is any value
that is neither `Ascending` nor `Descending`. -/
inductive Direction where
  | Ascending
  | Descending
  | other (d : Nat)
  deriving DecidableEq, Repr

/-- Entry `sqlbase.ColumnOrderInfo` of a `sqlbase.ColumnOrdering`. -/
structure ColumnOrderInfo where
  ColIdx : Nat
  Direction : Direction
  deriving DecidableEq, Repr

/-- Comparator `vecComparator` of one ordering column: the column type it was
made for and the vector `setVec` stored for each input. -/
structure vecComparator where
  typ : T
  vecs : Nat → Nat → Val

/-- Function `GetVecComparator`. -/
def GetVecComparator (typ : T) (_numVecs : Nat) : vecComparator :=
  { typ := typ, vecs := fun _ _ => 0 }

/-- Method `vecComparator.setVec`. -/
def vecComparator.setVec (c : vecComparator) (idx : Nat) (vec : Nat → Val) : vecComparator :=
  { c with vecs := Function.update c.vecs idx vec }

/-- Method `vecComparator.compare`: the three-way comparison `cmp` of the
column type (generated code), on the two values it is pointed at. -/
def vecComparator.compare (cmp : T → Val → Val → Int) (c : vecComparator)
    (vecIdx1 vecIdx2 valIdx1 valIdx2 : Nat) : Int :=
  cmp c.typ (c.vecs vecIdx1 valIdx1) (c.vecs vecIdx2 valIdx2)

/-- Struct `OrderedSynchronizer`. `numInputs` is `len(o.inputs)`;
`inputBatches` is `none` while the slice is nil. -/
structure OrderedSynchronizer where
  numInputs : Nat
  inputs : Nat → Operator
  ordering : List ColumnOrderInfo
  columnTypes : List T
  inputBatches : Option (Nat → Batch)
  inputIndices : Nat → Nat
  comparators : List vecComparator
  output : Batch

/-- Function `NewOrderedSynchronizer`, for `numInputs` inputs. The constructor
sets `inputs`, `ordering` and `columnTypes` and leaves the other fields nil;
`Init` allocates `inputIndices`, `output` and `comparators`, and the first
`Next` allocates `inputBatches`. The values that `inputIndices` and `output`
have here stand for the nil ones and are never read after `Init`; a `Next`
without `Init`, which panics in the code, is not modelled. -/
def NewOrderedSynchronizer (numInputs : Nat) (inputs : Nat → Operator) (typs : List T)
    (ordering : List ColumnOrderInfo) : OrderedSynchronizer :=
  { numInputs := numInputs
    inputs := inputs
    ordering := ordering
    columnTypes := typs
    inputBatches := none
    inputIndices := fun _ => 0
    comparators := []
    output := NewMemBatch [] }

/-- Method `(*OrderedSynchronizer).Init`. -/
def OrderedSynchronizer.Init (o : OrderedSynchronizer) : OrderedSynchronizer :=
  { o with
    inputIndices := fun _ => 0
    output := NewMemBatch o.columnTypes
    inputs := fun i => if i < o.numInputs then (o.inputs i).Init else o.inputs i
    comparators :=
      o.ordering.map (fun info => GetVecComparator (o.columnTypes.getD info.ColIdx 0) o.numInputs) }

/-- Current batch of input `i`: `o.inputBatches[i]`. -/
def OrderedSynchronizer.batch (o : OrderedSynchronizer) (i : Nat) : Batch :=
  match o.inputBatches with
  | some bs => bs i
  | none => NewMemBatch []

/-- Physical index of the logical index `idx` of a batch: `sel[idx]` when the
batch has a selection vector, `idx` itself when it has none. -/
def Batch.phys (b : Batch) (idx : Nat) : Nat :=
  match b.sel with
  | some sel => sel idx
  | none => idx

/-- Loop `for i := range o.ordering` of `updateComparators`, on the ordering
entries and comparators from index `i` on. -/
def updateComparatorsLoop (batch : Batch) (batchIdx : Nat) :
    List ColumnOrderInfo → List vecComparator → List vecComparator
  | info :: infos, c :: cs =>
    c.setVec batchIdx (batch.cols info.ColIdx) :: updateComparatorsLoop batch batchIdx infos cs
  | _, cs => cs

/-- Method `(*OrderedSynchronizer).updateComparators`. -/
def OrderedSynchronizer.updateComparators (o : OrderedSynchronizer) (batchIdx : Nat) :
    OrderedSynchronizer :=
  let batch := o.batch batchIdx
  if batch.length = 0 then o
  else { o with comparators := updateComparatorsLoop batch batchIdx o.ordering o.comparators }

/-- Loop `for i := range o.ordering` of `compareRow`, on the ordering entries
and comparators from index `i` on: the result, or the panic on a direction
that is neither ascending nor descending. -/
def compareRowLoop (cmp : T → Val → Val → Int) (batchIdx1 batchIdx2 valIdx1 valIdx2 : Nat) :
    List ColumnOrderInfo → List vecComparator → Except String Int
  | info :: infos, c :: cs =>
    let res := c.compare cmp batchIdx1 batchIdx2 valIdx1 valIdx2
    if res ≠ 0 then
      match info.Direction with
      | Direction.Ascending => Except.ok res
      | Direction.Descending => Except.ok (-res)
      | Direction.other d => Except.error ("unexpected direction value " ++ toString d)
    else compareRowLoop cmp batchIdx1 batchIdx2 valIdx1 valIdx2 infos cs
  | _, _ => Except.ok 0

/-- Method `(*OrderedSynchronizer).compareRow`. -/
def OrderedSynchronizer.compareRow (cmp : T → Val → Val → Int) (o : OrderedSynchronizer)
    (batchIdx1 batchIdx2 : Nat) : Except String Int :=
  let batch1 := o.batch batchIdx1
  let batch2 := o.batch batchIdx2
  let valIdx1 := batch1.phys (o.inputIndices batchIdx1)
  let valIdx2 := batch2.phys (o.inputIndices batchIdx2)
  compareRowLoop cmp batchIdx1 batchIdx2 valIdx1 valIdx2 o.ordering o.comparators

/-- Loop `for i := range o.inputs` at the head of `Next`, over the input
indices still to visit: fetches the first batch of each input. -/
def fetchLoop : List Nat → OrderedSynchronizer → OrderedSynchronizer
  | [], o => o
  | i :: is, o =>
    let r := (o.inputs i).Next
    let o : OrderedSynchronizer :=
      { o with
        inputs := Function.update o.inputs i r.2
        inputBatches := some (Function.update o.batch i r.1) }
    fetchLoop is (o.updateComparators i)

/-- Loop `for i := range o.inputs` that determines the batch with the smallest
row, over the input indices still to visit; `minBatch` is `none` for `-1`. -/
def minBatchLoop (cmp : T → Val → Val → Int) (o : OrderedSynchronizer) :
    List Nat → Option Nat → Except String (Option Nat)
  | [], minBatch => Except.ok minBatch
  | i :: is, minBatch =>
    if (o.batch i).length = 0 then minBatchLoop cmp o is minBatch
    else
      match minBatch with
      | none => minBatchLoop cmp o is (some i)
      | some m =>
        match o.compareRow cmp i m with
        | Except.error p => Except.error p
        | Except.ok r =>
          if r < 0 then minBatchLoop cmp o is (some i) else minBatchLoop cmp o is minBatch

/-- Call `Append` of `coldata.Vec` with one source element: the destination
vector with the element `src[srcStartIdx]` at `destIdx`. -/
def appendOne (dest src : Nat → Val) (destIdx srcStartIdx : Nat) : Nat → Val :=
  Function.update dest destIdx (src srcStartIdx)

/-- Loop `for i := range o.columnTypes` that copies the row at the current
index of input `minBatch` into the output at `outputIdx`, over the column
indices still to visit. -/
def copyRowLoop (minBatch outputIdx : Nat) : List Nat → OrderedSynchronizer → OrderedSynchronizer
  | [], o => o
  | i :: is, o =>
    let batch := o.batch minBatch
    let vec := batch.cols i
    let srcStartIdx := batch.phys (o.inputIndices minBatch)
    let out : Batch :=
      { o.output with
        cols := Function.update o.output.cols i (appendOne (o.output.cols i) vec outputIdx srcStartIdx) }
    copyRowLoop minBatch outputIdx is { o with output := out }

/-- Step "advance the input batch, fetching a new batch if necessary" of
`Next`. -/
def OrderedSynchronizer.advance (o : OrderedSynchronizer) (minBatch : Nat) :
    OrderedSynchronizer :=
  if o.inputIndices minBatch + 1 < (o.batch minBatch).length then
    { o with inputIndices := Function.update o.inputIndices minBatch (o.inputIndices minBatch + 1) }
  else
    let r := (o.inputs minBatch).Next
    let o : OrderedSynchronizer :=
      { o with
        inputs := Function.update o.inputs minBatch r.2
        inputBatches := some (Function.update o.batch minBatch r.1)
        inputIndices := Function.update o.inputIndices minBatch 0 }
    o.updateComparators minBatch

/-- Loop `for outputIdx < coldata.BatchSize` of `Next`; `todo` is
`BatchSize - outputIdx`, the number of rounds the condition still allows. The
result is the synchronizer and the final `outputIdx`. -/
def nextLoop (cmp : T → Val → Val → Int) :
    Nat → Nat → OrderedSynchronizer → Except String (OrderedSynchronizer × Nat)
  | 0, outputIdx, o => Except.ok (o, outputIdx)
  | todo + 1, outputIdx, o =>
    match minBatchLoop cmp o (List.range o.numInputs) none with
    | Except.error p => Except.error p
    | Except.ok none => Except.ok (o, outputIdx)
    | Except.ok (some minBatch) =>
      let o := copyRowLoop minBatch outputIdx (List.range o.columnTypes.length) o
      let o := o.advance minBatch
      nextLoop cmp todo (outputIdx + 1) o

/-- Method `(*OrderedSynchronizer).Next`, with `BatchSize` for
`coldata.BatchSize`: the synchronizer afterwards and the batch returned, or
the panic. -/
def OrderedSynchronizer.Next (cmp : T → Val → Val → Int) (BatchSize : Nat)
    (o : OrderedSynchronizer) : Except String (OrderedSynchronizer × Batch) :=
  let o : OrderedSynchronizer :=
    match o.inputBatches with
    | none =>
      fetchLoop (List.range o.numInputs)
        { o with inputBatches := some (fun _ => NewMemBatch []) }
    | some _ => o
  match nextLoop cmp BatchSize 0 o with
  | Except.error p => Except.error p
  | Except.ok (o, outputIdx) =>
    let o : OrderedSynchronizer := { o with output := o.output.SetLength outputIdx }
    Except.ok (o, o.output)

/-! ## Rows and their order, for the statements on `OrderedSynchronizer` -/

/-- Row of a batch: the values of its columns, one per column type. -/
abbrev Row := List Val

/-- Row at the logical index `idx` of a batch with `ncols` columns. -/
def Batch.row (ncols : Nat) (b : Batch) (idx : Nat) : Row :=
  (List.range ncols).map (fun c => b.cols c (b.phys idx))

/-- Rows of a batch from the logical index `start` to its length. -/
def Batch.rowsFrom (ncols : Nat) (b : Batch) (start : Nat) : List Row :=
  (List.range' start (b.length - start)).map (b.row ncols)

/-- Rows that an input delivers: those of its batches before the first
zero-length batch. -/
def streamRows (ncols : Nat) : List Batch → List Row
  | [] => []
  | b :: rest => if b.length = 0 then [] else b.rowsFrom ncols 0 ++ streamRows ncols rest

/-- Order of the spec on rows, as a three-way comparison: the rows are compared
on the ordering columns in turn, each by its column type and in its direction,
and the first column that tells them apart decides. -/
def Spec.compareRows (cmp : T → Val → Val → Int) (types : List T) :
    List ColumnOrderInfo → Row → Row → Int
  | [], _, _ => 0
  | info :: infos, r1, r2 =>
    let res := cmp (types.getD info.ColIdx 0) (r1.getD info.ColIdx 0) (r2.getD info.ColIdx 0)
    if res ≠ 0 then
      match info.Direction with
      | Direction.Descending => -res
      | _ => res
    else Spec.compareRows cmp types infos r1 r2

/-- Row `r1` comes no later than `r2` in the order of the spec. -/
def Spec.rowLE (cmp : T → Val → Val → Int) (types : List T) (ordering : List ColumnOrderInfo)
    (r1 r2 : Row) : Prop :=
  Spec.compareRows cmp types ordering r1 r2 ≤ 0

/-- A three-way comparison of a total preorder: the sign of `f a b` is opposite
to that of `f b a`, and "not after" is transitive. -/
structure IsThreeWay {α : Type} (f : α → α → Int) : Prop where
  antisymm : ∀ a b, f a b < 0 ↔ 0 < f b a
  trans : ∀ a b c, f a b ≤ 0 → f b c ≤ 0 → f a c ≤ 0

/-- Rows that input `i` has still to give: the rest of its current batch and
the rows of the batches it has not returned yet. -/
def OrderedSynchronizer.pending (o : OrderedSynchronizer) (i : Nat) : List Row :=
  if (o.batch i).length = 0 then []
  else (o.batch i).rowsFrom o.columnTypes.length (o.inputIndices i) ++
    streamRows o.columnTypes.length (o.inputs i).remaining

/-- Rows of the first `n` of the lists `p`, as a multiset. -/
def Spec.allRows (n : Nat) (p : Nat → List Row) : Multiset Row :=
  ∑ i in Finset.range n, (p i : Multiset Row)

/-- Successive `Next` calls: the synchronizer after `k` calls and the rows of
the batches returned, in the order returned; or the panic. -/
def runNext (cmp : T → Val → Val → Int) (BatchSize : Nat) :
    Nat → OrderedSynchronizer → Except String (OrderedSynchronizer × List Row)
  | 0, o => Except.ok (o, [])
  | k + 1, o =>
    match o.Next cmp BatchSize with
    | Except.error p => Except.error p
    | Except.ok (o1, b) =>
      match runNext cmp BatchSize k o1 with
      | Except.error p => Except.error p
      | Except.ok (o2, rows) => Except.ok (o2, b.rowsFrom o1.columnTypes.length 0 ++ rows)

/-- Three-way comparison of two integers, as the comparator of an integer
column. -/
def compareInt (a b : Int) : Int := if a < b then -1 else if a = b then 0 else 1

/-- One emission out of the pending rows `p` of `n` inputs: the row `r` is the
head of the pending rows of some input `m`, no later in the order `le` than
the head of any input, and `q` is `p` without that head. -/
def EmitStep (le : Row → Row → Prop) (n : Nat) (p : Nat → List Row) (r : Row)
    (q : Nat → List Row) : Prop :=
  ∃ m, m < n ∧ p m = r :: q m ∧ (∀ i, i ≠ m → q i = p i) ∧
    ∀ i, i < n → ∀ x, (p i).head? = some x → le r x

/-- Successive emissions: from pending rows `p`, the rows `out` are emitted in
turn and `q` is left. -/
inductive Emits (le : Row → Row → Prop) (n : Nat) :
    (Nat → List Row) → List Row → (Nat → List Row) → Prop where
  | nil (p : Nat → List Row) : Emits le n p [] p
  | cons {p q s : Nat → List Row} {r : Row} {out : List Row} :
    EmitStep le n p r q → Emits le n q out s → Emits le n p (r :: out) s

/-- State of a synchronizer between two rounds of `Next`: the first batches
are fetched, the index of every input that is not exhausted lies in its
batch, every comparator has the type of its ordering column and, for every
input that is not exhausted, the vector of that column of its current batch,
and the output batch has no selection vector. -/
structure OrderedSynchronizer.Inv (o : OrderedSynchronizer) : Prop where
  fetched : o.inputBatches ≠ none
  index : ∀ i, (o.batch i).length ≠ 0 → o.inputIndices i < (o.batch i).length
  comparators :
    List.Forall₂
      (fun (info : ColumnOrderInfo) (c : vecComparator) =>
        c.typ = o.columnTypes.getD info.ColIdx 0 ∧
        ∀ i, (o.batch i).length ≠ 0 → c.vecs i = (o.batch i).cols info.ColIdx)
      o.ordering o.comparators
  outputSel : o.output.sel = none

/-- Row at the current index of input `i`. -/
def OrderedSynchronizer.current (o : OrderedSynchronizer) (i : Nat) : Row :=
  (o.batch i).row o.columnTypes.length (o.inputIndices i)

/-- The directions of an ordering are all ascending or descending. -/
def validDirections (ordering : List ColumnOrderInfo) : Prop :=
  ∀ info ∈ ordering, info.Direction = Direction.Ascending ∨ info.Direction = Direction.Descending

/-- The columns of an ordering are among the `ncols` columns. -/
def validColumns (ncols : Nat) (ordering : List ColumnOrderInfo) : Prop :=
  ∀ info ∈ ordering, info.ColIdx < ncols

/-- Property of the result of the search for the batch with the smallest row
among the inputs below `k`: `none` when they are all exhausted, else an input
that is not exhausted, whose current row is no later in the order of the spec
than the current row of any of them, and earlier than that of any such input
of lower index. -/
def OrderedSynchronizer.IsMinBelow (cmp : T → Val → Val → Int) (o : OrderedSynchronizer)
    (k : Nat) : Option Nat → Prop
  | none => ∀ j, j < k → (o.batch j).length = 0
  | some m =>
    m < k ∧ (o.batch m).length ≠ 0 ∧
    ∀ j, j < k → (o.batch j).length ≠ 0 →
      Spec.compareRows cmp o.columnTypes o.ordering (o.current m) (o.current j) ≤ 0 ∧
      (j < m →
        Spec.compareRows cmp o.columnTypes o.ordering (o.current m) (o.current j) < 0)

/-- The synchronizer after input `m` has delivered the batch `b`: the inputs
are `ins`, the indices `idxs`, the current batch of `m` is `b`, and
`updateComparators(m)` has run. -/
def OrderedSynchronizer.install (o : OrderedSynchronizer) (m : Nat) (b : Batch)
    (ins : Nat → Operator) (idxs : Nat → Nat) : OrderedSynchronizer :=
  OrderedSynchronizer.updateComparators
    { o with inputs := ins, inputBatches := some (Function.update o.batch m b),
             inputIndices := idxs } m

/-- Row at the physical index `p` of a batch with `ncols` columns. -/
def Batch.rowAt (ncols : Nat) (b : Batch) (p : Nat) : Row :=
  (List.range ncols).map (fun c => b.cols c p)

/-- State on which the first `Next` runs its loop: the first batch of every
input is fetched. -/
def OrderedSynchronizer.fetched (o : OrderedSynchronizer) : OrderedSynchronizer :=
  fetchLoop (List.range o.numInputs) { o with inputBatches := some (fun _ => NewMemBatch []) }

/-- Sample batch of one integer column holding the given values. -/
def sampleBatch (vals : List Int) : Batch :=
  { length := vals.length, cols := fun _ i => vals.getD i 0, sel := none }

/-- Sample inputs: input 0 returns the batches `[1, 4, 7]` and `[9]`, input 1
the batch `[2, 3, 8, 10]`. -/
def sampleInputs (i : Nat) : Operator :=
  if i = 0 then { remaining := [sampleBatch [1, 4, 7], sampleBatch [9]] }
  else { remaining := [sampleBatch [2, 3, 8, 10]] }

/-- Sample ordering: column 0, ascending. -/
def sampleOrdering : List ColumnOrderInfo := [{ ColIdx := 0, Direction := Direction.Ascending }]

/-! ## Batch protocol of `OrderedSynchronizer`, for the statements on `Next` -/

/-- State on which a call of `Next` runs its loop: the synchronizer itself, or
on the first call, when `inputBatches` is nil, the synchronizer with the first
batch of every input fetched. -/
def OrderedSynchronizer.atCall (o : OrderedSynchronizer) : OrderedSynchronizer :=
  match o.inputBatches with
  | none => o.fetched
  | some _ => o

/-- One emission with the rule on ties, out of the pending rows `p` of `n`
inputs: the row `r` is the head of the pending rows of some input `m`, `q` is
`p` without that head, `r` is no later in the order of the three-way
comparison `c` than the head of any input, and an input whose head compares
equal to `r` has no lower index than `m`. -/
def EmitStepLowest (c : Row → Row → Int) (n : Nat) (p : Nat → List Row) (r : Row)
    (q : Nat → List Row) : Prop :=
  ∃ m, m < n ∧ p m = r :: q m ∧ (∀ i, i ≠ m → q i = p i) ∧
    ∀ i, i < n → ∀ x, (p i).head? = some x → c r x ≤ 0 ∧ (c r x = 0 → m ≤ i)

/-- Successive emissions with the rule on ties: from pending rows `p`, the
rows `out` are emitted in turn and `q` is left. -/
inductive EmitsLowest (c : Row → Row → Int) (n : Nat) :
    (Nat → List Row) → List Row → (Nat → List Row) → Prop where
  | nil (p : Nat → List Row) : EmitsLowest c n p [] p
  | cons {p q s : Nat → List Row} {r : Row} {out : List Row} :
    EmitStepLowest c n p r q → EmitsLowest c n q out s → EmitsLowest c n p (r :: out) s

/-- Sample inputs with equal rows: input 0 returns the batch `[1, 2]`, input 1
the batch `[1, 1, 2]`. -/
def sampleTieInputs (i : Nat) : Operator :=
  if i = 0 then { remaining := [sampleBatch [1, 2]] }
  else { remaining := [sampleBatch [1, 1, 2]] }

/-! ## Sample inputs of `countOp` -/

/-- Sample input: batches of 3 and 2 rows, a zero-length batch, then a batch
of 4 rows that is never read. -/
def sampleCountInput : Operator :=
  { remaining :=
      [{ length := 3, cols := fun _ _ => 0, sel := none },
       { length := 2, cols := fun _ _ => 0, sel := none },
       { length := 0, cols := fun _ _ => 0, sel := none },
       { length := 4, cols := fun _ _ => 0, sel := none }] }

/-- Sample operator that was used before: it is done, holds a count of 9 and
a batch of length 0, and is given the sample input anew. -/
def sampleUsedCountOp : countOp :=
  { input := sampleCountInput, internalBatch := (NewMemBatch [T.Int64]).SetLength 0,
    done := true, count := 9 }

end Exec

/-! Builder of `pkg/sql/opt/optbuilder/builder.go`: `Build` and its errors.

A call that can panic is an `Except`: `Except.ok` for a normal return,
`Except.error` for the panic and its value. -/

namespace Optbuilder

/-- Error made outside this package: a `pgerror.Error`, an error of the
`unimplemented` package, or any other; `text` is its `Error()`. -/
structure ExternalError where
  text : String
  deriving DecidableEq, Repr

/-- Non-nil value of the interface type `error`, as this package sees it: its
own `builderError`, which wraps an error, or an error made elsewhere. -/
inductive GoError where
  | builderError (error : GoError)
  | external (e : ExternalError)
  deriving DecidableEq, Repr

/-- Method `builderError.Error`, and `Error()` of the other errors. -/
def GoError.Error : GoError → String
  | .builderError e => e.Error
  | .external e => e.text

/-- Method `builderError.Cause`: `none` for an error that is no `builderError`. -/
def GoError.Cause : GoError → Option GoError
  | .builderError e => some e
  | .external _ => none

/-- Value given to `panic`: nil, an error, or a value other than nil that is
not an error. -/
inductive PanicValue where
  | nil
  | error (e : GoError)
  | other (v : String)
  deriving DecidableEq, Repr

/-- Function `unimplementedWithIssueDetailf`. `newWithIssueDetailf` is
`unimplemented.NewWithIssueDetailf`, which is declared outside this file. -/
def unimplementedWithIssueDetailf
    (newWithIssueDetailf : Int → String → String → List String → ExternalError)
    (issue : Int) (detail format : String) (args : List String) : GoError :=
  GoError.external (newWithIssueDetailf issue detail format args)

/-- What `Build` runs into, by the statement and the calls it makes:
`isCanned` is the result of the type assertion `b.stmt.(*tree.CannedOptPlan)`;
`cannedBuild` is the run of `b.factory.DisableOptimizations()` and
`exprgen.Build`, ending in the error `exprgen.Build` returns (`none` for nil)
or in a panic; `buildSteps` is the run of `buildStmt`, `makePhysicalProps` and
`SetRoot`, ending normally or in a panic. -/
structure BuildRun where
  isCanned : Bool
  cannedBuild : Except PanicValue (Option GoError)
  buildSteps : Except PanicValue Unit

/-- Body of `Build`, without the deferred function: the error it returns, or
the panic it ends in. -/
def Build.body (run : BuildRun) : Except PanicValue (Option GoError) :=
  if run.isCanned then
    match run.cannedBuild with
    | Except.ok err => Except.ok err
    | Except.error r => Except.error r
  else
    match run.buildSteps with
    | Except.ok _ => Except.ok none
    | Except.error r => Except.error r

/-- Method `(*Builder).Build`: the body under the deferred function. When
the body panics, `recover()` returns the value of the panic. For the nil value
the test `r != nil` fails: the deferred function does nothing and `Build`
returns its result `err`, which is nil since no `return` has assigned it. For
an error the result `err` is set to it and `Build` returns it. With any other
value the deferred function panics again. -/
def Build (run : BuildRun) : Except PanicValue (Option GoError) :=
  match Build.body run with
  | Except.ok err => Except.ok err
  | Except.error PanicValue.nil => Except.ok none
  | Except.error (PanicValue.error e) => Except.ok (some e)
  | Except.error r => Except.error r

/-- Sample error of another package. -/
def sampleExternal : GoError := GoError.external { text := "relation does not exist" }

/-- Sample of `unimplemented.NewWithIssueDetailf`. -/
def sampleNewWithIssueDetailf (issue : Int) (detail format : String) (_args : List String) :
    ExternalError :=
  { text := "unimplemented: " ++ format ++ " (" ++ detail ++ ", issue " ++ toString issue ++ ")" }

end Optbuilder

namespace Roachpb

/-! # Theorems -/

/-! ## Lemmas on `SetDetail` -/

/-- Result of `SetDetail` on a detail variant: it never panics, the message is
the variant's formatter on the envelope as it was, a declared classification
is copied, and the slot holds the variant. -/
theorem setDetail_detail (F : Fmt) (e : Roachpb.Error) (d : Detail) :
    Error.SetDetail F e (some (GoErr.detail d)) =
      Except.ok { e with
        Message := d.message F (some e)
        TransactionRestart := d.canRestartTransaction.getD e.TransactionRestart
        Detail := ErrorDetail.holds d } := by
  cases h : d.canRestartTransaction <;>
    simp [Error.SetDetail, GoErr.asInternalError, GoErr.asErrorDetailInterface,
      GoErr.asTransactionRestartError, ErrorDetail.SetInner, h]

/-- Result of `SetDetail` on a failure of a type outside `errors.go`: the panic
when it declares a restart classification, else the envelope with the new
message and nothing else changed. -/
theorem setDetail_foreign (F : Fmt) (e : Roachpb.Error) (f : ForeignError) :
    Error.SetDetail F e (some (GoErr.foreign f)) =
      match f.restart with
      | some _ =>
        Except.error ("transactionRestartError " ++ f.typeName ++ " must be an ErrorDetail")
      | none =>
        Except.ok { e with
          Message := match f.message with
            | some msg => msg (some e)
            | none => f.text } := by
  cases h : f.restart <;> cases hm : f.message <;>
    simp [Error.SetDetail, GoErr.asInternalError, GoErr.asErrorDetailInterface,
      GoErr.asTransactionRestartError, ErrorDetail.SetInner, GoErr.Error, GoErr.typeName, h, hm]


/-- Envelope that `NewError` makes of a detail variant. -/
theorem newError_detail (F : Fmt) (d : Detail) :
    NewError F (some (GoErr.detail d)) =
      Except.ok (some
        { Message := d.message F (some Error.zero)
          UnexposedTxn := none
          TransactionRestart := d.canRestartTransaction.getD TransactionRestart.NONE
          Detail := ErrorDetail.holds d
          Index := none }) := by
  simp [NewError, setDetail_detail, Error.zero]

/-- Result of `NewError` on a failure of a type outside `errors.go`. -/
theorem newError_foreign (F : Fmt) (f : ForeignError) :
    NewError F (some (GoErr.foreign f)) =
      match f.restart with
      | some _ =>
        Except.error ("transactionRestartError " ++ f.typeName ++ " must be an ErrorDetail")
      | none =>
        Except.ok (some
          { Error.zero with
            Message := match f.message with
              | some msg => msg (some Error.zero)
              | none => f.text }) := by
  cases h : f.restart <;> simp [NewError, setDetail_foreign, h]

/-- Result of `SetDetail` on an `UnhandledRetryableError`: only the message
changes. -/
theorem setDetail_unhandledRetryable (F : Fmt) (e : Roachpb.Error)
    (u : UnhandledRetryableError) :
    Error.SetDetail F e (some (GoErr.unhandledRetryable u)) =
      Except.ok { e with Message := u.PErr.Message } := by
  simp [Error.SetDetail, GoErr.asInternalError, GoErr.asErrorDetailInterface,
    GoErr.asTransactionRestartError, ErrorDetail.SetInner, GoErr.Error]

/-- C1: for every detail variant `d` of the union, `NewError(d)` returns an
envelope whose `GetDetail()` is `d` itself; and when `d` declares a restart
classification `c` other than `NONE`, the envelope's `TransactionRestart` is
`c` and the extracted detail reports `canRestartTransaction() = c`. -/
theorem newError_getDetail_roundTrip (F : Fmt) (d : Detail) :
    ∃ e : Roachpb.Error,
      NewError F (some (GoErr.detail d)) = Except.ok (some e) ∧
      Error.GetDetail (some e) = some (GoErr.detail d) ∧
      ∀ c : TransactionRestart,
        d.canRestartTransaction = some c → c ≠ TransactionRestart.NONE →
          e.TransactionRestart = c ∧
          (Error.GetDetail (some e)).bind GoErr.asTransactionRestartError = some c := by
  refine ⟨_, newError_detail F d, ?_, ?_⟩
  · simp [Error.GetDetail, ErrorDetail.GetInner]
  · intro c hc _
    simp [Error.GetDetail, ErrorDetail.GetInner, GoErr.asTransactionRestartError, hc]

/-- Witness of C1: a `TransactionAbortedError` comes back from the envelope,
which is classified `IMMEDIATE`. -/
theorem newError_getDetail_roundTrip_witness :
    ∃ e : Roachpb.Error,
      NewError sampleFmt (some (GoErr.detail (Detail.TransactionAborted { Reason := 1 }))) =
        Except.ok (some e) ∧
      Error.GetDetail (some e) =
        some (GoErr.detail (Detail.TransactionAborted { Reason := 1 })) ∧
      e.TransactionRestart = TransactionRestart.IMMEDIATE := by
  obtain ⟨e, h1, h2, h3⟩ :=
    newError_getDetail_roundTrip sampleFmt (Detail.TransactionAborted { Reason := 1 })
  exact ⟨e, h1, h2, (h3 TransactionRestart.IMMEDIATE rfl (by simp)).1⟩

/-- C2: for every envelope `e` whose `TransactionRestart` is not `NONE`,
whatever its detail slot holds, `e.GoError()` is the `UnhandledRetryableError`
whose `PErr` is `e`, its `Error()` text is `e.Message`, and it is neither a
bare detail nor the result of `GetDetail`; this holds in particular for
`NewError` of every `TransactionAbortedError`, whose classification is
`IMMEDIATE`. -/
theorem goError_restart_wraps_envelope (F : Fmt) (e : Roachpb.Error)
    (h : e.TransactionRestart ≠ TransactionRestart.NONE) :
    Error.GoError (some e) = some (GoErr.unhandledRetryable { PErr := e }) ∧
    (∀ g : GoErr, Error.GoError (some e) = some g → g.Error F = e.Message) ∧
    (∀ d : Detail, Error.GoError (some e) ≠ some (GoErr.detail d)) ∧
    Error.GoError (some e) ≠ Error.GetDetail (some e) ∧
    (∀ v : TransactionAbortedError, ∃ a : Roachpb.Error,
      NewError F (some (GoErr.detail (Detail.TransactionAborted v))) = Except.ok (some a) ∧
      a.TransactionRestart = TransactionRestart.IMMEDIATE ∧
      Error.GoError (some a) = some (GoErr.unhandledRetryable { PErr := a }) ∧
      (GoErr.unhandledRetryable { PErr := a }).Error F = a.Message) := by
  have hgo : Error.GoError (some e) = some (GoErr.unhandledRetryable { PErr := e }) := by
    simp [Error.GoError, h]
  refine ⟨hgo, ?_, ?_, ?_, ?_⟩
  · intro g hg
    rw [hgo] at hg
    cases hg
    rfl
  · intro d hd
    rw [hgo] at hd
    cases hd
  · rw [hgo]
    cases hs : e.Detail <;> simp [Error.GetDetail, ErrorDetail.GetInner, hs]
  · intro v
    refine ⟨_, newError_detail F _, ?_, ?_, ?_⟩
    · simp [Detail.canRestartTransaction]
    · simp [Error.GoError, Detail.canRestartTransaction]
    · rfl

/-- Witness of C2: the sample envelope classified `IMMEDIATE`. -/
theorem goError_restart_wraps_envelope_witness :
    sampleRestartEnvelope.TransactionRestart ≠ TransactionRestart.NONE ∧
    Error.GoError (some sampleRestartEnvelope) =
      some (GoErr.unhandledRetryable { PErr := sampleRestartEnvelope }) :=
  ⟨by simp [sampleRestartEnvelope],
    (goError_restart_wraps_envelope sampleFmt sampleRestartEnvelope
      (by simp [sampleRestartEnvelope])).1⟩

/-- C3: for every non-nil envelope `e` with `TransactionRestart = NONE`,
`e.GoError()` equals `e.GetDetail()`: the structured detail itself when the
union slot holds one, otherwise the raw-message fallback (the envelope as
`internalError`); and `GoError()` of the nil envelope is nil. -/
theorem goError_none_unwraps_detail (e : Roachpb.Error)
    (h : e.TransactionRestart = TransactionRestart.NONE) :
    Error.GoError (some e) = Error.GetDetail (some e) ∧
    (∀ d : Detail, e.Detail.GetInner = some d →
      Error.GoError (some e) = some (GoErr.detail d)) ∧
    (e.Detail.GetInner = none → Error.GoError (some e) = some (GoErr.internalError e)) ∧
    Error.GoError none = none := by
  have hgo : Error.GoError (some e) = Error.GetDetail (some e) := by
    simp [Error.GoError, h]
  refine ⟨hgo, ?_, ?_, rfl⟩
  · intro d hd
    simp [hgo, Error.GetDetail, hd]
  · intro hd
    simp [hgo, Error.GetDetail, hd]

/-- Witness of C3: the sample envelope classified `NONE` that holds a
`SendError`. -/
theorem goError_none_unwraps_detail_witness :
    sampleSendEnvelope.TransactionRestart = TransactionRestart.NONE ∧
    Error.GoError (some sampleSendEnvelope) =
      some (GoErr.detail (Detail.Send { Message := "x" })) :=
  ⟨rfl, (goError_none_unwraps_detail sampleSendEnvelope rfl).2.1 _ rfl⟩

/-- C4: a failure that declares a restart classification (it has the method
`canRestartTransaction`), that the detail union cannot represent (`SetInner`
reports false) and that is not the internal-error pass-through makes
`SetDetail` panic on every envelope, and `NewError` panic without yielding an
envelope. -/
theorem setDetail_panics_on_unrepresentable_restart (F : Fmt) (err : GoErr)
    (hrep : ∀ slot : ErrorDetail, (slot.SetInner err).2 = false)
    (hint : err.asInternalError = none)
    (hdecl : err.asTransactionRestartError ≠ none) :
    (∀ e : Roachpb.Error, Error.SetDetail F e (some err) =
      Except.error ("transactionRestartError " ++ err.typeName ++ " must be an ErrorDetail")) ∧
    NewError F (some err) =
      Except.error ("transactionRestartError " ++ err.typeName ++ " must be an ErrorDetail") ∧
    ∀ r : Option Roachpb.Error, NewError F (some err) ≠ Except.ok r := by
  cases err with
  | internalError i => simp [GoErr.asInternalError] at hint
  | detail d => simpa [ErrorDetail.SetInner] using hrep ErrorDetail.empty
  | unhandledRetryable u => simp [GoErr.asTransactionRestartError] at hdecl
  | foreign f =>
    cases hr : f.restart with
    | none => simp [GoErr.asTransactionRestartError, hr] at hdecl
    | some c =>
      refine ⟨?_, ?_, ?_⟩
      · intro e
        simp [setDetail_foreign, hr, GoErr.typeName]
      · simp [newError_foreign, hr, GoErr.typeName]
      · intro r
        simp [newError_foreign, hr]

/-- Witness of C4: the sample failure with a `canRestartTransaction` method
and a type outside the union. -/
theorem setDetail_panics_on_unrepresentable_restart_witness :
    NewError sampleFmt (some (GoErr.foreign sampleRestartError)) =
      Except.error "transactionRestartError *roachpb.testError must be an ErrorDetail" :=
  (setDetail_panics_on_unrepresentable_restart sampleFmt (GoErr.foreign sampleRestartError)
    (fun _ => rfl) rfl (by simp [GoErr.asTransactionRestartError, sampleRestartError])).2.1

/-- C5 as stated fails: the sample failure is outside the union and declares
no restart classification, yet the `Message` of its envelope is the text of
its own `message` method, `"formatted"`, and not its `Error()`, `"plain"`. -/
theorem newError_message_from_formatter_not_text :
    (∀ slot : ErrorDetail, (slot.SetInner (GoErr.foreign sampleFormattedError)).2 = false) ∧
    (GoErr.foreign sampleFormattedError).asTransactionRestartError = none ∧
    (GoErr.foreign sampleFormattedError).Error sampleFmt = "plain" ∧
    ∃ e : Roachpb.Error,
      NewError sampleFmt (some (GoErr.foreign sampleFormattedError)) = Except.ok (some e) ∧
      e.Message = "formatted" ∧
      e.Message ≠ (GoErr.foreign sampleFormattedError).Error sampleFmt := by
  refine ⟨fun _ => rfl, rfl, rfl, _, newError_foreign _ _, ?_, ?_⟩ <;>
    simp [sampleFormattedError, GoErr.Error]

/-- C5, amended: for every failure `err` that the detail union cannot
represent and that declares no restart classification, `NewError(err)` does
not fail and its classification is `NONE`; its `Message` is `err.Error()` when
`err` has no `message` method of its own (a plain native error), and the text
of that method when it has one; `GetDetail()` returns the fallback, whose
`Error()` is that `Message`, and so is `GoError().Error()`. -/
theorem newError_unrepresentable_unclassified (F : Fmt) (err : GoErr)
    (hrep : ∀ slot : ErrorDetail, (slot.SetInner err).2 = false)
    (hdecl : err.asTransactionRestartError = none) :
    ∃ e : Roachpb.Error,
      NewError F (some err) = Except.ok (some e) ∧
      e.TransactionRestart = TransactionRestart.NONE ∧
      (err.asErrorDetailInterface F = none → e.Message = err.Error F) ∧
      (∀ msg, err.asErrorDetailInterface F = some msg → e.Message = msg (some Error.zero)) ∧
      Error.GetDetail (some e) = some (GoErr.internalError e) ∧
      (GoErr.internalError e).Error F = e.Message ∧
      (∃ g : GoErr, Error.GoError (some e) = some g ∧ g.Error F = e.Message) ∧
      (err.asErrorDetailInterface F = none →
        ∃ g : GoErr, Error.GoError (some e) = some g ∧ g.Error F = err.Error F) := by
  cases err with
  | internalError i => simp [GoErr.asTransactionRestartError] at hdecl
  | detail d => simpa [ErrorDetail.SetInner] using hrep ErrorDetail.empty
  | unhandledRetryable u =>
    refine ⟨{ Error.zero with Message := u.PErr.Message }, ?_, ?_⟩
    · simp [NewError, setDetail_unhandledRetryable]
    · simp [Error.zero, GoErr.asErrorDetailInterface, GoErr.Error, Error.GetDetail,
        ErrorDetail.GetInner, Error.GoError, Error.String]
  | foreign f =>
    have hr : f.restart = none := by simpa [GoErr.asTransactionRestartError] using hdecl
    cases hm : f.message with
    | none =>
      refine ⟨{ Error.zero with Message := f.text }, ?_, ?_⟩
      · simp [newError_foreign, hr, hm]
      · simp [Error.zero, GoErr.asErrorDetailInterface, GoErr.Error, Error.GetDetail,
          ErrorDetail.GetInner, Error.GoError, Error.String, hm]
    | some m =>
      refine ⟨{ Error.zero with Message := m (some Error.zero) }, ?_, ?_⟩
      · simp [newError_foreign, hr, hm]
      · simp [Error.zero, GoErr.asErrorDetailInterface, GoErr.Error, Error.GetDetail,
          ErrorDetail.GetInner, Error.GoError, Error.String, hm]

/-- Witness of C5: the sample native error. -/
theorem newError_unrepresentable_unclassified_witness :
    ∃ e : Roachpb.Error,
      NewError sampleFmt (some (GoErr.foreign samplePlainError)) = Except.ok (some e) ∧
      e.TransactionRestart = TransactionRestart.NONE ∧
      e.Message = "boom" := by
  obtain ⟨e, h1, h2, h3, _⟩ :=
    newError_unrepresentable_unclassified sampleFmt (GoErr.foreign samplePlainError)
      (fun _ => rfl) rfl
  exact ⟨e, h1, h2, by simpa [GoErr.Error, samplePlainError] using h3 rfl⟩

/-- C6 as stated fails: `NewError(nil)` does not panic. -/
theorem newError_nil_does_not_panic :
    ¬ ∃ p : Panic, NewError sampleFmt none = Except.error p := by
  simp [NewError]

/-- C6, amended: `NewError(nil)` returns nil without panicking, so no envelope
is made from an absent failure. -/
theorem newError_nil_returns_nil (F : Fmt) : NewError F none = Except.ok none := rfl

/-- C7 as stated fails: an interface value that holds a nil `*SendError` is
not nil, `SendError` is a variant that the union can represent and that
declares no restart classification, and `SetDetail` of that value on the
sample envelope panics, on the read through the nil pointer in `message`. -/
theorem setDetail_panics_on_nil_pointer :
    (∀ (slot : ErrorDetail) (v : SendError),
      (slot.SetInner (GoErr.detail (Detail.Send v))).2 = true) ∧
    (∀ v : SendError, (GoErr.detail (Detail.Send v)).asTransactionRestartError = none) ∧
    Error.SetDetail sampleFmt sampleSendEnvelope (some (ErrorValue.nilPointer NilPointer.Send)) =
      Except.error "runtime error: invalid memory address or nil pointer dereference" ∧
    ¬ ∃ r : Roachpb.Error,
      Error.SetDetail sampleFmt sampleSendEnvelope
        (some (ErrorValue.nilPointer NilPointer.Send)) = Except.ok r := by
  refine ⟨fun _ _ => rfl, fun _ => rfl, rfl, ?_⟩
  rintro ⟨r, hr⟩
  cases hr

/-- C7, amended: on every envelope `SetDetail(nil)` panics; `SetDetail` of a
failure held by a pointer that is not nil, when the union can represent it or
it declares no restart classification, does not panic; and `SetDetail` of an
interface value that holds a nil pointer of `*internalError`, of
`*UnhandledRetryableError` or of a variant whose `message` reads its receiver
panics on the read through that pointer. -/
theorem setDetail_nil_panics_else_returns (F : Fmt) (e : Roachpb.Error) :
    Error.SetDetail F e none = Except.error "nil err argument" ∧
    (∀ err : GoErr,
      ((e.Detail.SetInner err).2 = true ∨ err.asTransactionRestartError = none) →
        ∃ r : Roachpb.Error, Error.SetDetail F e (some err) = Except.ok r) ∧
    (∀ p : NilPointer,
      Error.SetDetail F e (some (ErrorValue.nilPointer p)) =
        Except.error nilPointerDereference) := by
  refine ⟨rfl, ?_, fun _ => rfl⟩
  intro err h
  cases err with
  | internalError i => exact ⟨i, rfl⟩
  | detail d => exact ⟨_, setDetail_detail F e d⟩
  | unhandledRetryable u => exact ⟨_, setDetail_unhandledRetryable F e u⟩
  | foreign f =>
    have hr : f.restart = none := by
      simpa [ErrorDetail.SetInner, GoErr.asTransactionRestartError] using h
    refine ⟨{ e with
      Message := match f.message with
        | some msg => msg (some e)
        | none => f.text }, ?_⟩
    rw [setDetail_foreign, hr]

/-- Witness of C7: on the sample envelope, `SetDetail` of a native error and of
a `TransactionAbortedError` both return, and `SetDetail` of a nil
`*TransactionAbortedError` panics. -/
theorem setDetail_nil_panics_else_returns_witness :
    (∃ r : Roachpb.Error,
      Error.SetDetail sampleFmt sampleSendEnvelope (some (GoErr.foreign samplePlainError)) =
        Except.ok r) ∧
    (∃ r : Roachpb.Error,
      Error.SetDetail sampleFmt sampleSendEnvelope
        (some (GoErr.detail (Detail.TransactionAborted { Reason := 1 }))) = Except.ok r) ∧
    Error.SetDetail sampleFmt sampleSendEnvelope
        (some (ErrorValue.nilPointer NilPointer.TransactionAborted)) =
      Except.error nilPointerDereference :=
  ⟨(setDetail_nil_panics_else_returns sampleFmt sampleSendEnvelope).2.1 _ (Or.inr rfl),
    (setDetail_nil_panics_else_returns sampleFmt sampleSendEnvelope).2.1 _ (Or.inl rfl),
    (setDetail_nil_panics_else_returns sampleFmt sampleSendEnvelope).2.2 _⟩

/-- C8: an envelope that `NewError(err)` returns for a failure `err` other
than the internal-error pass-through, and whose `TransactionRestart` is not
`NONE`, has a populated detail slot; the stored detail is `err` itself and is
one of `TransactionAbortedError`, `TransactionPushError`,
`TransactionRetryError`, `WriteTooOldError` and
`ReadWithinUncertaintyIntervalError`. -/
theorem newError_restart_has_classified_detail (F : Fmt) (err : GoErr) (e : Roachpb.Error)
    (hint : err.asInternalError = none)
    (hnew : NewError F (some err) = Except.ok (some e))
    (hr : e.TransactionRestart ≠ TransactionRestart.NONE) :
    ∃ d : Detail, e.Detail.GetInner = some d ∧ err = GoErr.detail d ∧
      ((∃ v, d = Detail.TransactionAborted v) ∨ (∃ v, d = Detail.TransactionPush v) ∨
        (∃ v, d = Detail.TransactionRetry v) ∨ (∃ v, d = Detail.WriteTooOld v) ∨
        (∃ v, d = Detail.ReadWithinUncertaintyInterval v)) := by
  cases err with
  | internalError i => simp [GoErr.asInternalError] at hint
  | detail d =>
    rw [newError_detail] at hnew
    injection hnew with hnew
    injection hnew with hnew
    subst hnew
    refine ⟨d, rfl, rfl, ?_⟩
    cases d <;> simp [Detail.canRestartTransaction] at hr ⊢
  | unhandledRetryable u =>
    simp [NewError, setDetail_unhandledRetryable] at hnew
    subst hnew
    simp [Error.zero] at hr
  | foreign f =>
    rw [newError_foreign] at hnew
    cases hf : f.restart with
    | none =>
      rw [hf] at hnew
      injection hnew with hnew
      injection hnew with hnew
      subst hnew
      simp [Error.zero] at hr
    | some c =>
      rw [hf] at hnew
      cases hnew

/-- Witness of C8: the envelope of a `TransactionAbortedError`. -/
theorem newError_restart_has_classified_detail_witness :
    ∃ d : Detail,
      ErrorDetail.GetInner (ErrorDetail.holds (Detail.TransactionAborted { Reason := 1 })) =
        some d ∧
      GoErr.detail (Detail.TransactionAborted { Reason := 1 }) = GoErr.detail d ∧
      ((∃ v, d = Detail.TransactionAborted v) ∨ (∃ v, d = Detail.TransactionPush v) ∨
        (∃ v, d = Detail.TransactionRetry v) ∨ (∃ v, d = Detail.WriteTooOld v) ∨
        (∃ v, d = Detail.ReadWithinUncertaintyInterval v)) :=
  newError_restart_has_classified_detail sampleFmt
    (GoErr.detail (Detail.TransactionAborted { Reason := 1 }))
    { Message := (Detail.TransactionAborted { Reason := 1 }).message sampleFmt (some Error.zero)
      UnexposedTxn := none
      TransactionRestart := TransactionRestart.IMMEDIATE
      Detail := ErrorDetail.holds (Detail.TransactionAborted { Reason := 1 })
      Index := none }
    rfl (newError_detail sampleFmt _) (by simp)

/-- C9: the variants that declare a restart classification are those of the
spec's immediate-retry row, each with `IMMEDIATE` for every value of its
fields, and no other variant of `errors.go` declares one; so `NewError` of a
variant of the row yields `TransactionRestart = IMMEDIATE` and `NewError` of
any other variant yields `NONE`. -/
theorem canRestartTransaction_as_tabulated (F : Fmt) (d : Detail) :
    (∀ v, (Detail.TransactionAborted v).canRestartTransaction =
      some TransactionRestart.IMMEDIATE) ∧
    (∀ v, (Detail.TransactionPush v).canRestartTransaction =
      some TransactionRestart.IMMEDIATE) ∧
    (∀ v, (Detail.TransactionRetry v).canRestartTransaction =
      some TransactionRestart.IMMEDIATE) ∧
    (∀ v, (Detail.WriteTooOld v).canRestartTransaction =
      some TransactionRestart.IMMEDIATE) ∧
    (∀ v, (Detail.ReadWithinUncertaintyInterval v).canRestartTransaction =
      some TransactionRestart.IMMEDIATE) ∧
    d.canRestartTransaction =
      (if Spec.immediateRetryGroup d then some TransactionRestart.IMMEDIATE else none) ∧
    ∃ e : Roachpb.Error,
      NewError F (some (GoErr.detail d)) = Except.ok (some e) ∧
      e.TransactionRestart =
        (if Spec.immediateRetryGroup d then TransactionRestart.IMMEDIATE
          else TransactionRestart.NONE) := by
  refine ⟨fun _ => rfl, fun _ => rfl, fun _ => rfl, fun _ => rfl, fun _ => rfl, ?_,
    _, newError_detail F d, ?_⟩
  · cases d <;> rfl
  · cases d <;> rfl

/-- C10 as stated fails: `IndeterminateCommitError` has no method
`ClientVisibleAmbiguousError`. -/
theorem indeterminateCommit_not_clientVisibleAmbiguous :
    (Detail.IndeterminateCommit
      { StagingTxn := { ID := 1, MaxTimestamp := ⟨0, 0⟩, ObservedTimestamps := [] } }
      ).isClientVisibleAmbiguousError = false := rfl

/-- C10, amended: `AmbiguousResultError` declares the client-visible-ambiguous
capability and `IndeterminateCommitError` does not; neither declares a restart
classification. -/
theorem ambiguous_capability_of_variants (a : AmbiguousResultError)
    (c : IndeterminateCommitError) :
    (Detail.AmbiguousResult a).isClientVisibleAmbiguousError = true ∧
    (Detail.IndeterminateCommit c).isClientVisibleAmbiguousError = false ∧
    (Detail.AmbiguousResult a).canRestartTransaction = none ∧
    (Detail.IndeterminateCommit c).canRestartTransaction = none :=
  ⟨rfl, rfl, rfl, rfl⟩

/-! ## Lemmas on the formatters -/

/-- A formatter reads of its envelope only the attached transaction. -/
theorem Detail.message_congr (F : Fmt) (d : Detail) (p q : Option Roachpb.Error)
    (h : Error.GetTxn p = Error.GetTxn q) : d.message F p = d.message F q := by
  cases d <;>
    simp [Detail.message, NotLeaseHolderError.message, RangeNotFoundError.message,
      RangeKeyMismatchError.message, ReadWithinUncertaintyIntervalError.message,
      TransactionAbortedError.message, TransactionPushError.message,
      TransactionRetryError.message, TransactionStatusError.message, WriteIntentError.message,
      WriteTooOldError.message, OpRequiresTxnError.message, ConditionFailedError.message,
      LeaseRejectedError.message, NodeUnavailableError.message, SendError.message,
      RaftGroupDeletedError.message, ReplicaCorruptionError.message,
      ReplicaTooOldError.message, AmbiguousResultError.message, StoreNotFoundError.message,
      TransactionRetryWithProtoRefreshError.message, IntegerOverflowError.message,
      UnsupportedRequestError.message, MixedSuccessError.message,
      BatchTimestampBeforeGCError.message, TxnAlreadyEncounteredErrorError.message,
      IntentMissingError.message, MergeInProgressError.message, RangeFeedRetryError.message,
      IndeterminateCommitError.message, h]

/-- C11: `TransactionRetryWithProtoRefreshError` declares the
client-visible-retryable capability and no restart classification; for every
such value `NewError` yields `TransactionRestart = NONE`, and `GoError()` of
that envelope is the value itself, not an `UnhandledRetryableError`. -/
theorem retryWithProtoRefresh_not_wrapped (F : Fmt)
    (v : TransactionRetryWithProtoRefreshError) :
    (Detail.TransactionRetryWithProtoRefresh v).isClientVisibleRetryError = true ∧
    (Detail.TransactionRetryWithProtoRefresh v).canRestartTransaction = none ∧
    ∃ e : Roachpb.Error,
      NewError F (some (GoErr.detail (Detail.TransactionRetryWithProtoRefresh v))) =
        Except.ok (some e) ∧
      e.TransactionRestart = TransactionRestart.NONE ∧
      Error.GoError (some e) = some (GoErr.detail (Detail.TransactionRetryWithProtoRefresh v)) ∧
      ∀ u : UnhandledRetryableError,
        Error.GoError (some e) ≠ some (GoErr.unhandledRetryable u) := by
  refine ⟨rfl, rfl, _, newError_detail F _, ?_, ?_, ?_⟩
  · simp [Detail.canRestartTransaction]
  · simp [Error.GoError, Error.GetDetail, ErrorDetail.GetInner, Detail.canRestartTransaction]
  · intro u
    simp [Error.GoError, Error.GetDetail, ErrorDetail.GetInner, Detail.canRestartTransaction]

/-- C12: whatever the function `clone` that `Transaction.Clone` is:
`UpdateTxn(nil)` leaves the envelope unchanged; `UpdateTxn(o)` with no snapshot
attached stores `clone o`, the result of the call `o.Clone()`, and not `o`
itself; with a snapshot `s` attached it stores the merge `s.Update(o)` and
does not call `clone`; nothing but the snapshot changes. -/
theorem updateTxn_cases (clone : Transaction → Transaction) (e : Roachpb.Error) :
    e.UpdateTxn none clone = e ∧
    (∀ o : Transaction, e.UnexposedTxn = none →
      e.UpdateTxn (some o) clone = { e with UnexposedTxn := some (clone o) }) ∧
    (∀ o s : Transaction, e.UnexposedTxn = some s →
      e.UpdateTxn (some o) clone = { e with UnexposedTxn := some (s.Update o) }) := by
  refine ⟨rfl, ?_, ?_⟩
  · intro o h
    simp [Error.UpdateTxn, h]
  · intro o s h
    simp [Error.UpdateTxn, h]

/-- Witness of C12: on the sample envelope without a snapshot, attaching `A`
stores the clone of `A`, here the one the sample function makes, and merging
`B` next stores the merge of `B` into that clone. -/
theorem updateTxn_cases_witness :
    samplePushEnvelope.UpdateTxn (some sampleTxnA) sampleClone =
      { samplePushEnvelope with UnexposedTxn := some (sampleClone sampleTxnA) } ∧
    (samplePushEnvelope.UpdateTxn (some sampleTxnA) sampleClone).UpdateTxn (some sampleTxnB)
        sampleClone =
      { samplePushEnvelope.UpdateTxn (some sampleTxnA) sampleClone with
        UnexposedTxn := some ((sampleClone sampleTxnA).Update sampleTxnB) } :=
  ⟨(updateTxn_cases sampleClone samplePushEnvelope).2.1 sampleTxnA rfl,
    (updateTxn_cases sampleClone
      (samplePushEnvelope.UpdateTxn (some sampleTxnA) sampleClone)).2.2
      sampleTxnB (sampleClone sampleTxnA) rfl⟩

/-- C13: after attaching a transaction `A` (by `SetTxn`, or by `UpdateTxn` on
an envelope without a snapshot) and merging `B`, the snapshot is `A` merged
with `B`: every member set in `B` wins, every member unset in `B` is kept
from `A`. With `A` holding 1 and 2 and `B` holding 3 and nothing, the
snapshot holds 3 and 2. -/
theorem attach_then_merge_fieldwise (F : Fmt) (e : Roachpb.Error) (A B : Transaction) :
    ((e.SetTxn F (some A)).UpdateTxn (some B)).UnexposedTxn = some (A.Update B) ∧
    (e.UnexposedTxn = none →
      ((e.UpdateTxn (some A)).UpdateTxn (some B)).UnexposedTxn = some (A.Update B)) ∧
    (A.Update B).ID = (if B.ID = 0 then A.ID else B.ID) ∧
    (A.Update B).MaxTimestamp =
      (if B.MaxTimestamp = ⟨0, 0⟩ then A.MaxTimestamp else B.MaxTimestamp) ∧
    (A.Update B).ObservedTimestamps =
      (if B.ObservedTimestamps = [] then A.ObservedTimestamps else B.ObservedTimestamps) ∧
    sampleTxnA.Update sampleTxnB =
      { ID := 3, MaxTimestamp := ⟨2, 0⟩, ObservedTimestamps := [] } := by
  refine ⟨?_, ?_, rfl, rfl, rfl, by decide⟩
  · cases h : e.Detail <;>
      simp [Error.SetTxn, Error.UpdateTxn, ErrorDetail.GetInner, Transaction.Clone, h]
  · intro h
    simp [Error.UpdateTxn, Transaction.Clone, h]

/-- `UpdateTxn` changes no member of the envelope but the snapshot. -/
theorem updateTxn_frame (e : Roachpb.Error) (o : Option Transaction) :
    (e.UpdateTxn o).Message = e.Message ∧ (e.UpdateTxn o).Detail = e.Detail ∧
    (e.UpdateTxn o).TransactionRestart = e.TransactionRestart ∧
    (e.UpdateTxn o).Index = e.Index := by
  cases o with
  | none => simp [Error.UpdateTxn]
  | some t => cases h : e.UnexposedTxn <;> simp [Error.UpdateTxn, h]

/-- The sample envelope `samplePushEnvelope` is the one `NewError` makes of its
detail. -/
theorem newError_samplePush :
    NewError sampleFmt
        (some (GoErr.detail (Detail.TransactionPush { PusheeTxn := sampleTxnB }))) =
      Except.ok (some samplePushEnvelope) := by
  have hm : (Detail.TransactionPush { PusheeTxn := sampleTxnB }).message sampleFmt
      (some Error.zero) = "failed to push txn#3" := by decide
  rw [newError_detail, hm]
  rfl

/-- C14 fails on the code: the sample envelope is the one `NewError` makes of
a `TransactionPushError`; after `UpdateTxn(A)` its snapshot is `A`, its
`Message` is still the text made without a transaction, and the formatter of
the held detail on the updated envelope gives another text, which names `A`. -/
theorem updateTxn_leaves_message_stale :
    NewError sampleFmt
        (some (GoErr.detail (Detail.TransactionPush { PusheeTxn := sampleTxnB }))) =
      Except.ok (some samplePushEnvelope) ∧
    (samplePushEnvelope.UpdateTxn (some sampleTxnA)).UnexposedTxn = some sampleTxnA ∧
    (samplePushEnvelope.UpdateTxn (some sampleTxnA)).Message = "failed to push txn#3" ∧
    (Detail.TransactionPush { PusheeTxn := sampleTxnB }).message sampleFmt
        (some (samplePushEnvelope.UpdateTxn (some sampleTxnA))) =
      "txn txn#1 failed to push txn#3" ∧
    (samplePushEnvelope.UpdateTxn (some sampleTxnA)).Message ≠
      (Detail.TransactionPush { PusheeTxn := sampleTxnB }).message sampleFmt
        (some (samplePushEnvelope.UpdateTxn (some sampleTxnA))) := by
  refine ⟨newError_samplePush, rfl, rfl, ?_, ?_⟩
  · decide
  · decide

/-- C15: after `e.SetTxn(txn)` on an envelope whose slot holds the structured
detail `d`, the `Message` is `d.message` on the updated envelope, that is on
the newly stored snapshot; on an envelope whose slot holds no structured
detail the `Message` is unchanged. -/
theorem setTxn_resets_message (F : Fmt) (e : Roachpb.Error) (txn : Option Transaction) :
    (∀ d : Detail, e.Detail.GetInner = some d →
      (e.SetTxn F txn).Message = d.message F (some (e.SetTxn F txn)) ∧
      (e.SetTxn F txn).Message =
        d.message F (some { e with UnexposedTxn := txn.map Transaction.Clone })) ∧
    (e.Detail.GetInner = none → (e.SetTxn F txn).Message = e.Message) := by
  constructor
  · intro d hd
    cases txn with
    | none =>
      refine ⟨?_, ?_⟩
      · simp only [Error.SetTxn, hd]
        exact Detail.message_congr F d _ _ rfl
      · simp [Error.SetTxn, hd]
    | some t =>
      refine ⟨?_, ?_⟩
      · simp only [Error.SetTxn, hd]
        exact Detail.message_congr F d _ _ rfl
      · simp [Error.SetTxn, hd]
  · intro hd
    cases txn <;> simp [Error.SetTxn, hd]

/-- Witness of C15: attaching `A` to the sample envelope that holds a
`TransactionPushError` makes the message name `A`. -/
theorem setTxn_resets_message_witness :
    (samplePushEnvelope.SetTxn sampleFmt (some sampleTxnA)).Message =
      "txn txn#1 failed to push txn#3" := by
  rw [((setTxn_resets_message sampleFmt samplePushEnvelope (some sampleTxnA)).1 _ rfl).2]
  decide

/-- C16 as stated fails: the sample envelope carries the snapshot `A`, and
after `SetTxn(nil)` it carries none. -/
theorem setTxn_nil_drops_snapshot :
    sampleTxnEnvelope.UnexposedTxn = some sampleTxnA ∧
    (sampleTxnEnvelope.SetTxn sampleFmt none).UnexposedTxn = none ∧
    (sampleTxnEnvelope.SetTxn sampleFmt none).UnexposedTxn ≠ sampleTxnEnvelope.UnexposedTxn := by
  refine ⟨rfl, rfl, ?_⟩
  simp [Error.SetTxn, sampleTxnEnvelope, sampleSendEnvelope, ErrorDetail.GetInner]

/-- C16, amended: `e.SetTxn(nil)` sets the snapshot to nil, recomputes the
`Message` from the structured detail when the slot holds one and leaves it
otherwise, and leaves the detail slot, `TransactionRestart` and `Index`
unchanged; it leaves the whole envelope unchanged when `e` carries no
snapshot and either holds no structured detail or has the message its detail
formats. -/
theorem setTxn_nil_effect (F : Fmt) (e : Roachpb.Error) :
    (e.SetTxn F none).UnexposedTxn = none ∧
    (e.SetTxn F none).Detail = e.Detail ∧
    (e.SetTxn F none).TransactionRestart = e.TransactionRestart ∧
    (e.SetTxn F none).Index = e.Index ∧
    (∀ d : Detail, e.Detail.GetInner = some d →
      (e.SetTxn F none).Message = d.message F (some (e.SetTxn F none))) ∧
    (e.Detail.GetInner = none → (e.SetTxn F none).Message = e.Message) ∧
    (e.UnexposedTxn = none →
      (∀ d : Detail, e.Detail.GetInner = some d → e.Message = d.message F (some e)) →
      e.SetTxn F none = e) := by
  cases hd : e.Detail.GetInner with
  | none =>
    refine ⟨?_, ?_, ?_, ?_, ?_, ?_, ?_⟩ <;> simp [Error.SetTxn, hd]
    intro h
    cases e
    simp_all
  | some d =>
    refine ⟨?_, ?_, ?_, ?_, ?_, ?_, ?_⟩
    · simp [Error.SetTxn, hd]
    · simp [Error.SetTxn, hd]
    · simp [Error.SetTxn, hd]
    · simp [Error.SetTxn, hd]
    · intro d1 h1
      cases h1
      simp only [Error.SetTxn, hd]
      exact Detail.message_congr F d _ _ rfl
    · intro h
      cases h
    · intro h hm
      have h1 : d.message F (some { e with UnexposedTxn := none }) = e.Message := by
        rw [hm d rfl]
        exact Detail.message_congr F d _ _ (by simp [Error.GetTxn, h])
      cases e
      simp_all [Error.SetTxn]

/-- C17: whatever the function `clone` that `Transaction.Clone` is: after
`e.SetTxn(txn)` with a non-nil `txn`, `GetTxn()` is `clone txn`, the result of
the call `txn.Clone()` and not `txn` itself, and the detail slot,
`TransactionRestart` and `Index` are those of `e`; `NewErrorWithTxn(err, txn)`
is the envelope of `NewError(err)` after `SetTxn(txn)`, so that it carries
`clone txn` for a non-nil `txn`, and it panics as `NewError(err)` does. -/
theorem setTxn_stores_clone (clone : Transaction → Transaction) (F : Fmt) (e : Roachpb.Error)
    (txn : Transaction) :
    Error.GetTxn (some (e.SetTxn F (some txn) clone)) = some (clone txn) ∧
    (e.SetTxn F (some txn) clone).Detail = e.Detail ∧
    (e.SetTxn F (some txn) clone).TransactionRestart = e.TransactionRestart ∧
    (e.SetTxn F (some txn) clone).Index = e.Index ∧
    (∀ (err : GoErr) (t : Option Transaction) (a : Roachpb.Error),
      NewError F (some err) = Except.ok (some a) →
        NewErrorWithTxn F (some err) t clone = Except.ok (some (a.SetTxn F t clone))) ∧
    (∀ (err : GoErr) (a : Roachpb.Error),
      NewError F (some err) = Except.ok (some a) →
        ∃ r : Roachpb.Error,
          NewErrorWithTxn F (some err) (some txn) clone = Except.ok (some r) ∧
          Error.GetTxn (some r) = some (clone txn)) ∧
    (∀ (err : GoErr) (t : Option Transaction) (p : Panic),
      NewError F (some err) = Except.error p →
        NewErrorWithTxn F (some err) t clone = Except.error p) := by
  have hget : ∀ a : Roachpb.Error,
      Error.GetTxn (some (a.SetTxn F (some txn) clone)) = some (clone txn) := by
    intro a
    cases hd : a.Detail.GetInner <;> simp [Error.SetTxn, Error.GetTxn, hd]
  refine ⟨hget e, ?_, ?_, ?_, ?_, ?_, ?_⟩
  · cases hd : e.Detail.GetInner <;> simp [Error.SetTxn, hd]
  · cases hd : e.Detail.GetInner <;> simp [Error.SetTxn, hd]
  · cases hd : e.Detail.GetInner <;> simp [Error.SetTxn, hd]
  · intro err t a h
    simp [NewErrorWithTxn, h]
  · intro err a h
    exact ⟨_, by simp [NewErrorWithTxn, h], hget a⟩
  · intro err t p h
    simp [NewErrorWithTxn, h]

/-- Witness of C17: `NewErrorWithTxn` of a `TransactionPushError` and `A`,
with the sample function for `Transaction.Clone`: the envelope carries the
clone that function makes of `A`. -/
theorem setTxn_stores_clone_witness :
    NewErrorWithTxn sampleFmt
        (some (GoErr.detail (Detail.TransactionPush { PusheeTxn := sampleTxnB })))
        (some sampleTxnA) sampleClone =
      Except.ok (some (samplePushEnvelope.SetTxn sampleFmt (some sampleTxnA) sampleClone)) ∧
    Error.GetTxn (some (samplePushEnvelope.SetTxn sampleFmt (some sampleTxnA) sampleClone)) =
      some (sampleClone sampleTxnA) :=
  ⟨(setTxn_stores_clone sampleClone sampleFmt samplePushEnvelope sampleTxnA).2.2.2.2.1 _ _ _
      newError_samplePush,
    (setTxn_stores_clone sampleClone sampleFmt samplePushEnvelope sampleTxnA).1⟩

/-! ## Lemmas on the key loop of `WriteIntentError.message` -/

/-- A text put before the accumulator of `String.intercalate.go` comes out in
front of the result. -/
theorem intercalate_go_append (p s : String) (l : List String) (acc : String) :
    String.intercalate.go (p ++ acc) s l = p ++ String.intercalate.go acc s l := by
  induction l generalizing acc with
  | nil => simp [String.intercalate.go]
  | cons a l ih =>
    simp only [String.intercalate.go]
    rw [String.append_assoc, String.append_assoc, ← String.append_assoc acc, ih]

/-- Past its first round the key loop is the loop of `String.intercalate`. -/
theorem writeIntentKeys_succ (F : Fmt) (i : Nat) (xs : List Intent) (buf : String) :
    writeIntentKeys F (i + 1) xs buf =
      String.intercalate.go buf ", " (xs.map (fun x => F.keyString x.Key)) := by
  induction xs generalizing i buf with
  | nil => simp [writeIntentKeys, String.intercalate.go]
  | cons x xs ih =>
    simp only [writeIntentKeys, List.map_cons, String.intercalate.go]
    rw [ih]
    simp

/-- The key loop, started at index 0, appends the keys joined by `", "`. -/
theorem writeIntentKeys_zero (F : Fmt) (xs : List Intent) (buf : String) :
    writeIntentKeys F 0 xs buf =
      buf ++ ", ".intercalate (xs.map (fun x => F.keyString x.Key)) := by
  cases xs with
  | nil => simp [writeIntentKeys, String.intercalate]
  | cons x xs =>
    simp only [writeIntentKeys, List.map_cons, String.intercalate]
    rw [writeIntentKeys_succ]
    simpa using intercalate_go_append buf ", " _ (F.keyString x.Key)

/-- C18: for a list of `n` intents, the message of `WriteIntentError` is
`"conflicting intents on "` and then, if `n ≤ 10`, all keys in order joined by
`", "`; if `n > 10`, the first 5 keys joined by `", "`, the marker `" ... "`
once, and the last 5 keys joined by `", "`, the entries between them being
left out. -/
theorem writeIntentError_message_shape (F : Fmt) (e : WriteIntentError)
    (pErr : Option Roachpb.Error) :
    (e.Intents.length ≤ 10 →
      e.message F pErr =
        "conflicting intents on " ++
          ", ".intercalate (e.Intents.map (fun x => F.keyString x.Key))) ∧
    (10 < e.Intents.length →
      e.message F pErr =
        "conflicting intents on " ++
          ", ".intercalate ((e.Intents.take 5).map (fun x => F.keyString x.Key)) ++
          " ... " ++
          ", ".intercalate
            ((e.Intents.drop (e.Intents.length - 5)).map (fun x => F.keyString x.Key)) ∧
      (e.Intents.take 5).length = 5 ∧
      (e.Intents.drop (e.Intents.length - 5)).length = 5) := by
  constructor
  · intro h
    simp [WriteIntentError.message, h, writeIntentKeys_zero]
  · intro h
    have h1 : ¬ e.Intents.length ≤ 5 + 5 := by omega
    refine ⟨?_, ?_, ?_⟩
    · simp only [WriteIntentError.message, h1, if_false, writeIntentKeys_zero]
    · simp; omega
    · simp; omega

/-- Witness of C18: 3 intents are all listed; of 12 intents the first 5 and
the last 5 are listed around one marker. -/
theorem writeIntentError_message_shape_witness :
    WriteIntentError.message sampleFmt { Intents := sampleIntents 3 } none =
      "conflicting intents on [0], [1], [2]" ∧
    WriteIntentError.message sampleFmt { Intents := sampleIntents 12 } none =
      "conflicting intents on [0], [1], [2], [3], [4] ... [7], [8], [9], [10], [11]" := by
  constructor
  · rw [(writeIntentError_message_shape sampleFmt { Intents := sampleIntents 3 } none).1
      (by decide)]
    decide
  · rw [((writeIntentError_message_shape sampleFmt { Intents := sampleIntents 12 } none).2
      (by decide)).1]
    decide

/-- C19: `NewRangeKeyMismatchError(start, end, desc)` panics exactly when
`desc` is non-nil and not initialized, and then yields no value; when `desc`
is nil or initialized it returns the value with `RequestStartKey = start`,
`RequestEndKey = end` and `MismatchedRange = desc`. -/
theorem newRangeKeyMismatchError_panics_iff (IsInitialized : RangeDescriptor → Bool)
    (plusV : RangeDescriptor → String) (start end_ : Key) (desc : Option RangeDescriptor) :
    ((∃ p : Panic, NewRangeKeyMismatchError IsInitialized plusV start end_ desc =
        Except.error p) ↔
      ∃ d : RangeDescriptor, desc = some d ∧ IsInitialized d = false) ∧
    ((∃ d : RangeDescriptor, desc = some d ∧ IsInitialized d = false) →
      ∀ v : RangeKeyMismatchError,
        NewRangeKeyMismatchError IsInitialized plusV start end_ desc ≠ Except.ok v) ∧
    ((desc = none ∨ ∃ d : RangeDescriptor, desc = some d ∧ IsInitialized d = true) →
      NewRangeKeyMismatchError IsInitialized plusV start end_ desc =
        Except.ok { RequestStartKey := start, RequestEndKey := end_, MismatchedRange := desc }) := by
  cases desc with
  | none => simp [NewRangeKeyMismatchError]
  | some d => cases h : IsInitialized d <;> simp [NewRangeKeyMismatchError, h]

/-- Witness of C19: with initialization read as "the end key is not empty",
a descriptor without end key makes the constructor panic and one with an end
key is attached. -/
theorem newRangeKeyMismatchError_panics_iff_witness :
    (∃ p : Panic,
      NewRangeKeyMismatchError (fun d => !d.EndKey.isEmpty) (fun _ => "desc") [1] [2]
        (some { StartKey := [], EndKey := [], raw := 0 }) = Except.error p) ∧
    NewRangeKeyMismatchError (fun d => !d.EndKey.isEmpty) (fun _ => "desc") [1] [2]
        (some { StartKey := [], EndKey := [9], raw := 0 }) =
      Except.ok { RequestStartKey := [1], RequestEndKey := [2],
                  MismatchedRange := some { StartKey := [], EndKey := [9], raw := 0 } } :=
  ⟨(newRangeKeyMismatchError_panics_iff _ _ _ _ _).1.2 ⟨_, rfl, rfl⟩,
    (newRangeKeyMismatchError_panics_iff _ _ _ _ _).2.2 (Or.inr ⟨_, rfl, rfl⟩)⟩

/-- C20: wrapping is idempotent: for every non-nil failure `X`, wrapping the
wrapper of `X` returns the wrapper of `X`, and wrapping any
`MixedSuccessError` `m` returns `m`. -/
theorem wrapWithMixedSuccessError_idempotent (F : Fmt) (X : GoErr) (m : MixedSuccessError) :
    WrapWithMixedSuccessError F (WrapWithMixedSuccessError F X).toGoErr =
      WrapWithMixedSuccessError F X ∧
    WrapWithMixedSuccessError F m.toGoErr = m := by
  have key : ∀ n : MixedSuccessError, WrapWithMixedSuccessError F n.toGoErr = n := by
    intro n
    simp [WrapWithMixedSuccessError, MixedSuccessError.toGoErr, GoErr.asMixedSuccessError]
  exact ⟨key _, key m⟩

/-- Witness of C20: the wrapper of a native error keeps its text and is not
nested by a second wrapping. -/
theorem wrapWithMixedSuccessError_idempotent_witness :
    WrapWithMixedSuccessError sampleFmt (GoErr.foreign samplePlainError) =
      { Wrapped := ErrorDetail.empty, WrappedMessage := "boom" } ∧
    WrapWithMixedSuccessError sampleFmt
        (WrapWithMixedSuccessError sampleFmt (GoErr.foreign samplePlainError)).toGoErr =
      WrapWithMixedSuccessError sampleFmt (GoErr.foreign samplePlainError) :=
  ⟨rfl, (wrapWithMixedSuccessError_idempotent sampleFmt (GoErr.foreign samplePlainError)
    { Wrapped := ErrorDetail.empty, WrappedMessage := "" }).1⟩

/-! ## Lemmas on `MixedSuccessError` -/

/-- The text of `GetWrapped()` is the text the wrapper's formatter prints. -/
theorem getWrapped_error (F : Fmt) (m : MixedSuccessError) :
    m.GetWrapped.Error F = ErrorDetail.wrappedText F m.Wrapped m.WrappedMessage := by
  cases h : m.Wrapped <;>
    simp [MixedSuccessError.GetWrapped, ErrorDetail.GetInner, ErrorDetail.wrappedText,
      errorsNew, GoErr.Error, h]

/-- Wrapper of a failure that is not itself a `MixedSuccessError`. -/
theorem wrap_of_not_mixed (F : Fmt) (d : GoErr) (hm : d.asMixedSuccessError = none) :
    WrapWithMixedSuccessError F d =
      if (ErrorDetail.empty.SetInner d).2 then
        { Wrapped := (ErrorDetail.empty.SetInner d).1, WrappedMessage := "" }
      else { Wrapped := (ErrorDetail.empty.SetInner d).1, WrappedMessage := d.Error F } := by
  cases h : (ErrorDetail.empty.SetInner d).2 <;> simp [WrapWithMixedSuccessError, hm, h]

/-- C21: for a non-nil failure `d` that is not a `MixedSuccessError`: when the
union can represent `d`, `GetWrapped()` of its wrapper is `d`; otherwise the
wrapper's `WrappedMessage` is `d.Error()` and `GetWrapped()` is a native error
with that text. Either way `GetWrapped().Error()` is `d.Error()` and the
wrapper's message is `"the batch experienced mixed success and failure: "`
followed by that text. -/
theorem wrapWithMixedSuccessError_retains_cause (F : Fmt) (d : GoErr)
    (hm : d.asMixedSuccessError = none) :
    ((ErrorDetail.empty.SetInner d).2 = true →
      (WrapWithMixedSuccessError F d).GetWrapped = d) ∧
    ((ErrorDetail.empty.SetInner d).2 = false →
      (WrapWithMixedSuccessError F d).WrappedMessage = d.Error F ∧
      (WrapWithMixedSuccessError F d).GetWrapped = errorsNew (d.Error F)) ∧
    (WrapWithMixedSuccessError F d).GetWrapped.Error F = d.Error F ∧
    (∀ pErr : Option Roachpb.Error,
      MixedSuccessError.message F (WrapWithMixedSuccessError F d).Wrapped
          (WrapWithMixedSuccessError F d).WrappedMessage pErr =
        "the batch experienced mixed success and failure: " ++ d.Error F) ∧
    (WrapWithMixedSuccessError F d).toGoErr.Error F =
      "the batch experienced mixed success and failure: " ++ d.Error F := by
  have hw := wrap_of_not_mixed F d hm
  cases d with
  | detail x =>
    have hx : WrapWithMixedSuccessError F (GoErr.detail x) =
        { Wrapped := ErrorDetail.holds x, WrappedMessage := "" } := by
      simpa [ErrorDetail.SetInner] using hw
    simp [hx, MixedSuccessError.GetWrapped, ErrorDetail.GetInner, ErrorDetail.SetInner,
      GoErr.Error, MixedSuccessError.message, ErrorDetail.wrappedText,
      MixedSuccessError.toGoErr, Detail.Error]
  | internalError x =>
    have hx : WrapWithMixedSuccessError F (GoErr.internalError x) =
        { Wrapped := ErrorDetail.empty,
          WrappedMessage := (GoErr.internalError x).Error F } := by
      simpa [ErrorDetail.SetInner] using hw
    simp [hx, MixedSuccessError.GetWrapped, ErrorDetail.GetInner, ErrorDetail.SetInner,
      GoErr.Error, MixedSuccessError.message, ErrorDetail.wrappedText,
      MixedSuccessError.toGoErr, Detail.Error, errorsNew]
  | unhandledRetryable x =>
    have hx : WrapWithMixedSuccessError F (GoErr.unhandledRetryable x) =
        { Wrapped := ErrorDetail.empty,
          WrappedMessage := (GoErr.unhandledRetryable x).Error F } := by
      simpa [ErrorDetail.SetInner] using hw
    simp [hx, MixedSuccessError.GetWrapped, ErrorDetail.GetInner, ErrorDetail.SetInner,
      GoErr.Error, MixedSuccessError.message, ErrorDetail.wrappedText,
      MixedSuccessError.toGoErr, Detail.Error, errorsNew]
  | foreign x =>
    have hx : WrapWithMixedSuccessError F (GoErr.foreign x) =
        { Wrapped := ErrorDetail.empty, WrappedMessage := (GoErr.foreign x).Error F } := by
      simpa [ErrorDetail.SetInner] using hw
    simp [hx, MixedSuccessError.GetWrapped, ErrorDetail.GetInner, ErrorDetail.SetInner,
      GoErr.Error, MixedSuccessError.message, ErrorDetail.wrappedText,
      MixedSuccessError.toGoErr, Detail.Error, errorsNew]

/-- Witness of C21: the wrapper of a native error and of a `SendError`. -/
theorem wrapWithMixedSuccessError_retains_cause_witness :
    (WrapWithMixedSuccessError sampleFmt (GoErr.foreign samplePlainError)).GetWrapped.Error
        sampleFmt = "boom" ∧
    (WrapWithMixedSuccessError sampleFmt
        (GoErr.detail (Detail.Send { Message := "x" }))).GetWrapped =
      GoErr.detail (Detail.Send { Message := "x" }) :=
  ⟨(wrapWithMixedSuccessError_retains_cause sampleFmt (GoErr.foreign samplePlainError)
      rfl).2.2.1,
    (wrapWithMixedSuccessError_retains_cause sampleFmt
      (GoErr.detail (Detail.Send { Message := "x" })) rfl).1 rfl⟩

/-- C22: `NewReadWithinUncertaintyIntervalError(readTS, existingTS, txn)` keeps
the two timestamps; with a non-nil `txn` its `MaxTimestamp` holds
`txn.MaxTimestamp` and its `ObservedTimestamps` are those of `txn`; with a nil
`txn` the `MaxTimestamp` is absent and the `ObservedTimestamps` are empty. -/
theorem newReadWithinUncertaintyIntervalError_fields (readTS existingTS : Timestamp)
    (txn : Option Transaction) :
    (NewReadWithinUncertaintyIntervalError readTS existingTS txn).ReadTimestamp = readTS ∧
    (NewReadWithinUncertaintyIntervalError readTS existingTS txn).ExistingTimestamp =
      existingTS ∧
    (∀ t : Transaction, txn = some t →
      (NewReadWithinUncertaintyIntervalError readTS existingTS txn).MaxTimestamp =
        some t.MaxTimestamp ∧
      (NewReadWithinUncertaintyIntervalError readTS existingTS txn).ObservedTimestamps =
        t.ObservedTimestamps) ∧
    (txn = none →
      (NewReadWithinUncertaintyIntervalError readTS existingTS txn).MaxTimestamp = none ∧
      (NewReadWithinUncertaintyIntervalError readTS existingTS txn).ObservedTimestamps = []) := by
  cases txn <;> simp [NewReadWithinUncertaintyIntervalError]

/-- Witness of C22: construction from the sample transaction `A`. -/
theorem newReadWithinUncertaintyIntervalError_fields_witness :
    (NewReadWithinUncertaintyIntervalError ⟨5, 0⟩ ⟨6, 0⟩ (some sampleTxnA)).MaxTimestamp =
      some ⟨2, 0⟩ ∧
    (NewReadWithinUncertaintyIntervalError ⟨5, 0⟩ ⟨6, 0⟩ none).MaxTimestamp = none :=
  ⟨((newReadWithinUncertaintyIntervalError_fields ⟨5, 0⟩ ⟨6, 0⟩ (some sampleTxnA)).2.2.1
      sampleTxnA rfl).1,
    ((newReadWithinUncertaintyIntervalError_fields ⟨5, 0⟩ ⟨6, 0⟩ none).2.2.2 rfl).1⟩

/-- Result of `NewErrorWithTxn` on a detail variant: the envelope of `NewError`
after `SetTxn`. -/
theorem newErrorWithTxn_detail (F : Fmt) (d : Detail) (txn : Option Transaction) :
    NewErrorWithTxn F (some (GoErr.detail d)) txn =
      Except.ok (some (Error.SetTxn F
        { Message := d.message F (some Error.zero)
          UnexposedTxn := none
          TransactionRestart := d.canRestartTransaction.getD TransactionRestart.NONE
          Detail := ErrorDetail.holds d
          Index := none } txn)) := by
  simp only [NewErrorWithTxn, newError_detail]

/-- Envelope that `NewErrorWithTxn` makes of a detail variant and a non-nil
transaction. -/
theorem newErrorWithTxn_detail_message (F : Fmt) (d : Detail) (txn : Transaction) :
    ∃ e : Roachpb.Error,
      NewErrorWithTxn F (some (GoErr.detail d)) (some txn) = Except.ok (some e) ∧
      e.UnexposedTxn = some txn ∧
      e.Message = d.message F (some e) := by
  refine ⟨_, newErrorWithTxn_detail F d (some txn), ?_, ?_⟩
  · simp [Error.SetTxn, ErrorDetail.GetInner, Transaction.Clone]
  · simp only [Error.SetTxn, ErrorDetail.GetInner]
    exact Detail.message_congr F d _ _ rfl

/-- C23: for a `TransactionPushError` with pushee `p`, the message of
`NewError` is `"failed to push <p>"` and the message of `NewErrorWithTxn` with
a non-nil `txn` is `"txn <txn> failed to push <p>"`; `IndeterminateCommitError`
does the same with `"found txn in indeterminate STAGING state <staging txn>"`. -/
theorem push_and_indeterminate_messages (F : Fmt) (p txn : Transaction) :
    (∃ e : Roachpb.Error,
      NewError F (some (GoErr.detail (Detail.TransactionPush { PusheeTxn := p }))) =
        Except.ok (some e) ∧
      e.Message = "failed to push " ++ F.sTxn p) ∧
    (∃ e : Roachpb.Error,
      NewErrorWithTxn F (some (GoErr.detail (Detail.TransactionPush { PusheeTxn := p })))
          (some txn) = Except.ok (some e) ∧
      e.Message = "txn " ++ F.sTxnPtr (some txn) ++ " " ++ ("failed to push " ++ F.sTxn p)) ∧
    (∃ e : Roachpb.Error,
      NewError F (some (GoErr.detail (Detail.IndeterminateCommit { StagingTxn := p }))) =
        Except.ok (some e) ∧
      e.Message = "found txn in indeterminate STAGING state " ++ F.sTxn p) ∧
    (∃ e : Roachpb.Error,
      NewErrorWithTxn F (some (GoErr.detail (Detail.IndeterminateCommit { StagingTxn := p })))
          (some txn) = Except.ok (some e) ∧
      e.Message =
        "txn " ++ F.sTxnPtr (some txn) ++ " " ++
          ("found txn in indeterminate STAGING state " ++ F.sTxn p)) := by
  refine ⟨⟨_, newError_detail F _, ?_⟩, ?_, ⟨_, newError_detail F _, ?_⟩, ?_⟩
  · simp [Detail.message, TransactionPushError.message, Error.GetTxn, Error.zero]
  · obtain ⟨e, h1, h2, h3⟩ := newErrorWithTxn_detail_message F
      (Detail.TransactionPush { PusheeTxn := p }) txn
    refine ⟨e, h1, ?_⟩
    rw [h3]
    simp [Detail.message, TransactionPushError.message, Error.GetTxn, h2]
  · simp [Detail.message, IndeterminateCommitError.message, Error.GetTxn, Error.zero]
  · obtain ⟨e, h1, h2, h3⟩ := newErrorWithTxn_detail_message F
      (Detail.IndeterminateCommit { StagingTxn := p }) txn
    refine ⟨e, h1, ?_⟩
    rw [h3]
    simp [Detail.message, IndeterminateCommitError.message, Error.GetTxn, h2]

/-- Witness of C23: the two messages of the sample `TransactionPushError`. -/
theorem push_and_indeterminate_messages_witness :
    (∃ e : Roachpb.Error,
      NewError sampleFmt
          (some (GoErr.detail (Detail.TransactionPush { PusheeTxn := sampleTxnB }))) =
        Except.ok (some e) ∧
      e.Message = "failed to push txn#3") ∧
    (∃ e : Roachpb.Error,
      NewErrorWithTxn sampleFmt
          (some (GoErr.detail (Detail.TransactionPush { PusheeTxn := sampleTxnB })))
          (some sampleTxnA) = Except.ok (some e) ∧
      e.Message = "txn txn#1 failed to push txn#3") := by
  obtain ⟨⟨e1, h1, m1⟩, ⟨e2, h2, m2⟩, _⟩ :=
    push_and_indeterminate_messages sampleFmt sampleTxnB sampleTxnA
  refine ⟨⟨e1, h1, ?_⟩, ⟨e2, h2, ?_⟩⟩
  · rw [m1]
    decide
  · rw [m2]
    decide

/-- The formatter of a variant of the envelope-independent group gives the
same text on every envelope. -/
theorem message_const_of_group (F : Fmt) (d : Detail)
    (hg : Spec.envelopeIndependentGroup d = true) (p q : Option Roachpb.Error) :
    d.message F p = d.message F q := by
  cases d <;> first
    | (simp [Spec.envelopeIndependentGroup] at hg; done)
    | simp [Detail.message, NotLeaseHolderError.message, RangeNotFoundError.message,
        RangeKeyMismatchError.message, ReadWithinUncertaintyIntervalError.message,
        WriteIntentError.message, WriteTooOldError.message, OpRequiresTxnError.message,
        ConditionFailedError.message, LeaseRejectedError.message,
        NodeUnavailableError.message, SendError.message, RaftGroupDeletedError.message,
        ReplicaCorruptionError.message, ReplicaTooOldError.message,
        AmbiguousResultError.message, StoreNotFoundError.message,
        TransactionRetryWithProtoRefreshError.message, IntegerOverflowError.message,
        UnsupportedRequestError.message, MixedSuccessError.message,
        BatchTimestampBeforeGCError.message, TxnAlreadyEncounteredErrorError.message,
        IntentMissingError.message, MergeInProgressError.message,
        RangeFeedRetryError.message]

/-- For a variant of the envelope-independent group `Error()` is the text of
the formatter. -/
theorem error_eq_message_of_group (F : Fmt) (d : Detail)
    (hg : Spec.envelopeIndependentGroup d = true) (p : Option Roachpb.Error) :
    d.Error F = d.message F p := by
  rw [message_const_of_group F d hg p none]
  cases d <;> first
    | (simp [Spec.envelopeIndependentGroup] at hg; done)
    | simp [Detail.message, Detail.Error, MixedSuccessError.message]

/-- C24 as stated fails: `SetDetail` of a native error on the sample envelope
that holds a `SendError`, a variant of the envelope-independent group, leaves
an envelope that still holds the `SendError` and has the message `"boom"`;
attaching a transaction to it changes the message to the text of the
`SendError`. -/
theorem setTxn_rerenders_message :
    Spec.envelopeIndependentGroup (Detail.Send { Message := "x" }) = true ∧
    ∃ r : Roachpb.Error,
      Error.SetDetail sampleFmt sampleSendEnvelope (some (GoErr.foreign samplePlainError)) =
        Except.ok r ∧
      r.Detail.GetInner = some (Detail.Send { Message := "x" }) ∧
      r.Message = "boom" ∧
      (r.SetTxn sampleFmt (some sampleTxnA)).Message = "failed to send RPC: x" ∧
      (r.SetTxn sampleFmt (some sampleTxnA)).Message ≠ r.Message := by
  refine ⟨rfl, _, setDetail_foreign _ _ _, rfl, rfl, ?_, ?_⟩
  · decide
  · decide

/-- C24, amended: for every variant of the envelope-independent group the
formatter gives the same text on all envelopes, nil included; so `Error()` is
`message(e)` for every `e`. On every envelope that holds the variant,
`UpdateTxn` leaves the `Message` as it is and `SetTxn` makes it the text of
the variant, so that `SetTxn` leaves it as it is when it is that text already;
such is the envelope of `NewError`, and `NewErrorWithTxn` gives the same
`Message` whatever the transaction. -/
theorem envelope_independent_formatters (F : Fmt) (d : Detail)
    (hg : Spec.envelopeIndependentGroup d = true) :
    (∀ p q : Option Roachpb.Error, d.message F p = d.message F q) ∧
    (∀ p : Option Roachpb.Error, d.Error F = d.message F p) ∧
    (∀ e : Roachpb.Error, e.Detail.GetInner = some d →
      ∀ txn : Option Transaction,
        (e.UpdateTxn txn).Message = e.Message ∧
        (e.SetTxn F txn).Message = d.Error F ∧
        (e.Message = d.message F (some e) → (e.SetTxn F txn).Message = e.Message)) ∧
    (∃ e : Roachpb.Error,
      NewError F (some (GoErr.detail d)) = Except.ok (some e) ∧
      e.Message = d.Error F ∧
      ∀ txn : Option Transaction, ∃ a : Roachpb.Error,
        NewErrorWithTxn F (some (GoErr.detail d)) txn = Except.ok (some a) ∧
        a.Message = e.Message) := by
  refine ⟨message_const_of_group F d hg, error_eq_message_of_group F d hg, ?_, ?_⟩
  · intro e hd txn
    have hset : ∀ p : Option Roachpb.Error, (e.SetTxn F txn).Message = d.message F p := by
      intro p
      cases txn <;> simp only [Error.SetTxn, hd] <;> exact message_const_of_group F d hg _ _
    refine ⟨(updateTxn_frame e txn).1, ?_, ?_⟩
    · rw [error_eq_message_of_group F d hg none]
      exact hset none
    · intro hm
      rw [hm]
      exact hset _
  · refine ⟨_, newError_detail F d, (error_eq_message_of_group F d hg _).symm, ?_⟩
    intro txn
    refine ⟨_, newErrorWithTxn_detail F d txn, ?_⟩
    cases txn <;> simp only [Error.SetTxn, ErrorDetail.GetInner] <;>
      exact message_const_of_group F d hg _ _

/-- Witness of C24: a `SendError` has one text on every envelope, and
attaching `A` to the sample envelope that holds it, whose message is that
text, leaves the message. -/
theorem envelope_independent_formatters_witness :
    (Detail.Send { Message := "x" }).message sampleFmt (some samplePushEnvelope) =
      (Detail.Send { Message := "x" }).message sampleFmt none ∧
    (Detail.Send { Message := "x" }).Error sampleFmt =
      (Detail.Send { Message := "x" }).message sampleFmt (some sampleTxnEnvelope) ∧
    (sampleSendEnvelope.SetTxn sampleFmt (some sampleTxnA)).Message =
      sampleSendEnvelope.Message :=
  ⟨(envelope_independent_formatters sampleFmt (Detail.Send { Message := "x" }) rfl).1 _ _,
    (envelope_independent_formatters sampleFmt (Detail.Send { Message := "x" }) rfl).2.1 _,
    ((envelope_independent_formatters sampleFmt (Detail.Send { Message := "x" }) rfl).2.2.1
      sampleSendEnvelope rfl (some sampleTxnA)).2.2 (by decide)⟩

/-- C25: `PrevTxnAborted` is true exactly when the error's `TxnID` differs
from the `ID` of the transaction it carries; so it is for the value made by
`NewTransactionRetryWithProtoRefreshError`. -/
theorem prevTxnAborted_iff (e : TransactionRetryWithProtoRefreshError) :
    (e.PrevTxnAborted = true ↔ e.TxnID ≠ e.Transaction.ID) ∧
    (e.PrevTxnAborted = false ↔ e.TxnID = e.Transaction.ID) ∧
    ∀ (msg : String) (txnID : UUID) (txn : Transaction),
      ((NewTransactionRetryWithProtoRefreshError msg txnID txn).PrevTxnAborted = true ↔
        txnID ≠ txn.ID) := by
  refine ⟨?_, ?_, ?_⟩
  · simp [TransactionRetryWithProtoRefreshError.PrevTxnAborted, UUID.Equal]
  · simp [TransactionRetryWithProtoRefreshError.PrevTxnAborted, UUID.Equal]
  · intro msg txnID txn
    simp [TransactionRetryWithProtoRefreshError.PrevTxnAborted, UUID.Equal,
      NewTransactionRetryWithProtoRefreshError]

/-- C30 as stated fails: the sample envelope is classified `IMMEDIATE`; a
`SendError` declares no classification, and after `SetDetail` of it the
envelope is still classified `IMMEDIATE`, not `NONE`. -/
theorem setDetail_keeps_earlier_classification :
    sampleRestartEnvelope.TransactionRestart = TransactionRestart.IMMEDIATE ∧
    (Detail.Send { Message := "x" }).canRestartTransaction = none ∧
    ∃ r : Roachpb.Error,
      Error.SetDetail sampleFmt sampleRestartEnvelope
          (some (GoErr.detail (Detail.Send { Message := "x" }))) = Except.ok r ∧
      r.TransactionRestart = TransactionRestart.IMMEDIATE ∧
      r.TransactionRestart ≠ TransactionRestart.NONE := by
  refine ⟨rfl, rfl, _, setDetail_detail _ _ _, ?_, ?_⟩ <;>
    simp [Detail.canRestartTransaction, sampleRestartEnvelope]

/-- C30, amended: after `e.SetDetail(d)` of a failure `d` that is not the
pass-through, `TransactionRestart` is the classification `d` declares when it
declares one, and the value `e` held before when `d` declares none; that value
is `NONE` on the envelope `NewError` starts from. -/
theorem setDetail_classification (F : Fmt) (e r : Roachpb.Error) (err : GoErr)
    (hint : err.asInternalError = none)
    (h : Error.SetDetail F e (some err) = Except.ok r) :
    (∀ c : TransactionRestart, err.asTransactionRestartError = some c →
      r.TransactionRestart = c) ∧
    (err.asTransactionRestartError = none → r.TransactionRestart = e.TransactionRestart) ∧
    (err.asTransactionRestartError = none → e.TransactionRestart = TransactionRestart.NONE →
      r.TransactionRestart = TransactionRestart.NONE) := by
  cases err with
  | internalError i => simp [GoErr.asInternalError] at hint
  | detail d =>
    rw [setDetail_detail] at h
    injection h with h
    subst h
    cases hc : d.canRestartTransaction <;> simp [GoErr.asTransactionRestartError, hc]
  | unhandledRetryable u =>
    rw [setDetail_unhandledRetryable] at h
    injection h with h
    subst h
    simp [GoErr.asTransactionRestartError]
  | foreign f =>
    rw [setDetail_foreign] at h
    cases hf : f.restart with
    | none =>
      rw [hf] at h
      injection h with h
      subst h
      simp [GoErr.asTransactionRestartError, hf]
    | some c =>
      rw [hf] at h
      cases h

/-- Witness of C30: a `TransactionAbortedError` set on the sample envelope
that holds a `SendError` classifies it `IMMEDIATE`. -/
theorem setDetail_classification_witness :
    ∃ r : Roachpb.Error,
      Error.SetDetail sampleFmt sampleSendEnvelope
          (some (GoErr.detail (Detail.TransactionAborted { Reason := 1 }))) = Except.ok r ∧
      r.TransactionRestart = TransactionRestart.IMMEDIATE :=
  ⟨_, setDetail_detail _ _ _,
    (setDetail_classification sampleFmt sampleSendEnvelope _
      (GoErr.detail (Detail.TransactionAborted { Reason := 1 })) rfl
      (setDetail_detail _ _ _)).1 _ rfl⟩

/-! ## Pass-through, plain-error text and nil receivers -/

/-- C31: for every envelope `e` whose union slot holds no structured detail,
`e.GetDetail()` is the pass-through of `e`, and `NewError` of it is an envelope
equal to `e` in every field: message, transaction snapshot,
`TransactionRestart`, index and detail slot. -/
theorem internalError_passThrough_lossless (F : Fmt) (e : Roachpb.Error)
    (h : e.Detail.GetInner = none) :
    Error.GetDetail (some e) = some (GoErr.internalError e) ∧
    NewError F (Error.GetDetail (some e)) = Except.ok (some e) ∧
    ∀ r : Roachpb.Error, NewError F (Error.GetDetail (some e)) = Except.ok (some r) →
      r.Message = e.Message ∧ r.UnexposedTxn = e.UnexposedTxn ∧
      r.TransactionRestart = e.TransactionRestart ∧ r.Index = e.Index ∧
      r.Detail = e.Detail := by
  have h1 : Error.GetDetail (some e) = some (GoErr.internalError e) := by
    simp [Error.GetDetail, h]
  have h2 : NewError F (Error.GetDetail (some e)) = Except.ok (some e) := by
    rw [h1]
    simp [NewError, Error.SetDetail, GoErr.asInternalError]
  refine ⟨h1, h2, ?_⟩
  intro r hr
  rw [h2] at hr
  injection hr with hr
  injection hr with hr
  subst hr
  exact ⟨rfl, rfl, rfl, rfl, rfl⟩

/-- Witness of C31: the sample envelope classified `IMMEDIATE` with an empty
detail slot comes back whole, classification included. -/
theorem internalError_passThrough_lossless_witness :
    NewError sampleFmt (Error.GetDetail (some sampleRestartEnvelope)) =
      Except.ok (some sampleRestartEnvelope) :=
  (internalError_passThrough_lossless sampleFmt sampleRestartEnvelope rfl).2.1

/-- Envelope that `NewError` makes of a detail variant and the plain error
`GoError()` converts it to: the `UnhandledRetryableError` around the envelope
when the variant declares a classification other than `NONE`, else the
variant. -/
theorem newError_goError (F : Fmt) (d : Detail) :
    ∃ e : Roachpb.Error,
      NewError F (some (GoErr.detail d)) = Except.ok (some e) ∧
      e.Message = d.message F none ∧
      Error.GoError (some e) =
        some (if d.canRestartTransaction.getD TransactionRestart.NONE ≠ TransactionRestart.NONE
          then GoErr.unhandledRetryable { PErr := e } else GoErr.detail d) := by
  refine ⟨_, newError_detail F d, Detail.message_congr F d _ _ rfl, ?_⟩
  simp only [Error.GoError, Error.GetDetail, ErrorDetail.GetInner]
  split_ifs <;> rfl

/-- C32 as stated fails: the envelope that `NewError` makes of the sample
`TransactionStatusError` has a message that ends in the rendering of the
absent transaction, which the text of its `GoError()` lacks. -/
theorem transactionStatus_text_lacks_suffix :
    ∃ (e : Roachpb.Error) (g : GoErr),
      NewError sampleFmt (some (GoErr.detail (Detail.TransactionStatus sampleStatusError))) =
        Except.ok (some e) ∧
      Error.GoError (some e) = some g ∧
      e.Message = "TransactionStatusError: already committed (1): <nil>" ∧
      g.Error sampleFmt = "TransactionStatusError: already committed (1)" ∧
      g.Error sampleFmt ≠ e.Message := by
  refine ⟨_, GoErr.detail (Detail.TransactionStatus sampleStatusError), newError_detail _ _,
    ?_, ?_, ?_, ?_⟩
  · simp [Error.GoError, Error.GetDetail, ErrorDetail.GetInner, Detail.canRestartTransaction]
  · decide
  · decide
  · decide

/-- C32, amended: for every detail variant `d`, `NewError(d)` returns an
envelope `e` and `e.GoError()` a plain error; its `Error()` text is
`e.Message` for every variant other than `TransactionStatusError`, and for a
`TransactionStatusError` `e.Message` is that text followed by `": "` and the
rendering of the absent transaction. -/
theorem newError_goError_text (F : Fmt) (d : Detail) :
    ∃ (e : Roachpb.Error) (g : GoErr),
      NewError F (some (GoErr.detail d)) = Except.ok (some e) ∧
      Error.GoError (some e) = some g ∧
      ((∀ v : TransactionStatusError, d ≠ Detail.TransactionStatus v) →
        g.Error F = e.Message) ∧
      (∀ v : TransactionStatusError, d = Detail.TransactionStatus v →
        e.Message = g.Error F ++ ": " ++ F.sTxnPtr none) := by
  obtain ⟨e, he, hm, hg⟩ := newError_goError F d
  refine ⟨e, _, he, hg, ?_, ?_⟩
  · intro hne
    cases d <;> first
      | exact absurd rfl (hne _)
      | simp [Detail.canRestartTransaction, GoErr.Error, hm, Detail.message, Detail.Error,
          MixedSuccessError.message]
  · intro v hv
    subst hv
    rw [hm]
    rfl

/-- Witness of C32: for the sample `SendError` the text of the plain error is
the message of the envelope. -/
theorem newError_goError_text_witness :
    ∃ (e : Roachpb.Error) (g : GoErr),
      NewError sampleFmt (some (GoErr.detail (Detail.Send { Message := "x" }))) =
        Except.ok (some e) ∧
      Error.GoError (some e) = some g ∧ g.Error sampleFmt = e.Message := by
  obtain ⟨e, g, h1, h2, h3, _⟩ :=
    newError_goError_text sampleFmt (Detail.Send { Message := "x" })
  exact ⟨e, g, h1, h2, h3 (fun v h => by cases h)⟩

/-- C33: on a nil envelope `String()` returns `"<nil>"`, and `GetTxn()`,
`GetDetail()` and `GoError()` return nil. So the formatters that consult the
transaction of the envelope return a text when no envelope is supplied: the
bare phrase for `TransactionPushError` and `IndeterminateCommitError`, and the
`Error()` text followed by `": "` and the rendering of the absent transaction
for `message(nil)` of `TransactionAbortedError`, `TransactionRetryError` and
`TransactionStatusError`. -/
theorem nil_envelope_accessors (F : Fmt) :
    Error.String none = "<nil>" ∧
    Error.GetTxn none = none ∧
    Error.GetDetail none = none ∧
    Error.GoError none = none ∧
    (∀ v : TransactionPushError,
      (Detail.TransactionPush v).Error F = "failed to push " ++ F.sTxn v.PusheeTxn ∧
      v.message F none = "failed to push " ++ F.sTxn v.PusheeTxn) ∧
    (∀ v : IndeterminateCommitError,
      (Detail.IndeterminateCommit v).Error F =
        "found txn in indeterminate STAGING state " ++ F.sTxn v.StagingTxn ∧
      v.message F none = "found txn in indeterminate STAGING state " ++ F.sTxn v.StagingTxn) ∧
    (∀ v : TransactionAbortedError, v.message F none = v.Error F ++ ": " ++ F.sTxnPtr none) ∧
    (∀ v : TransactionRetryError, v.message F none = v.Error F ++ ": " ++ F.sTxnPtr none) ∧
    (∀ v : TransactionStatusError, v.message F none = v.Error F ++ ": " ++ F.sTxnPtr none) := by
  refine ⟨rfl, rfl, rfl, rfl, ?_, ?_, ?_, ?_, ?_⟩
  · intro v
    simp [Detail.Error, TransactionPushError.message, Error.GetTxn]
  · intro v
    simp [Detail.Error, IndeterminateCommitError.message, Error.GetTxn]
  · intro v
    have h : ("): " : String) = ")" ++ ": " := by decide
    simp only [TransactionAbortedError.message, TransactionAbortedError.Error, Error.GetTxn, h,
      String.append_assoc]
  · intro v
    rfl
  · intro v
    rfl

end Roachpb

namespace Exec

/-! ## Lemmas on `countOp` -/

/-- Adding to a wrapped value and wrapping is wrapping the sum. -/
theorem wrapInt64_add (x y : Int) : wrapInt64 (wrapInt64 x + y) = wrapInt64 (x + y) := by
  unfold wrapInt64
  have h : (x + 2 ^ 63) % 2 ^ 64 - 2 ^ 63 + y + 2 ^ 63 = (x + 2 ^ 63) % 2 ^ 64 + y := by ring
  rw [h, Int.emod_add_emod]
  congr 2
  ring

/-- A value in the `int64` range is its own wrapping. -/
theorem wrapInt64_of_range (x : Int) (h1 : -(2 ^ 63) ≤ x) (h2 : x < 2 ^ 63) :
    wrapInt64 x = x := by
  unfold wrapInt64
  rw [Int.emod_eq_of_lt (by omega) (by omega)]
  ring

/-- Result of the loop of `Next`: the batch keeps its length, holds the wrapped
count, and the operator is done, its input past the first zero-length batch. -/
theorem countOp_nextLoop_spec (bs : List Batch) (c : countOp) (x : Int) (hx : c.count = wrapInt64 x) :
    (c.nextLoop bs).2.length = c.internalBatch.length ∧
    (c.nextLoop bs).2.cols 0 0 = wrapInt64 (x + ((lengthsBeforeZero bs).sum : Nat)) ∧
    (c.nextLoop bs).1.done = true ∧
    (c.nextLoop bs).1.internalBatch.length = c.internalBatch.length ∧
    (c.nextLoop bs).1.input.remaining = (bs.dropWhile (fun b => b.length ≠ 0)).tail := by
  induction bs generalizing c x with
  | nil => simp [countOp.nextLoop, lengthsBeforeZero, Batch.setInt64, hx]
  | cons b rest ih =>
    by_cases hb : b.length = 0
    · simp [countOp.nextLoop, lengthsBeforeZero, Batch.setInt64, hx, hb]
    · have h := ih { c with count := wrapInt64 (c.count + (b.length : Int)) }
        (x + (b.length : Int)) (by simp [hx, wrapInt64_add])
      simp only [countOp.nextLoop, hb, if_false]
      refine ⟨h.1, ?_, h.2.2.1, h.2.2.2.1, ?_⟩
      · rw [h.2.1]
        simp [lengthsBeforeZero, hb]
        congr 1
        ring
      · rw [h.2.2.2.2]
        simp [hb]

/-- A finished `countOp` returns a zero-length batch, stays finished and does
not read its input. -/
theorem next_of_done (c : countOp) (h : c.done = true) :
    c.Next.2.length = 0 ∧ c.Next.1.input = c.input ∧ c.Next.1.done = true := by
  simp [countOp.Next, h, Batch.SetLength]

/-- Every later state of a finished `countOp` is finished, with the same
input. -/
theorem iterate_next_of_done (c : countOp) (h : c.done = true) (k : Nat) :
    ((fun x : countOp => x.Next.1)^[k] c).done = true ∧
    ((fun x : countOp => x.Next.1)^[k] c).input = c.input := by
  induction k with
  | zero => exact ⟨h, rfl⟩
  | succ n ih =>
    rw [Function.iterate_succ_apply']
    have hn := next_of_done _ ih.1
    exact ⟨hn.2.2, hn.2.1.trans ih.2⟩

/-- First `Next` after `Init`, from any state of the operator: `Init` resets
the count, the flag `done` and the length of the batch. -/
theorem first_next (c : countOp) :
    c.Init.Next.2.length = 1 ∧
    c.Init.Next.2.cols 0 0 =
      wrapInt64 (((lengthsBeforeZero c.input.remaining).sum : Nat) : Int) ∧
    c.Init.Next.1.done = true ∧
    c.Init.Next.1.input.remaining =
      (c.input.remaining.dropWhile (fun b => b.length ≠ 0)).tail := by
  have h := countOp_nextLoop_spec c.input.remaining c.Init 0
    (by simp [countOp.Init, wrapInt64])
  have hn : c.Init.Next = c.Init.nextLoop c.input.remaining := by
    simp [countOp.Next, countOp.Init, Operator.Init]
  rw [hn]
  refine ⟨?_, ?_, h.2.2.1, h.2.2.2.2⟩
  · rw [h.1]
    simp [countOp.Init, Batch.SetLength]
  · rw [h.2.1]
    simp

/-- C26: after `Init`, called on the operator in any state (new, or used and
finished before), the first `Next` returns a batch of length 1 whose `Int64`
value is the sum of the lengths of the input batches before the first
zero-length one, held in an `int64`: the sum itself whenever it is below
`2^63`. The operator is then done, and every later `Next` returns a
zero-length batch and leaves the input as it was. -/
theorem countOp_next_counts (c : countOp) :
    c.Init.Next.2.length = 1 ∧
    c.Init.Next.2.cols 0 0 =
      wrapInt64 (((lengthsBeforeZero c.input.remaining).sum : Nat) : Int) ∧
    ((lengthsBeforeZero c.input.remaining).sum < 2 ^ 63 →
      c.Init.Next.2.cols 0 0 = (((lengthsBeforeZero c.input.remaining).sum : Nat) : Int)) ∧
    c.Init.Next.1.done = true ∧
    c.Init.Next.1.input.remaining =
      (c.input.remaining.dropWhile (fun b => b.length ≠ 0)).tail ∧
    (∀ k : Nat,
      ((fun x : countOp => x.Next.1)^[k] c.Init.Next.1).Next.2.length = 0 ∧
      ((fun x : countOp => x.Next.1)^[k] c.Init.Next.1).Next.1.input =
        c.Init.Next.1.input) := by
  have hf := first_next c
  refine ⟨hf.1, hf.2.1, ?_, hf.2.2.1, hf.2.2.2, ?_⟩
  · intro hlt
    rw [hf.2.1]
    apply wrapInt64_of_range
    · have : (0 : Int) ≤ (((lengthsBeforeZero c.input.remaining).sum : Nat) : Int) :=
        Int.ofNat_nonneg _
      omega
    · exact_mod_cast hlt
  · intro k
    have hk := iterate_next_of_done _ hf.2.2.1 k
    have hn := next_of_done _ hk.1
    exact ⟨hn.1, hn.2.1.trans hk.2⟩

/-- Witness of C26: batches of 3 and 2 rows before a zero-length batch are
counted as 5, on a new operator and on one that was used before and holds a
count of 9; the next call returns a zero-length batch. -/
theorem countOp_next_counts_witness :
    (NewCountOp sampleCountInput).Init.Next.2.length = 1 ∧
    (NewCountOp sampleCountInput).Init.Next.2.cols 0 0 = 5 ∧
    (NewCountOp sampleCountInput).Init.Next.1.Next.2.length = 0 ∧
    sampleUsedCountOp.Init.Next.2.length = 1 ∧
    sampleUsedCountOp.Init.Next.2.cols 0 0 = 5 := by
  have h := countOp_next_counts (NewCountOp sampleCountInput)
  have g := countOp_next_counts sampleUsedCountOp
  refine ⟨h.1, ?_, (h.2.2.2.2.2 0).1, g.1, ?_⟩
  · rw [h.2.2.1 (by decide)]
    decide
  · rw [g.2.2.1 (by decide)]
    decide

/-! # Theorems on `OrderedSynchronizer` -/

/-! ## Three-way comparisons -/

theorem IsThreeWay.refl {α : Type} {f : α → α → Int} (h : IsThreeWay f) (a : α) :
    f a a = 0 := by
  have h1 := h.antisymm a a
  omega

theorem IsThreeWay.eq_symm {α : Type} {f : α → α → Int} (h : IsThreeWay f) (a b : α) :
    f a b = 0 ↔ f b a = 0 := by
  have h1 := h.antisymm a b
  have h2 := h.antisymm b a
  omega

theorem IsThreeWay.le_of_not_lt {α : Type} {f : α → α → Int} (h : IsThreeWay f) (a b : α)
    (hab : ¬ f a b < 0) : f b a ≤ 0 := by
  have h1 := h.antisymm a b
  have h2 := h.antisymm b a
  omega

theorem IsThreeWay.lt_of_lt_of_le {α : Type} {f : α → α → Int} (h : IsThreeWay f)
    (a b c : α) (hab : f a b < 0) (hbc : f b c ≤ 0) : f a c < 0 := by
  by_contra hn
  have hca : f c a ≤ 0 := h.le_of_not_lt a c hn
  have hba : f b a ≤ 0 := h.trans b c a hbc hca
  have := h.antisymm a b
  omega

theorem IsThreeWay.lt_of_le_of_lt {α : Type} {f : α → α → Int} (h : IsThreeWay f)
    (a b c : α) (hab : f a b ≤ 0) (hbc : f b c < 0) : f a c < 0 := by
  by_contra hn
  have hca : f c a ≤ 0 := h.le_of_not_lt a c hn
  have hcb : f c b ≤ 0 := h.trans c a b hca hab
  have := h.antisymm b c
  omega

theorem IsThreeWay.eq_trans {α : Type} {f : α → α → Int} (h : IsThreeWay f)
    (a b c : α) (hab : f a b = 0) (hbc : f b c = 0) : f a c = 0 := by
  have h1 : f a c ≤ 0 := h.trans a b c (by omega) (by omega)
  have h2 : f b a = 0 := (h.eq_symm a b).1 hab
  have h3 : f c b = 0 := (h.eq_symm b c).1 hbc
  have h4 : f c a ≤ 0 := h.trans c b a (by omega) (by omega)
  have := h.antisymm a c
  omega

/-- The comparison of integers is a three-way comparison. -/
theorem compareInt_isThreeWay : IsThreeWay compareInt := by
  constructor
  · intro a b
    unfold compareInt
    split_ifs <;> omega
  · intro a b c
    unfold compareInt
    split_ifs <;> omega

/-- The opposite of a three-way comparison is one. -/
theorem IsThreeWay.neg {α : Type} {f : α → α → Int} (h : IsThreeWay f) :
    IsThreeWay (fun a b => -f a b) := by
  constructor
  · intro a b
    have h1 := h.antisymm a b
    have h2 := h.antisymm b a
    omega
  · intro a b c hab hbc
    simp only [] at hab hbc ⊢
    have h1 : f c b ≤ 0 := h.le_of_not_lt b c (by omega)
    have h2 : f b a ≤ 0 := h.le_of_not_lt a b (by omega)
    have h3 := h.trans c b a h1 h2
    have h4 := h.antisymm a c
    omega

/-- A three-way comparison of the images under a map is one. -/
theorem IsThreeWay.comap {α β : Type} {f : α → α → Int} (h : IsThreeWay f) (g : β → α) :
    IsThreeWay (fun a b => f (g a) (g b)) :=
  ⟨fun a b => h.antisymm (g a) (g b), fun a b c => h.trans (g a) (g b) (g c)⟩

/-- Comparing by `f` first and by `g` where `f` gives 0 is a three-way
comparison when `f` and `g` are. -/
theorem IsThreeWay.lex {α : Type} {f g : α → α → Int} (hf : IsThreeWay f)
    (hg : IsThreeWay g) : IsThreeWay (fun a b => if f a b ≠ 0 then f a b else g a b) := by
  constructor
  · intro a b
    have h1 := hf.antisymm a b
    have h2 := hf.antisymm b a
    have h3 := hg.antisymm a b
    split_ifs <;> omega
  · intro a b c hab hbc
    simp only [] at hab hbc ⊢
    by_cases fab : f a b = 0
    · by_cases fbc : f b c = 0
      · have fac := hf.eq_trans a b c fab fbc
        simp only [fab, fbc, fac, ne_eq, not_true_eq_false, if_false] at hab hbc ⊢
        exact hg.trans a b c hab hbc
      · simp only [fab, fbc, ne_eq, not_true_eq_false, not_false_eq_true, if_false,
          if_true] at hab hbc
        have fac := hf.lt_of_le_of_lt a b c (by omega) (by omega)
        have hne : f a c ≠ 0 := by omega
        simp only [hne, ne_eq, not_false_eq_true, if_true]
        omega
    · simp only [fab, ne_eq, not_false_eq_true, if_true] at hab
      have fbc : f b c ≤ 0 := by
        by_cases h0 : f b c = 0
        · omega
        · simp only [h0, ne_eq, not_false_eq_true, if_true] at hbc
          exact hbc
      have fac := hf.lt_of_lt_of_le a b c (by omega) fbc
      have hne : f a c ≠ 0 := by omega
      simp only [hne, ne_eq, not_false_eq_true, if_true]
      omega

/-- The order of the spec on rows is a three-way comparison when the
comparison of every column type is one. -/
theorem compareRows_isThreeWay (cmp : T → Val → Val → Int) (types : List T)
    (hcmp : ∀ t, IsThreeWay (cmp t)) (ordering : List ColumnOrderInfo) :
    IsThreeWay (Spec.compareRows cmp types ordering) := by
  induction ordering with
  | nil =>
    exact ⟨fun _ _ => by simp [Spec.compareRows], fun _ _ _ _ _ => by simp [Spec.compareRows]⟩
  | cons info infos ih =>
    obtain ⟨ci, dir⟩ := info
    have hc : IsThreeWay (fun a b : Row => cmp (types.getD ci 0) (a.getD ci 0) (b.getD ci 0)) :=
      (hcmp (types.getD ci 0)).comap (fun r : Row => r.getD ci 0)
    cases dir with
    | Descending =>
      have h := hc.neg.lex ih
      have he : Spec.compareRows cmp types (⟨ci, Direction.Descending⟩ :: infos) =
          fun a b =>
            if -cmp (types.getD ci 0) (a.getD ci 0) (b.getD ci 0) ≠ 0 then
              -cmp (types.getD ci 0) (a.getD ci 0) (b.getD ci 0)
            else Spec.compareRows cmp types infos a b := by
        funext a b
        simp only [Spec.compareRows]
        split_ifs <;> first | rfl | omega
      rw [he]
      exact h
    | Ascending =>
      have h := hc.lex ih
      have he : Spec.compareRows cmp types (⟨ci, Direction.Ascending⟩ :: infos) =
          fun a b =>
            if cmp (types.getD ci 0) (a.getD ci 0) (b.getD ci 0) ≠ 0 then
              cmp (types.getD ci 0) (a.getD ci 0) (b.getD ci 0)
            else Spec.compareRows cmp types infos a b := by
        funext a b
        simp only [Spec.compareRows]
      rw [he]
      exact h
    | other d =>
      have h := hc.lex ih
      have he : Spec.compareRows cmp types (⟨ci, Direction.other d⟩ :: infos) =
          fun a b =>
            if cmp (types.getD ci 0) (a.getD ci 0) (b.getD ci 0) ≠ 0 then
              cmp (types.getD ci 0) (a.getD ci 0) (b.getD ci 0)
            else Spec.compareRows cmp types infos a b := by
        funext a b
        simp only [Spec.compareRows]
      rw [he]
      exact h

/-! ## Merging by successive emissions -/

theorem emits_append {le : Row → Row → Prop} {n : Nat} {p q s : Nat → List Row}
    {out1 out2 : List Row} (h1 : Emits le n p out1 q) (h2 : Emits le n q out2 s) :
    Emits le n p (out1 ++ out2) s := by
  induction h1 with
  | nil p => simpa using h2
  | cons hs _ ih => exact Emits.cons hs (ih h2)

/-- A row is among the rows of the first `n` lists when it is in one of them. -/
theorem mem_allRows (n : Nat) (p : Nat → List Row) (x : Row) :
    x ∈ Spec.allRows n p ↔ ∃ i, i < n ∧ x ∈ p i := by
  simp [Spec.allRows, Multiset.mem_sum]

/-- An emission takes its row out of the multiset of pending rows. -/
theorem emitStep_allRows {le : Row → Row → Prop} {n : Nat} {p q : Nat → List Row} {r : Row}
    (h : EmitStep le n p r q) : r ::ₘ Spec.allRows n q = Spec.allRows n p := by
  obtain ⟨m, hm, hpm, hq, _⟩ := h
  have hmem : m ∈ Finset.range n := Finset.mem_range.2 hm
  unfold Spec.allRows
  rw [← Finset.add_sum_erase _ _ hmem, ← Finset.add_sum_erase (Finset.range n) _ hmem, hpm]
  have hc : ∑ x ∈ (Finset.range n).erase m, (q x : Multiset Row) =
      ∑ x ∈ (Finset.range n).erase m, (p x : Multiset Row) := by
    apply Finset.sum_congr rfl
    intro i hi
    rw [hq i (Finset.mem_erase.1 hi).1]
  rw [hc, ← Multiset.cons_coe, Multiset.cons_add]

/-- After an emission from sorted lists the emitted row is no later than any
pending row, and the lists left are sorted and hold only rows pending before. -/
theorem emitStep_sound {le : Row → Row → Prop} {n : Nat} {p q : Nat → List Row} {r : Row}
    (htrans : ∀ a b c, le a b → le b c → le a c)
    (hs : ∀ i, i < n → List.Sorted le (p i)) (h : EmitStep le n p r q) :
    (∀ i, i < n → ∀ x ∈ q i, le r x) ∧ (∀ i, i < n → List.Sorted le (q i)) := by
  obtain ⟨m, hm, hpm, hq, hmin⟩ := h
  have hall : ∀ i, i < n → ∀ x ∈ p i, le r x := by
    intro i hi x hx
    cases hpi : p i with
    | nil => simp [hpi] at hx
    | cons a t =>
      have ha : le r a := hmin i hi a (by simp [hpi])
      rw [hpi] at hx
      rcases List.mem_cons.1 hx with hxa | hxt
      · rw [hxa]
        exact ha
      · have hsi := hs i hi
        rw [hpi] at hsi
        exact htrans _ _ _ ha ((List.sorted_cons.1 hsi).1 x hxt)
  constructor
  · intro i hi x hx
    by_cases him : i = m
    · subst him
      have hsm := hs i hi
      rw [hpm] at hsm
      exact (List.sorted_cons.1 hsm).1 x hx
    · rw [hq i him] at hx
      exact hall i hi x hx
  · intro i hi
    by_cases him : i = m
    · subst him
      have hsm := hs i hi
      rw [hpm] at hsm
      exact (List.sorted_cons.1 hsm).2
    · rw [hq i him]
      exact hs i hi

/-- Successive emissions from sorted lists give a sorted list, leave sorted
lists, and split the multiset of the pending rows into the rows emitted and
the rows left. -/
theorem emits_sound {le : Row → Row → Prop} {n : Nat} {p q : Nat → List Row}
    {out : List Row} (htrans : ∀ a b c, le a b → le b c → le a c)
    (h : Emits le n p out q) (hs : ∀ i, i < n → List.Sorted le (p i)) :
    List.Sorted le out ∧ (∀ i, i < n → List.Sorted le (q i)) ∧
    (out : Multiset Row) + Spec.allRows n q = Spec.allRows n p := by
  induction h with
  | nil p => exact ⟨List.sorted_nil, hs, by simp⟩
  | @cons p q s r out hstep _ ih =>
    obtain ⟨hle, hsq⟩ := emitStep_sound htrans hs hstep
    obtain ⟨ho, hss, hm⟩ := ih hsq
    refine ⟨?_, hss, ?_⟩
    · refine List.sorted_cons.2 ⟨?_, ho⟩
      intro x hx
      have hx1 : x ∈ (out : Multiset Row) + Spec.allRows n s :=
        Multiset.mem_add.2 (Or.inl (by simpa using hx))
      rw [hm] at hx1
      obtain ⟨i, hi, hxi⟩ := (mem_allRows n q x).1 hx1
      exact hle i hi x hxi
    · rw [← emitStep_allRows hstep, ← hm, ← Multiset.cons_coe, Multiset.cons_add]

/-! ## The comparison of `compareRow` is the order of the spec -/

/-- Value of a column in a row of a batch. -/
theorem row_getD (ncols : Nat) (b : Batch) (idx c : Nat) (hc : c < ncols) :
    (b.row ncols idx).getD c 0 = b.cols c (b.phys idx) := by
  simp [Batch.row, List.getD_eq_getElem?_getD, List.getElem?_map, List.getElem?_range hc]

/-- The loop of `compareRow` computes the order of the spec on the two rows it
is pointed at. -/
theorem compareRowLoop_eq (cmp : T → Val → Val → Int) (types : List T) (ncols : Nat)
    (b1 b2 : Batch) (i1 i2 idx1 idx2 : Nat) (infos : List ColumnOrderInfo)
    (cs : List vecComparator)
    (hdir : validDirections infos) (hcol : validColumns ncols infos)
    (hcs : List.Forall₂
      (fun (info : ColumnOrderInfo) (c : vecComparator) =>
        c.typ = types.getD info.ColIdx 0 ∧
        c.vecs i1 = b1.cols info.ColIdx ∧ c.vecs i2 = b2.cols info.ColIdx) infos cs) :
    compareRowLoop cmp i1 i2 (b1.phys idx1) (b2.phys idx2) infos cs =
      Except.ok (Spec.compareRows cmp types infos (b1.row ncols idx1) (b2.row ncols idx2)) := by
  induction hcs with
  | nil => simp [compareRowLoop, Spec.compareRows]
  | @cons info c infos cs hc _ ih =>
    have hd := hdir info (List.mem_cons_self _ _)
    have hci := hcol info (List.mem_cons_self _ _)
    have ih1 := ih (fun x hx => hdir x (List.mem_cons_of_mem _ hx))
      (fun x hx => hcol x (List.mem_cons_of_mem _ hx))
    obtain ⟨ht, hv1, hv2⟩ := hc
    simp only [compareRowLoop, Spec.compareRows, vecComparator.compare, ht, hv1, hv2,
      row_getD ncols _ _ _ hci, ih1]
    rcases hd with hd | hd <;> simp [hd] <;> split_ifs <;> rfl

/-- Under the invariant `compareRow` is the order of the spec on the current
rows of two inputs that are not exhausted. -/
theorem compareRow_eq (cmp : T → Val → Val → Int) (o : OrderedSynchronizer) (hinv : o.Inv)
    (hdir : validDirections o.ordering) (hcol : validColumns o.columnTypes.length o.ordering)
    (i m : Nat) (hi : (o.batch i).length ≠ 0) (hm : (o.batch m).length ≠ 0) :
    o.compareRow cmp i m =
      Except.ok (Spec.compareRows cmp o.columnTypes o.ordering (o.current i) (o.current m)) := by
  unfold OrderedSynchronizer.compareRow OrderedSynchronizer.current
  apply compareRowLoop_eq cmp o.columnTypes o.columnTypes.length _ _ _ _ _ _ _ _ hdir hcol
  refine hinv.comparators.imp ?_
  intro info c hc
  exact ⟨hc.1, hc.2 i hi, hc.2 m hm⟩

/-- The search loop of `Next` extends a minimum of the inputs below `k` to a
minimum of the inputs below `k + len`, and does not panic. -/
theorem minBatchLoop_spec (cmp : T → Val → Val → Int) (o : OrderedSynchronizer)
    (hinv : o.Inv) (hdir : validDirections o.ordering)
    (hcol : validColumns o.columnTypes.length o.ordering) (hcmp : ∀ t, IsThreeWay (cmp t))
    (len k : Nat) (cur : Option Nat) (hcur : o.IsMinBelow cmp k cur) :
    ∃ res, minBatchLoop cmp o (List.range' k len) cur = Except.ok res ∧
      o.IsMinBelow cmp (k + len) res := by
  have h3 := compareRows_isThreeWay cmp o.columnTypes hcmp o.ordering
  induction len generalizing k cur with
  | zero => exact ⟨cur, by simp [minBatchLoop], by simpa using hcur⟩
  | succ len ih =>
    have hk : k + (len + 1) = (k + 1) + len := by omega
    rw [hk]
    simp only [List.range'_succ, minBatchLoop]
    by_cases hz : (o.batch k).length = 0
    · simp only [hz, if_true]
      apply ih
      cases cur with
      | none =>
        intro j hj
        rcases Nat.lt_succ_iff_lt_or_eq.1 hj with h | h
        · exact hcur j h
        · rw [h]; exact hz
      | some m =>
        obtain ⟨h1, h2, h3⟩ := hcur
        refine ⟨by omega, h2, ?_⟩
        intro j hj hjn
        rcases Nat.lt_succ_iff_lt_or_eq.1 hj with h | h
        · exact h3 j h hjn
        · rw [h] at hjn; exact absurd hz hjn
    · simp only [hz, if_false]
      cases cur with
      | none =>
        simp only []
        apply ih
        refine ⟨by omega, hz, ?_⟩
        intro j hj hjn
        rcases Nat.lt_succ_iff_lt_or_eq.1 hj with h | h
        · exact absurd (hcur j h) hjn
        · subst h
          exact ⟨by rw [h3.refl], fun hlt => absurd hlt (by omega)⟩
      | some m =>
        obtain ⟨h1, h2, hmin⟩ := hcur
        simp only [compareRow_eq cmp o hinv hdir hcol k m hz h2]
        by_cases hr : Spec.compareRows cmp o.columnTypes o.ordering (o.current k) (o.current m) < 0
        · simp only [hr, if_true]
          apply ih
          refine ⟨by omega, hz, ?_⟩
          intro j hj hjn
          rcases Nat.lt_succ_iff_lt_or_eq.1 hj with h | h
          · have hlt := h3.lt_of_lt_of_le _ _ _ hr (hmin j h hjn).1
            exact ⟨by omega, fun _ => hlt⟩
          · subst h
            exact ⟨by rw [h3.refl], fun hlt => absurd hlt (by omega)⟩
        · simp only [hr, if_false]
          apply ih
          refine ⟨by omega, h2, ?_⟩
          intro j hj hjn
          rcases Nat.lt_succ_iff_lt_or_eq.1 hj with h | h
          · exact hmin j h hjn
          · subst h
            exact ⟨h3.le_of_not_lt _ _ hr, fun hlt => absurd hlt (by omega)⟩

/-! ## Steps of `Next` -/

/-- The rows from an index inside the batch are the row at the index and the
rows after it. -/
theorem rowsFrom_cons (ncols : Nat) (b : Batch) (idx : Nat) (h : idx < b.length) :
    b.rowsFrom ncols idx = b.row ncols idx :: b.rowsFrom ncols (idx + 1) := by
  unfold Batch.rowsFrom
  have h1 : b.length - idx = (b.length - (idx + 1)) + 1 := by omega
  rw [h1, List.range'_succ]
  simp

/-- There are no rows from an index at or past the length of the batch. -/
theorem rowsFrom_nil (ncols : Nat) (b : Batch) (idx : Nat) (h : b.length ≤ idx) :
    b.rowsFrom ncols idx = [] := by
  unfold Batch.rowsFrom
  have h1 : b.length - idx = 0 := by omega
  rw [h1]
  simp

/-- Number of rows from an index of a batch. -/
theorem rowsFrom_length (ncols : Nat) (b : Batch) (idx : Nat) :
    (b.rowsFrom ncols idx).length = b.length - idx := by
  simp [Batch.rowsFrom]

/-- The loop of `updateComparators` keeps the type of every comparator and
stores for input `batchIdx` the vector of its ordering column. -/
theorem updateComparatorsLoop_aligned (batch : Batch) (batchIdx : Nat) (types : List T)
    (old : Nat → Batch) (infos : List ColumnOrderInfo) (cs : List vecComparator)
    (h : List.Forall₂
      (fun (info : ColumnOrderInfo) (c : vecComparator) =>
        c.typ = types.getD info.ColIdx 0 ∧
        ∀ i, (old i).length ≠ 0 → c.vecs i = (old i).cols info.ColIdx) infos cs) :
    List.Forall₂
      (fun (info : ColumnOrderInfo) (c : vecComparator) =>
        c.typ = types.getD info.ColIdx 0 ∧
        ∀ i, (Function.update old batchIdx batch i).length ≠ 0 →
          c.vecs i = (Function.update old batchIdx batch i).cols info.ColIdx)
      infos (updateComparatorsLoop batch batchIdx infos cs) := by
  induction h with
  | nil => simp [updateComparatorsLoop]
  | @cons info c infos cs hc _ ih =>
    simp only [updateComparatorsLoop]
    refine List.Forall₂.cons ⟨hc.1, ?_⟩ ih
    intro i hi
    by_cases him : i = batchIdx
    · subst him
      simp [vecComparator.setVec]
    · simp only [Function.update_noteq him] at hi ⊢
      simp only [vecComparator.setVec, Function.update_noteq him]
      exact hc.2 i hi

/-- Installing a batch keeps the invariant, and changes only what it is given. -/
theorem install_inv (o : OrderedSynchronizer) (hinv : o.Inv) (m : Nat) (b : Batch)
    (ins : Nat → Operator) (idxs : Nat → Nat)
    (hidx : b.length ≠ 0 → idxs m < b.length)
    (hother : ∀ i, i ≠ m → idxs i = o.inputIndices i) :
    (o.install m b ins idxs).Inv ∧
    (o.install m b ins idxs).batch = Function.update o.batch m b ∧
    (o.install m b ins idxs).inputs = ins ∧
    (o.install m b ins idxs).inputIndices = idxs ∧
    (o.install m b ins idxs).columnTypes = o.columnTypes ∧
    (o.install m b ins idxs).ordering = o.ordering ∧
    (o.install m b ins idxs).numInputs = o.numInputs ∧
    (o.install m b ins idxs).output = o.output := by
  have hidxAll : ∀ i, (Function.update o.batch m b i).length ≠ 0 →
      idxs i < (Function.update o.batch m b i).length := by
    intro i hi
    by_cases him : i = m
    · subst him
      simp only [Function.update_same] at hi ⊢
      exact hidx hi
    · simp only [Function.update_noteq him] at hi ⊢
      rw [hother i him]
      exact hinv.index i hi
  by_cases hb : b.length = 0
  · have hu : o.install m b ins idxs =
        { o with inputs := ins, inputBatches := some (Function.update o.batch m b),
                 inputIndices := idxs } := by
      simp [OrderedSynchronizer.install, OrderedSynchronizer.updateComparators,
        OrderedSynchronizer.batch, hb]
    rw [hu]
    refine ⟨⟨by simp, hidxAll, ?_, hinv.outputSel⟩, rfl, rfl, rfl, rfl, rfl, rfl, rfl⟩
    refine hinv.comparators.imp ?_
    intro info c hc
    refine ⟨hc.1, ?_⟩
    intro i hi
    by_cases him : i = m
    · subst him
      simp [OrderedSynchronizer.batch, hb] at hi
    · simp only [OrderedSynchronizer.batch, Function.update_noteq him] at hi ⊢
      exact hc.2 i hi
  · have hu : o.install m b ins idxs =
        { o with inputs := ins, inputBatches := some (Function.update o.batch m b),
                 inputIndices := idxs,
                 comparators := updateComparatorsLoop b m o.ordering o.comparators } := by
      simp [OrderedSynchronizer.install, OrderedSynchronizer.updateComparators,
        OrderedSynchronizer.batch, hb]
    rw [hu]
    refine ⟨⟨by simp, hidxAll, ?_, hinv.outputSel⟩, rfl, rfl, rfl, rfl, rfl, rfl, rfl⟩
    exact updateComparatorsLoop_aligned b m o.columnTypes o.batch o.ordering o.comparators
      hinv.comparators

/-- The rows an input delivers are those of the batch its `Next` returns,
when that is not a zero-length batch, and those it delivers afterwards. -/
theorem streamRows_next (ncols : Nat) (op : Operator) :
    (if op.Next.1.length = 0 then []
      else op.Next.1.rowsFrom ncols 0 ++ streamRows ncols op.Next.2.remaining) =
    streamRows ncols op.remaining := by
  cases h : op.remaining with
  | nil => simp [Operator.Next, h, NewMemBatch, streamRows]
  | cons b rest => simp [Operator.Next, h, streamRows]

/-- Pending rows of the inputs after a batch is installed for input `m`. -/
theorem pending_install (o : OrderedSynchronizer) (hinv : o.Inv) (m : Nat) (b : Batch)
    (ins : Nat → Operator) (idxs : Nat → Nat)
    (hidx : b.length ≠ 0 → idxs m < b.length)
    (hother : ∀ i, i ≠ m → idxs i = o.inputIndices i)
    (hins : ∀ i, i ≠ m → ins i = o.inputs i) :
    (o.install m b ins idxs).pending m =
      (if b.length = 0 then []
        else b.rowsFrom o.columnTypes.length (idxs m) ++
          streamRows o.columnTypes.length (ins m).remaining) ∧
    ∀ i, i ≠ m → (o.install m b ins idxs).pending i = o.pending i := by
  obtain ⟨_, hb, hi, hx, hc, _⟩ := install_inv o hinv m b ins idxs hidx hother
  constructor
  · simp [OrderedSynchronizer.pending, hb, hi, hx, hc]
  · intro i him
    simp [OrderedSynchronizer.pending, hb, hi, hx, hc, Function.update_noteq him,
      hother i him, hins i him]

/-- Advancing input `m`, which is not exhausted, keeps the invariant, takes
the current row of `m` off its pending rows and leaves the other inputs, the
output and the configuration as they were. -/
theorem advance_spec (o : OrderedSynchronizer) (hinv : o.Inv) (m : Nat)
    (hm : (o.batch m).length ≠ 0) :
    (o.advance m).Inv ∧
    o.pending m = o.current m :: (o.advance m).pending m ∧
    (∀ i, i ≠ m → (o.advance m).pending i = o.pending i) ∧
    (o.advance m).columnTypes = o.columnTypes ∧
    (o.advance m).ordering = o.ordering ∧
    (o.advance m).numInputs = o.numInputs ∧
    (o.advance m).output = o.output := by
  have hlt := hinv.index m hm
  by_cases hnext : o.inputIndices m + 1 < (o.batch m).length
  · have ha : o.advance m =
        { o with inputIndices :=
            Function.update o.inputIndices m (o.inputIndices m + 1) } := by
      simp [OrderedSynchronizer.advance, hnext]
    rw [ha]
    have hb : ∀ X : Nat → Nat,
        OrderedSynchronizer.batch { o with inputIndices := X } = o.batch := fun _ => rfl
    refine ⟨⟨hinv.fetched, ?_, hinv.comparators, hinv.outputSel⟩, ?_, ?_, rfl, rfl, rfl, rfl⟩
    · intro i hi
      by_cases him : i = m
      · subst him
        simpa using hnext
      · simpa [Function.update_noteq him] using hinv.index i hi
    · simp only [OrderedSynchronizer.pending, OrderedSynchronizer.current, hb, hm, if_false,
        Function.update_same]
      rw [rowsFrom_cons _ _ _ hlt]
      rfl
    · intro i him
      simp only [OrderedSynchronizer.pending, hb, Function.update_noteq him]
  · have ha : o.advance m =
        o.install m (o.inputs m).Next.1 (Function.update o.inputs m (o.inputs m).Next.2)
          (Function.update o.inputIndices m 0) := by
      simp [OrderedSynchronizer.advance, hnext, OrderedSynchronizer.install]
    rw [ha]
    have hidx : (o.inputs m).Next.1.length ≠ 0 →
        Function.update o.inputIndices m 0 m < (o.inputs m).Next.1.length := by
      intro h
      simp only [Function.update_same]
      omega
    have hother : ∀ i, i ≠ m → Function.update o.inputIndices m 0 i = o.inputIndices i :=
      fun i him => Function.update_noteq him _ _
    have hins : ∀ i, i ≠ m →
        Function.update o.inputs m (o.inputs m).Next.2 i = o.inputs i :=
      fun i him => Function.update_noteq him _ _
    obtain ⟨h1, _, _, _, h5, h6, h7, h8⟩ := install_inv o hinv m _ _ _ hidx hother
    obtain ⟨hp, hq⟩ := pending_install o hinv m _ _ _ hidx hother hins
    refine ⟨h1, ?_, hq, h5, h6, h7, h8⟩
    rw [hp]
    simp only [Function.update_same]
    rw [streamRows_next]
    simp only [OrderedSynchronizer.pending, hm, if_false, OrderedSynchronizer.current]
    rw [rowsFrom_cons _ _ _ hlt, rowsFrom_nil _ _ _ (by omega)]
    rfl

/-- The copy loop of `Next` changes the output vectors only, and only at
`outputIdx` in the columns visited, where it puts the values of the current
row of input `m`. -/
theorem copyRowLoop_spec (m outputIdx : Nat) (cs : List Nat) (o : OrderedSynchronizer) :
    copyRowLoop m outputIdx cs o =
      { o with output :=
        { o.output with cols := fun c p =>
            if c ∈ cs ∧ p = outputIdx then
              (o.batch m).cols c ((o.batch m).phys (o.inputIndices m))
            else o.output.cols c p } } := by
  induction cs generalizing o with
  | nil => simp [copyRowLoop]
  | cons i is ih =>
    simp only [copyRowLoop]
    rw [ih]
    have hb : ∀ out : Batch, OrderedSynchronizer.batch { o with output := out } = o.batch :=
      fun _ => rfl
    simp only [hb]
    congr 2
    funext c p
    by_cases hp : p = outputIdx
    · by_cases hc : c = i
      · subst hc
        by_cases hmem : c ∈ is <;> simp [hmem, hp, appendOne]
      · by_cases hmem : c ∈ is <;> simp [hmem, hp, hc, appendOne, Function.update_noteq hc]
    · by_cases hc : c = i
      · subst hc
        simp [hp, appendOne, Function.update_noteq hp]
      · simp [hp, hc, Function.update_noteq hc]

/-- An input that is not exhausted has its current row at the head of its
pending rows. -/
theorem pending_of_ne (o : OrderedSynchronizer) (hinv : o.Inv) (i : Nat)
    (hi : (o.batch i).length ≠ 0) :
    o.pending i = o.current i ::
      ((o.batch i).rowsFrom o.columnTypes.length (o.inputIndices i + 1) ++
        streamRows o.columnTypes.length (o.inputs i).remaining) := by
  simp only [OrderedSynchronizer.pending, hi, if_false, OrderedSynchronizer.current]
  rw [rowsFrom_cons _ _ _ (hinv.index i hi)]
  rfl

/-- An exhausted input has no pending rows. -/
theorem pending_of_eq (o : OrderedSynchronizer) (i : Nat) (hi : (o.batch i).length = 0) :
    o.pending i = [] := by
  simp [OrderedSynchronizer.pending, hi]

/-- A minimum found among all inputs gives an emission of its current row,
once that input is advanced. -/
theorem emitStep_of_min (cmp : T → Val → Val → Int) (o q : OrderedSynchronizer)
    (hinv : o.Inv) (m : Nat) (hmin : o.IsMinBelow cmp o.numInputs (some m))
    (hpm : o.pending m = o.current m :: q.pending m)
    (hq : ∀ i, i ≠ m → q.pending i = o.pending i) :
    EmitStep (Spec.rowLE cmp o.columnTypes o.ordering) o.numInputs o.pending (o.current m)
      q.pending := by
  obtain ⟨hm, _, hall⟩ := hmin
  refine ⟨m, hm, hpm, hq, ?_⟩
  intro i hi x hx
  by_cases hz : (o.batch i).length = 0
  · rw [pending_of_eq o i hz] at hx
    simp at hx
  · rw [pending_of_ne o hinv i hz] at hx
    simp only [List.head?_cons, Option.some.injEq] at hx
    rw [← hx]
    exact (hall i hi hz).1

/-- The loop of `Next` does not panic; it emits rows out of the pending rows,
as many as the rounds it is allowed unless all inputs get exhausted, writes
them to the output from `outputIdx` on, and keeps the invariant, the
configuration and the output below `outputIdx`. -/
theorem nextLoop_spec (cmp : T → Val → Val → Int) (hcmp : ∀ t, IsThreeWay (cmp t))
    (todo outputIdx : Nat) (o : OrderedSynchronizer) (hinv : o.Inv)
    (hdir : validDirections o.ordering)
    (hcol : validColumns o.columnTypes.length o.ordering) :
    ∃ (q : OrderedSynchronizer) (out : List Row),
      nextLoop cmp todo outputIdx o = Except.ok (q, outputIdx + out.length) ∧
      q.Inv ∧ q.columnTypes = o.columnTypes ∧ q.ordering = o.ordering ∧
      q.numInputs = o.numInputs ∧
      Emits (Spec.rowLE cmp o.columnTypes o.ordering) o.numInputs o.pending out q.pending ∧
      out.length ≤ todo ∧
      (out.length < todo → ∀ i, i < o.numInputs → (q.batch i).length = 0) ∧
      (List.range' outputIdx out.length).map (q.output.rowAt o.columnTypes.length) = out ∧
      (∀ c p, p < outputIdx → q.output.cols c p = o.output.cols c p) := by
  induction todo generalizing outputIdx o with
  | zero =>
    exact ⟨o, [], by simp [nextLoop], hinv, rfl, rfl, rfl, Emits.nil _, by simp, by simp,
      by simp, fun _ _ _ => rfl⟩
  | succ todo ih =>
    obtain ⟨res, hres, hmin⟩ := minBatchLoop_spec cmp o hinv hdir hcol hcmp o.numInputs 0 none
      (fun j hj => absurd hj (Nat.not_lt_zero j))
    rw [← List.range_eq_range', Nat.zero_add] at *
    cases res with
    | none =>
      refine ⟨o, [], by simp [nextLoop, hres], hinv, rfl, rfl, rfl, Emits.nil _, by simp,
        ?_, by simp, fun _ _ _ => rfl⟩
      intro _ i hi
      exact hmin i hi
    | some m =>
      have hm := hmin.2.1
      have h1 := copyRowLoop_spec m outputIdx (List.range o.columnTypes.length) o
      have hinv1 : (copyRowLoop m outputIdx (List.range o.columnTypes.length) o).Inv := by
        rw [h1]
        exact ⟨hinv.fetched, hinv.index, hinv.comparators, hinv.outputSel⟩
      have hm1 : ((copyRowLoop m outputIdx (List.range o.columnTypes.length) o).batch m).length
          ≠ 0 := by
        rw [h1]
        exact hm
      obtain ⟨hinv2, hpm, hq, hct, hord, hn, hout⟩ := advance_spec _ hinv1 m hm1
      have hct2 : ((copyRowLoop m outputIdx (List.range o.columnTypes.length) o).advance
          m).columnTypes = o.columnTypes := by
        rw [hct, h1]
      have hord2 : ((copyRowLoop m outputIdx (List.range o.columnTypes.length) o).advance
          m).ordering = o.ordering := by
        rw [hord, h1]
      have hn2 : ((copyRowLoop m outputIdx (List.range o.columnTypes.length) o).advance
          m).numInputs = o.numInputs := by
        rw [hn, h1]
      obtain ⟨q, out, hrun, hqinv, hqct, hqord, hqn, hem, hlen, hex, hrows, hkeep⟩ :=
        ih (outputIdx + 1) _ hinv2 (by rw [hord2]; exact hdir) (by rw [hct2, hord2]; exact hcol)
      simp only [hct2, hord2, hn2] at hem hrows hex
      have hp1 : (copyRowLoop m outputIdx (List.range o.columnTypes.length) o).pending =
          o.pending := by
        rw [h1]
        rfl
      have hc1 : (copyRowLoop m outputIdx (List.range o.columnTypes.length) o).current m =
          o.current m := by
        rw [h1]
        rfl
      rw [hp1, hc1] at hpm
      rw [hp1] at hq
      have hstep := emitStep_of_min cmp o _ hinv m hmin hpm hq
      refine ⟨q, o.current m :: out, ?_, hqinv, hqct.trans hct2, hqord.trans hord2,
        hqn.trans hn2, Emits.cons hstep hem, ?_, ?_, ?_, ?_⟩
      · simp only [nextLoop, hres, hrun, List.length_cons]
        congr 2
        omega
      · simp only [List.length_cons]
        omega
      · intro hlt
        apply hex
        simp only [List.length_cons] at hlt
        omega
      · simp only [List.length_cons, List.range'_succ, List.map_cons, hrows]
        congr 1
        have hk : ∀ c, q.output.cols c outputIdx =
            (copyRowLoop m outputIdx (List.range o.columnTypes.length) o).output.cols c
              outputIdx := by
          intro c
          rw [hkeep c outputIdx (by omega), hout]
        simp only [Batch.rowAt, OrderedSynchronizer.current, Batch.row, hk]
        apply List.map_congr_left
        intro c hc
        rw [h1]
        simp [hc]
      · intro c p hp
        rw [hkeep c p (by omega), hout, h1]
        have : p ≠ outputIdx := by omega
        simp [this]

/-! ## Calls of `Next` -/

/-- Without a selection vector the row at a logical index is the row at that
physical index. -/
theorem row_eq_rowAt (ncols : Nat) (b : Batch) (h : b.sel = none) (p : Nat) :
    b.row ncols p = b.rowAt ncols p := by
  simp [Batch.row, Batch.rowAt, Batch.phys, h]

/-- A call of `Next` on a synchronizer that has fetched its first batches does
not panic: it emits rows out of the pending rows, at most `BatchSize` and no
fewer unless all inputs get exhausted, and returns them as its batch. -/
theorem next_spec (cmp : T → Val → Val → Int) (hcmp : ∀ t, IsThreeWay (cmp t))
    (BatchSize : Nat) (o : OrderedSynchronizer) (hinv : o.Inv)
    (hdir : validDirections o.ordering)
    (hcol : validColumns o.columnTypes.length o.ordering) :
    ∃ (q : OrderedSynchronizer) (b : Batch) (out : List Row),
      o.Next cmp BatchSize = Except.ok (q, b) ∧
      q.Inv ∧ q.columnTypes = o.columnTypes ∧ q.ordering = o.ordering ∧
      q.numInputs = o.numInputs ∧
      Emits (Spec.rowLE cmp o.columnTypes o.ordering) o.numInputs o.pending out q.pending ∧
      out.length ≤ BatchSize ∧
      (out.length < BatchSize → ∀ i, i < o.numInputs → (q.batch i).length = 0) ∧
      b.length = out.length ∧
      b.rowsFrom o.columnTypes.length 0 = out := by
  obtain ⟨q, out, hrun, hqinv, hct, hord, hn, hem, hlen, hex, hrows, _⟩ :=
    nextLoop_spec cmp hcmp BatchSize 0 o hinv hdir hcol
  have hsome : ∃ bs, o.inputBatches = some bs := by
    cases h : o.inputBatches with
    | none => exact absurd h hinv.fetched
    | some bs => exact ⟨bs, rfl⟩
  obtain ⟨bs, hbs⟩ := hsome
  have hnext : o.Next cmp BatchSize =
      Except.ok ({ q with output := q.output.SetLength (0 + out.length) },
        q.output.SetLength (0 + out.length)) := by
    simp only [OrderedSynchronizer.Next, hbs, hrun]
  refine ⟨_, _, out, hnext, ⟨hqinv.fetched, hqinv.index, hqinv.comparators, ?_⟩, hct, hord,
    hn, hem, hlen, hex, ?_, ?_⟩
  · simpa [Batch.SetLength] using hqinv.outputSel
  · simp [Batch.SetLength]
  · have hsel : (q.output.SetLength (0 + out.length)).sel = none := by
      simpa [Batch.SetLength] using hqinv.outputSel
    have hr : ∀ p, (q.output.SetLength (0 + out.length)).row o.columnTypes.length p =
        q.output.rowAt o.columnTypes.length p := by
      intro p
      rw [row_eq_rowAt _ _ hsel]
      rfl
    have hfun : (q.output.SetLength (0 + out.length)).row o.columnTypes.length =
        q.output.rowAt o.columnTypes.length := funext hr
    unfold Batch.rowsFrom
    rw [hfun]
    simpa [Batch.SetLength] using hrows

/-- The fetch loop at the head of `Next` keeps the invariant; afterwards the
pending rows of each input it visits are the rows that input delivers. -/
theorem fetchLoop_spec (len k : Nat) (o : OrderedSynchronizer) (hinv : o.Inv)
    (hzero : ∀ i, k ≤ i → (o.batch i).length = 0)
    (hidx : ∀ i, k ≤ i → o.inputIndices i = 0) :
    (fetchLoop (List.range' k len) o).Inv ∧
    (fetchLoop (List.range' k len) o).columnTypes = o.columnTypes ∧
    (fetchLoop (List.range' k len) o).ordering = o.ordering ∧
    (fetchLoop (List.range' k len) o).numInputs = o.numInputs ∧
    (∀ i, i < k → (fetchLoop (List.range' k len) o).pending i = o.pending i) ∧
    (∀ i, k ≤ i → i < k + len →
      (fetchLoop (List.range' k len) o).pending i =
        streamRows o.columnTypes.length (o.inputs i).remaining) := by
  induction len generalizing k o with
  | zero =>
    refine ⟨by simpa [fetchLoop] using hinv, rfl, rfl, rfl, fun _ _ => rfl, ?_⟩
    intro i h1 h2
    omega
  | succ len ih =>
    have hstep : fetchLoop (List.range' k (len + 1)) o =
        fetchLoop (List.range' (k + 1) len)
          (o.install k (o.inputs k).Next.1 (Function.update o.inputs k (o.inputs k).Next.2)
            o.inputIndices) := by
      simp only [List.range'_succ, fetchLoop]
      rfl
    rw [hstep]
    have hi0 : (o.inputs k).Next.1.length ≠ 0 → o.inputIndices k < (o.inputs k).Next.1.length := by
      intro h
      rw [hidx k (Nat.le_refl k)]
      omega
    have hins : ∀ i, i ≠ k →
        Function.update o.inputs k (o.inputs k).Next.2 i = o.inputs i :=
      fun i hik => Function.update_noteq hik _ _
    obtain ⟨h1, h2, h3, h4, h5, h6, h7, _⟩ :=
      install_inv o hinv k _ (Function.update o.inputs k (o.inputs k).Next.2) o.inputIndices
        hi0 (fun _ _ => rfl)
    obtain ⟨hp, hq⟩ :=
      pending_install o hinv k _ (Function.update o.inputs k (o.inputs k).Next.2)
        o.inputIndices hi0 (fun _ _ => rfl) hins
    obtain ⟨g1, g2, g3, g4, g5, g6⟩ := ih (k + 1) _ h1
      (by
        intro i hi
        rw [h2, Function.update_noteq (by omega)]
        exact hzero i (by omega))
      (by
        intro i hi
        rw [h4]
        exact hidx i (by omega))
    refine ⟨g1, g2.trans h5, g3.trans h6, g4.trans h7, ?_, ?_⟩
    · intro i hi
      rw [g5 i (by omega), hq i (by omega)]
    · intro i hik hil
      by_cases he : i = k
      · subst he
        rw [g5 i (by omega), hp, hidx i (Nat.le_refl i)]
        simp only [Function.update_same]
        exact streamRows_next _ _
      · rw [g6 i (by omega) (by omega), h5, h3, Function.update_noteq he]

/-- No row is emitted when no row is pending. -/
theorem emits_of_empty {le : Row → Row → Prop} {n : Nat} {p q : Nat → List Row}
    {out : List Row} (h : Emits le n p out q) (hp : ∀ i, i < n → p i = []) :
    out = [] ∧ ∀ i, i < n → q i = [] := by
  cases h with
  | nil => exact ⟨rfl, hp⟩
  | cons hs _ =>
    obtain ⟨m, hm, hpm, _⟩ := hs
    rw [hp m hm] at hpm
    cases hpm

/-- Successive calls of `Next` on a synchronizer that has fetched its first
batches do not panic and emit rows out of the pending rows: `BatchSize` for
each call, unless all inputs get exhausted. -/
theorem runNext_spec (cmp : T → Val → Val → Int) (hcmp : ∀ t, IsThreeWay (cmp t))
    (BatchSize k : Nat) (o : OrderedSynchronizer) (hinv : o.Inv)
    (hdir : validDirections o.ordering)
    (hcol : validColumns o.columnTypes.length o.ordering) :
    ∃ (q : OrderedSynchronizer) (out : List Row),
      runNext cmp BatchSize k o = Except.ok (q, out) ∧
      q.Inv ∧ q.columnTypes = o.columnTypes ∧ q.ordering = o.ordering ∧
      q.numInputs = o.numInputs ∧
      Emits (Spec.rowLE cmp o.columnTypes o.ordering) o.numInputs o.pending out q.pending ∧
      (out.length = k * BatchSize ∨ ∀ i, i < o.numInputs → q.pending i = []) := by
  induction k generalizing o with
  | zero => exact ⟨o, [], rfl, hinv, rfl, rfl, rfl, Emits.nil _, Or.inl (by simp)⟩
  | succ k ih =>
    obtain ⟨o1, b, out1, hnext, hinv1, hct1, hord1, hn1, hem1, hlen1, hex1, _, hrows1⟩ :=
      next_spec cmp hcmp BatchSize o hinv hdir hcol
    obtain ⟨q, out2, hrun, hqinv, hct2, hord2, hn2, hem2, hor⟩ :=
      ih o1 hinv1 (by rw [hord1]; exact hdir) (by rw [hct1, hord1]; exact hcol)
    simp only [hct1, hord1, hn1] at hem2 hor
    refine ⟨q, out1 ++ out2, ?_, hqinv, hct2.trans hct1, hord2.trans hord1, hn2.trans hn1,
      emits_append hem1 hem2, ?_⟩
    · simp only [runNext, hnext, hrun, hct1, hrows1]
    · by_cases hfull : out1.length < BatchSize
      · right
        have hempty : ∀ i, i < o.numInputs → o1.pending i = [] :=
          fun i hi => pending_of_eq o1 i (hex1 hfull i hi)
        exact (emits_of_empty hem2 hempty).2
      · rcases hor with h | h
        · left
          have : out1.length = BatchSize := by omega
          rw [List.length_append, h, this]
          ring
        · right
          exact h

/-- The first `Next` runs as `Next` on the state with the first batches
fetched. -/
theorem next_of_unfetched (cmp : T → Val → Val → Int) (BatchSize : Nat)
    (o : OrderedSynchronizer) (h : o.inputBatches = none)
    (hf : o.fetched.inputBatches ≠ none) :
    o.Next cmp BatchSize = o.fetched.Next cmp BatchSize := by
  cases hb : o.fetched.inputBatches with
  | none => exact absurd hb hf
  | some bs =>
    simp only [OrderedSynchronizer.Next, h, hb]
    rfl

/-- State after `NewOrderedSynchronizer` and `Init`, with the first batches
fetched: the invariant holds and the pending rows of every input are the rows
it delivers. -/
theorem fetched_init (n : Nat) (inputs : Nat → Operator) (typs : List T)
    (ordering : List ColumnOrderInfo) :
    (NewOrderedSynchronizer n inputs typs ordering).Init.inputBatches = none ∧
    (NewOrderedSynchronizer n inputs typs ordering).Init.fetched.Inv ∧
    (NewOrderedSynchronizer n inputs typs ordering).Init.fetched.columnTypes = typs ∧
    (NewOrderedSynchronizer n inputs typs ordering).Init.fetched.ordering = ordering ∧
    (NewOrderedSynchronizer n inputs typs ordering).Init.fetched.numInputs = n ∧
    ∀ i, i < n →
      (NewOrderedSynchronizer n inputs typs ordering).Init.fetched.pending i =
        streamRows typs.length (inputs i).remaining := by
  have hinv0 : OrderedSynchronizer.Inv
      { (NewOrderedSynchronizer n inputs typs ordering).Init with
        inputBatches := some (fun _ => NewMemBatch []) } := by
    refine ⟨by simp, ?_, ?_, rfl⟩
    · intro i hi
      simp [OrderedSynchronizer.batch, NewMemBatch] at hi
    · simp only [NewOrderedSynchronizer, OrderedSynchronizer.Init]
      rw [List.forall₂_map_right_iff, List.forall₂_same]
      intro info _
      refine ⟨rfl, ?_⟩
      intro i hi
      simp [OrderedSynchronizer.batch, NewMemBatch] at hi
  obtain ⟨h1, h2, h3, h4, _, h6⟩ := fetchLoop_spec n 0 _ hinv0
    (by intro i _; simp [OrderedSynchronizer.batch, NewMemBatch])
    (by intro i _; rfl)
  rw [← List.range_eq_range'] at h1 h2 h3 h4 h6
  refine ⟨rfl, h1, h2, h3, h4, ?_⟩
  intro i hi
  refine (h6 i (Nat.zero_le i) (by omega)).trans ?_
  simp [NewOrderedSynchronizer, OrderedSynchronizer.Init, Operator.Init]

/-- C27: when every input delivers its rows in the order of the ordering
columns and their directions, successive calls of `Next` after `Init` do not
panic, and the rows of the batches they return, taken together, are in that
order and are rows of the inputs, each as often as the inputs deliver it at
most; they are all the rows of the inputs, as a multiset, once the calls are
enough to hold them (`k * BatchSize` is at least their number). -/
theorem orderedSynchronizer_merges (cmp : T → Val → Val → Int)
    (hcmp : ∀ t, IsThreeWay (cmp t)) (BatchSize n : Nat) (inputs : Nat → Operator)
    (typs : List T) (ordering : List ColumnOrderInfo)
    (hdir : validDirections ordering) (hcol : validColumns typs.length ordering)
    (hsorted : ∀ i, i < n →
      List.Sorted (Spec.rowLE cmp typs ordering) (streamRows typs.length (inputs i).remaining))
    (k : Nat) :
    ∃ (q : OrderedSynchronizer) (out : List Row),
      runNext cmp BatchSize k (NewOrderedSynchronizer n inputs typs ordering).Init =
        Except.ok (q, out) ∧
      List.Sorted (Spec.rowLE cmp typs ordering) out ∧
      (out : Multiset Row) ≤
        Spec.allRows n (fun i => streamRows typs.length (inputs i).remaining) ∧
      (Multiset.card (Spec.allRows n (fun i => streamRows typs.length (inputs i).remaining)) ≤
          k * BatchSize →
        (out : Multiset Row) =
          Spec.allRows n (fun i => streamRows typs.length (inputs i).remaining)) := by
  obtain ⟨hnone, hinv, hct, hord, hn, hpend⟩ := fetched_init n inputs typs ordering
  cases k with
  | zero =>
    refine ⟨_, [], rfl, List.sorted_nil, by simp, ?_⟩
    intro hc
    simp only [Nat.zero_mul, Nat.le_zero, Multiset.card_eq_zero] at hc
    rw [hc]
    rfl
  | succ k =>
    have hrun : runNext cmp BatchSize (k + 1) (NewOrderedSynchronizer n inputs typs ordering).Init =
        runNext cmp BatchSize (k + 1)
          (NewOrderedSynchronizer n inputs typs ordering).Init.fetched := by
      simp only [runNext]
      rw [next_of_unfetched cmp BatchSize _ hnone hinv.fetched]
    obtain ⟨q, out, hq, _, _, _, _, hem, hor⟩ :=
      runNext_spec cmp hcmp BatchSize (k + 1) _ hinv (by rw [hord]; exact hdir)
        (by rw [hct, hord]; exact hcol)
    rw [hct, hord, hn] at hem
    rw [hn] at hor
    have h3 := compareRows_isThreeWay cmp typs hcmp ordering
    have hall : Spec.allRows n (NewOrderedSynchronizer n inputs typs ordering).Init.fetched.pending =
        Spec.allRows n (fun i => streamRows typs.length (inputs i).remaining) := by
      unfold Spec.allRows
      apply Finset.sum_congr rfl
      intro i hi
      rw [hpend i (Finset.mem_range.1 hi)]
    obtain ⟨hs, _, hm⟩ := emits_sound (fun a b c => h3.trans a b c) hem
      (by
        intro i hi
        rw [hpend i hi]
        exact hsorted i hi)
    rw [hall] at hm
    refine ⟨q, out, hrun.trans hq, hs, ?_, ?_⟩
    · rw [← hm]
      exact Multiset.le_add_right _ _
    · intro hc
      rcases hor with h | h
      · have hcard := congrArg Multiset.card hm
        simp only [Multiset.card_add, Multiset.coe_card] at hcard
        have hz : Multiset.card (Spec.allRows n q.pending) = 0 := by omega
        rw [← hm, Multiset.card_eq_zero.1 hz, add_zero]
      · have hz : Spec.allRows n q.pending = 0 := by
          unfold Spec.allRows
          apply Finset.sum_eq_zero
          intro i hi
          rw [h i (Finset.mem_range.1 hi)]
          rfl
        rw [← hm, hz, add_zero]

/-- Rows the two sample inputs deliver. -/
theorem sampleInputs_rows :
    streamRows 1 (sampleInputs 0).remaining = [[1], [4], [7], [9]] ∧
    streamRows 1 (sampleInputs 1).remaining = [[2], [3], [8], [10]] := by
  constructor <;>
    simp [sampleInputs, streamRows, sampleBatch, Batch.rowsFrom, Batch.row, Batch.phys,
      List.range'_succ, List.range_succ]

/-- Witness of C27: the two sample inputs, merged in batches of 3 by 4 calls
of `Next`. -/
theorem orderedSynchronizer_merges_witness :
    ∃ (q : OrderedSynchronizer) (out : List Row),
      runNext (fun _ => compareInt) 3 4
          (NewOrderedSynchronizer 2 sampleInputs [T.Int64] sampleOrdering).Init =
        Except.ok (q, out) ∧
      List.Sorted (Spec.rowLE (fun _ => compareInt) [T.Int64] sampleOrdering) out ∧
      (out : Multiset Row) =
        Spec.allRows 2 (fun i => streamRows [T.Int64].length (sampleInputs i).remaining) := by
  have hdir : validDirections sampleOrdering := by
    intro info h
    simp only [sampleOrdering, List.mem_singleton] at h
    simp [h]
  have hcol : validColumns [T.Int64].length sampleOrdering := by
    intro info h
    simp only [sampleOrdering, List.mem_singleton] at h
    simp [h]
  have hsorted : ∀ i, i < 2 →
      List.Sorted (Spec.rowLE (fun _ => compareInt) [T.Int64] sampleOrdering)
        (streamRows [T.Int64].length (sampleInputs i).remaining) := by
    intro i hi
    have h01 : i = 0 ∨ i = 1 := by omega
    rcases h01 with h | h <;> subst h
    · simp only [List.length_singleton, sampleInputs_rows.1]
      simp [List.Sorted, Spec.rowLE, Spec.compareRows, sampleOrdering, compareInt]
    · simp only [List.length_singleton, sampleInputs_rows.2]
      simp [List.Sorted, Spec.rowLE, Spec.compareRows, sampleOrdering, compareInt]
  obtain ⟨q, out, h1, h2, _, h4⟩ :=
    orderedSynchronizer_merges (fun _ => compareInt) (fun _ => compareInt_isThreeWay) 3 2
      sampleInputs [T.Int64] sampleOrdering hdir hcol hsorted 4
  refine ⟨q, out, h1, h2, h4 ?_⟩
  simp [Spec.allRows, Finset.sum_range_succ, sampleInputs_rows.1, sampleInputs_rows.2]

/-! ## Batch protocol of `Next` -/

/-- A minimum found among all inputs gives an emission of its current row with
the rule on ties, once that input is advanced. -/
theorem emitStepLowest_of_min (cmp : T → Val → Val → Int) (o q : OrderedSynchronizer)
    (hinv : o.Inv) (m : Nat) (hmin : o.IsMinBelow cmp o.numInputs (some m))
    (hpm : o.pending m = o.current m :: q.pending m)
    (hq : ∀ i, i ≠ m → q.pending i = o.pending i) :
    EmitStepLowest (Spec.compareRows cmp o.columnTypes o.ordering) o.numInputs o.pending
      (o.current m) q.pending := by
  obtain ⟨hm, _, hall⟩ := hmin
  refine ⟨m, hm, hpm, hq, ?_⟩
  intro i hi x hx
  by_cases hz : (o.batch i).length = 0
  · rw [pending_of_eq o i hz] at hx
    simp at hx
  · rw [pending_of_ne o hinv i hz] at hx
    simp only [List.head?_cons, Option.some.injEq] at hx
    rw [← hx]
    refine ⟨(hall i hi hz).1, ?_⟩
    intro h0
    by_contra hlt
    have := (hall i hi hz).2 (by omega)
    omega

/-- No row is emitted with the rule on ties when no row is pending. -/
theorem emitsLowest_of_empty {c : Row → Row → Int} {n : Nat} {p q : Nat → List Row}
    {out : List Row} (h : EmitsLowest c n p out q) (hp : ∀ i, i < n → p i = []) :
    out = [] := by
  cases h with
  | nil => rfl
  | cons hs _ =>
    obtain ⟨m, hm, hpm, _⟩ := hs
    rw [hp m hm] at hpm
    cases hpm

/-- When no row is emitted the pending rows are as they were. -/
theorem emitsLowest_of_nil {c : Row → Row → Int} {n : Nat} {p q : Nat → List Row}
    {out : List Row} (h : EmitsLowest c n p out q) (ho : out = []) : p = q := by
  cases h with
  | nil => rfl
  | cons _ _ => cases ho

/-- The loop of `Next` does not panic; it emits rows out of the pending rows
with the rule on ties, as many as the rounds it is allowed unless all inputs
get exhausted, writes them to the output from `outputIdx` on, and keeps the
invariant, the configuration and the output below `outputIdx`. -/
theorem nextLoop_lowest (cmp : T → Val → Val → Int) (hcmp : ∀ t, IsThreeWay (cmp t))
    (todo outputIdx : Nat) (o : OrderedSynchronizer) (hinv : o.Inv)
    (hdir : validDirections o.ordering)
    (hcol : validColumns o.columnTypes.length o.ordering) :
    ∃ (q : OrderedSynchronizer) (out : List Row),
      nextLoop cmp todo outputIdx o = Except.ok (q, outputIdx + out.length) ∧
      q.Inv ∧ q.columnTypes = o.columnTypes ∧ q.ordering = o.ordering ∧
      q.numInputs = o.numInputs ∧
      EmitsLowest (Spec.compareRows cmp o.columnTypes o.ordering) o.numInputs o.pending out
        q.pending ∧
      out.length ≤ todo ∧
      (out.length < todo → ∀ i, i < o.numInputs → (q.batch i).length = 0) ∧
      (List.range' outputIdx out.length).map (q.output.rowAt o.columnTypes.length) = out ∧
      (∀ c p, p < outputIdx → q.output.cols c p = o.output.cols c p) := by
  induction todo generalizing outputIdx o with
  | zero =>
    exact ⟨o, [], by simp [nextLoop], hinv, rfl, rfl, rfl, EmitsLowest.nil _, by simp, by simp,
      by simp, fun _ _ _ => rfl⟩
  | succ todo ih =>
    obtain ⟨res, hres, hmin⟩ := minBatchLoop_spec cmp o hinv hdir hcol hcmp o.numInputs 0 none
      (fun j hj => absurd hj (Nat.not_lt_zero j))
    rw [← List.range_eq_range', Nat.zero_add] at *
    cases res with
    | none =>
      refine ⟨o, [], by simp [nextLoop, hres], hinv, rfl, rfl, rfl, EmitsLowest.nil _, by simp,
        ?_, by simp, fun _ _ _ => rfl⟩
      intro _ i hi
      exact hmin i hi
    | some m =>
      have hm := hmin.2.1
      have h1 := copyRowLoop_spec m outputIdx (List.range o.columnTypes.length) o
      have hinv1 : (copyRowLoop m outputIdx (List.range o.columnTypes.length) o).Inv := by
        rw [h1]
        exact ⟨hinv.fetched, hinv.index, hinv.comparators, hinv.outputSel⟩
      have hm1 : ((copyRowLoop m outputIdx (List.range o.columnTypes.length) o).batch m).length
          ≠ 0 := by
        rw [h1]
        exact hm
      obtain ⟨hinv2, hpm, hq, hct, hord, hn, hout⟩ := advance_spec _ hinv1 m hm1
      have hct2 : ((copyRowLoop m outputIdx (List.range o.columnTypes.length) o).advance
          m).columnTypes = o.columnTypes := by
        rw [hct, h1]
      have hord2 : ((copyRowLoop m outputIdx (List.range o.columnTypes.length) o).advance
          m).ordering = o.ordering := by
        rw [hord, h1]
      have hn2 : ((copyRowLoop m outputIdx (List.range o.columnTypes.length) o).advance
          m).numInputs = o.numInputs := by
        rw [hn, h1]
      obtain ⟨q, out, hrun, hqinv, hqct, hqord, hqn, hem, hlen, hex, hrows, hkeep⟩ :=
        ih (outputIdx + 1) _ hinv2 (by rw [hord2]; exact hdir) (by rw [hct2, hord2]; exact hcol)
      simp only [hct2, hord2, hn2] at hem hrows hex
      have hp1 : (copyRowLoop m outputIdx (List.range o.columnTypes.length) o).pending =
          o.pending := by
        rw [h1]
        rfl
      have hc1 : (copyRowLoop m outputIdx (List.range o.columnTypes.length) o).current m =
          o.current m := by
        rw [h1]
        rfl
      rw [hp1, hc1] at hpm
      rw [hp1] at hq
      have hstep := emitStepLowest_of_min cmp o _ hinv m hmin hpm hq
      refine ⟨q, o.current m :: out, ?_, hqinv, hqct.trans hct2, hqord.trans hord2,
        hqn.trans hn2, EmitsLowest.cons hstep hem, ?_, ?_, ?_, ?_⟩
      · simp only [nextLoop, hres, hrun, List.length_cons]
        congr 2
        omega
      · simp only [List.length_cons]
        omega
      · intro hlt
        apply hex
        simp only [List.length_cons] at hlt
        omega
      · simp only [List.length_cons, List.range'_succ, List.map_cons, hrows]
        congr 1
        have hk : ∀ c, q.output.cols c outputIdx =
            (copyRowLoop m outputIdx (List.range o.columnTypes.length) o).output.cols c
              outputIdx := by
          intro c
          rw [hkeep c outputIdx (by omega), hout]
        simp only [Batch.rowAt, OrderedSynchronizer.current, Batch.row, hk]
        apply List.map_congr_left
        intro c hc
        rw [h1]
        simp [hc]
      · intro c p hp
        rw [hkeep c p (by omega), hout, h1]
        have : p ≠ outputIdx := by omega
        simp [this]

/-- A call of `Next` on a synchronizer that has fetched its first batches does
not panic: it emits rows out of the pending rows with the rule on ties, at
most `BatchSize` and no fewer unless all inputs get exhausted, and returns
them as its batch. -/
theorem next_lowest (cmp : T → Val → Val → Int) (hcmp : ∀ t, IsThreeWay (cmp t))
    (BatchSize : Nat) (o : OrderedSynchronizer) (hinv : o.Inv)
    (hdir : validDirections o.ordering)
    (hcol : validColumns o.columnTypes.length o.ordering) :
    ∃ (q : OrderedSynchronizer) (b : Batch),
      o.Next cmp BatchSize = Except.ok (q, b) ∧ q.Inv ∧
      EmitsLowest (Spec.compareRows cmp o.columnTypes o.ordering) o.numInputs o.pending
        (b.rowsFrom o.columnTypes.length 0) q.pending ∧
      b.length ≤ BatchSize ∧
      (b.length < BatchSize → ∀ i, i < o.numInputs → (q.batch i).length = 0) := by
  obtain ⟨q, out, hrun, hqinv, hct, hord, hn, hem, hlen, hex, hrows, _⟩ :=
    nextLoop_lowest cmp hcmp BatchSize 0 o hinv hdir hcol
  have hsome : ∃ bs, o.inputBatches = some bs := by
    cases h : o.inputBatches with
    | none => exact absurd h hinv.fetched
    | some bs => exact ⟨bs, rfl⟩
  obtain ⟨bs, hbs⟩ := hsome
  have hnext : o.Next cmp BatchSize =
      Except.ok ({ q with output := q.output.SetLength (0 + out.length) },
        q.output.SetLength (0 + out.length)) := by
    simp only [OrderedSynchronizer.Next, hbs, hrun]
  have hsel : (q.output.SetLength (0 + out.length)).sel = none := by
    simpa [Batch.SetLength] using hqinv.outputSel
  have hfun : (q.output.SetLength (0 + out.length)).row o.columnTypes.length =
      q.output.rowAt o.columnTypes.length := by
    funext p
    rw [row_eq_rowAt _ _ hsel]
    rfl
  have hout : (q.output.SetLength (0 + out.length)).rowsFrom o.columnTypes.length 0 = out := by
    unfold Batch.rowsFrom
    rw [hfun]
    simpa [Batch.SetLength] using hrows
  have hblen : (q.output.SetLength (0 + out.length)).length = out.length := by
    simp [Batch.SetLength]
  refine ⟨_, _, hnext, ⟨hqinv.fetched, hqinv.index, hqinv.comparators, hsel⟩, ?_, ?_, ?_⟩
  · rw [hout]
    exact hem
  · rw [hblen]
    exact hlen
  · rw [hblen]
    exact hex

/-- On the first call the loop of `Next` runs on the state with the first
batches fetched. -/
theorem atCall_of_none (o : OrderedSynchronizer) (h : o.inputBatches = none) :
    o.atCall = o.fetched := by
  simp [OrderedSynchronizer.atCall, h]

/-- On a call with batches fetched the loop of `Next` runs on the state as it
is. -/
theorem atCall_of_some (o : OrderedSynchronizer) (h : o.inputBatches ≠ none) :
    o.atCall = o := by
  cases hb : o.inputBatches with
  | none => exact absurd hb h
  | some bs => simp [OrderedSynchronizer.atCall, hb]

/-- On a state that satisfies the invariant the loop of `Next` runs on the
state as it is. -/
theorem atCall_of_inv (o : OrderedSynchronizer) (h : o.Inv) : o.atCall = o := by
  cases hb : o.inputBatches with
  | none => exact absurd hb h.fetched
  | some bs => simp [OrderedSynchronizer.atCall, hb]

/-- The fetch loop at the head of `Next` leaves the current batch of the
inputs it does not visit, and makes the batch that `Next` of the input returns
the current batch of each input it visits. -/
theorem fetchLoop_batch (len k : Nat) (o : OrderedSynchronizer) (hinv : o.Inv)
    (hidx : ∀ i, k ≤ i → o.inputIndices i = 0) :
    (∀ i, i < k → (fetchLoop (List.range' k len) o).batch i = o.batch i) ∧
    (∀ i, k ≤ i → i < k + len →
      (fetchLoop (List.range' k len) o).batch i = (o.inputs i).Next.1) := by
  induction len generalizing k o with
  | zero =>
    refine ⟨fun _ _ => rfl, ?_⟩
    intro i h1 h2
    omega
  | succ len ih =>
    have hstep : fetchLoop (List.range' k (len + 1)) o =
        fetchLoop (List.range' (k + 1) len)
          (o.install k (o.inputs k).Next.1 (Function.update o.inputs k (o.inputs k).Next.2)
            o.inputIndices) := by
      simp only [List.range'_succ, fetchLoop]
      rfl
    rw [hstep]
    have hi0 : (o.inputs k).Next.1.length ≠ 0 → o.inputIndices k < (o.inputs k).Next.1.length := by
      intro h
      rw [hidx k (Nat.le_refl k)]
      omega
    obtain ⟨h1, h2, h3, h4, _⟩ :=
      install_inv o hinv k _ (Function.update o.inputs k (o.inputs k).Next.2) o.inputIndices
        hi0 (fun _ _ => rfl)
    obtain ⟨g1, g2⟩ := ih (k + 1) _ h1
      (by
        intro i hi
        rw [h4]
        exact hidx i (by omega))
    constructor
    · intro i hi
      rw [g1 i (by omega), h2, Function.update_noteq (by omega)]
    · intro i hik hil
      by_cases he : i = k
      · subst he
        rw [g1 i (by omega), h2, Function.update_same]
      · rw [g2 i (by omega) (by omega), h3, Function.update_noteq he]

/-- After `NewOrderedSynchronizer` and `Init`, the state on which the first
`Next` runs its loop has, as the current batch of each input, the first batch
that input returns. -/
theorem atCall_init (n : Nat) (inputs : Nat → Operator) (typs : List T)
    (ordering : List ColumnOrderInfo) (i : Nat) (hi : i < n) :
    (NewOrderedSynchronizer n inputs typs ordering).Init.atCall.batch i = (inputs i).Next.1 := by
  have hinv0 : OrderedSynchronizer.Inv
      { (NewOrderedSynchronizer n inputs typs ordering).Init with
        inputBatches := some (fun _ => NewMemBatch []) } := by
    refine ⟨by simp, ?_, ?_, rfl⟩
    · intro i hi
      simp [OrderedSynchronizer.batch, NewMemBatch] at hi
    · simp only [NewOrderedSynchronizer, OrderedSynchronizer.Init]
      rw [List.forall₂_map_right_iff, List.forall₂_same]
      intro info _
      refine ⟨rfl, ?_⟩
      intro i hi
      simp [OrderedSynchronizer.batch, NewMemBatch] at hi
  obtain ⟨_, h2⟩ := fetchLoop_batch n 0 _ hinv0 (by intro i _; rfl)
  rw [← List.range_eq_range'] at h2
  rw [atCall_of_none _ rfl]
  refine (h2 i (Nat.zero_le i) (by omega)).trans ?_
  simp [NewOrderedSynchronizer, OrderedSynchronizer.Init, Operator.Init, hi]

/-- State after `k` calls of `Next` that follow `Init`: the calls do not
panic, and the next call runs its loop on a state that satisfies the invariant
and has the configuration given to `NewOrderedSynchronizer`; the state has no
batches only when no call was made. -/
theorem runNext_init (cmp : T → Val → Val → Int) (hcmp : ∀ t, IsThreeWay (cmp t))
    (BatchSize n : Nat) (inputs : Nat → Operator) (typs : List T)
    (ordering : List ColumnOrderInfo)
    (hdir : validDirections ordering) (hcol : validColumns typs.length ordering) (k : Nat) :
    ∃ (o : OrderedSynchronizer) (rows : List Row),
      runNext cmp BatchSize k (NewOrderedSynchronizer n inputs typs ordering).Init =
        Except.ok (o, rows) ∧
      o.atCall.Inv ∧ o.atCall.columnTypes = typs ∧ o.atCall.ordering = ordering ∧
      o.atCall.numInputs = n ∧
      o.Next cmp BatchSize = o.atCall.Next cmp BatchSize ∧
      (o.inputBatches = none → o = (NewOrderedSynchronizer n inputs typs ordering).Init) := by
  obtain ⟨hnone, hinv, hct, hord, hn, _⟩ := fetched_init n inputs typs ordering
  cases k with
  | zero =>
    refine ⟨_, [], rfl, ?_⟩
    rw [atCall_of_none _ hnone]
    exact ⟨hinv, hct, hord, hn, next_of_unfetched cmp BatchSize _ hnone hinv.fetched,
      fun _ => rfl⟩
  | succ k =>
    have hrun : runNext cmp BatchSize (k + 1) (NewOrderedSynchronizer n inputs typs ordering).Init =
        runNext cmp BatchSize (k + 1)
          (NewOrderedSynchronizer n inputs typs ordering).Init.fetched := by
      simp only [runNext]
      rw [next_of_unfetched cmp BatchSize _ hnone hinv.fetched]
    obtain ⟨q, out, hq, hqinv, hqct, hqord, hqn, _, _⟩ :=
      runNext_spec cmp hcmp BatchSize (k + 1) _ hinv (by rw [hord]; exact hdir)
        (by rw [hct, hord]; exact hcol)
    refine ⟨q, out, hrun.trans hq, ?_⟩
    rw [atCall_of_inv q hqinv]
    exact ⟨hqinv, hqct.trans hct, hqord.trans hord, hqn.trans hn, rfl,
      fun h => absurd h hqinv.fetched⟩

/-- C34: every call of `Next` after `Init`, the first and each later one, does
not panic and returns a batch of length at most `BatchSize`. With `BatchSize`
positive, the length is zero exactly when every input is exhausted when `Next`
is called, that is when the current batch of each has length zero on the state
its loop runs on; the length is less than `BatchSize` only if every input is
exhausted when `Next` returns. The rows of the batch are emitted in turn out of
the pending rows of the inputs, each the head of the pending rows of an input,
no later in the order than the head of any input, and from the input of lowest
index among those whose head compares equal to it. On the first call the
current batch of an input is the first batch it returns. -/
theorem orderedSynchronizer_batch_protocol (cmp : T → Val → Val → Int)
    (hcmp : ∀ t, IsThreeWay (cmp t)) (BatchSize n : Nat) (hsize : 0 < BatchSize)
    (inputs : Nat → Operator) (typs : List T) (ordering : List ColumnOrderInfo)
    (hdir : validDirections ordering) (hcol : validColumns typs.length ordering) (k : Nat) :
    ∃ (o : OrderedSynchronizer) (rows : List Row) (q : OrderedSynchronizer) (b : Batch),
      runNext cmp BatchSize k (NewOrderedSynchronizer n inputs typs ordering).Init =
        Except.ok (o, rows) ∧
      o.Next cmp BatchSize = Except.ok (q, b) ∧
      b.length ≤ BatchSize ∧
      (b.length = 0 ↔ ∀ i, i < n → (o.atCall.batch i).length = 0) ∧
      (b.length < BatchSize → ∀ i, i < n → (q.batch i).length = 0) ∧
      EmitsLowest (Spec.compareRows cmp typs ordering) n o.atCall.pending
        (b.rowsFrom typs.length 0) q.pending ∧
      (o.inputBatches = none → ∀ i, i < n → o.atCall.batch i = (o.inputs i).Next.1) ∧
      (o.inputBatches ≠ none → o.atCall = o) := by
  obtain ⟨o, rows, hrun, hinv, hct, hord, hn, hnext, hfirst⟩ :=
    runNext_init cmp hcmp BatchSize n inputs typs ordering hdir hcol k
  obtain ⟨q, b, hq, hqinv, hem, hlen, hex⟩ :=
    next_lowest cmp hcmp BatchSize o.atCall hinv (by rw [hord]; exact hdir)
      (by rw [hct, hord]; exact hcol)
  rw [hct, hord, hn] at hem
  rw [hn] at hex
  refine ⟨o, rows, q, b, hrun, hnext.trans hq, hlen, ?_, hex, hem, ?_, atCall_of_some o⟩
  swap
  · intro hnone i hi
    rw [hfirst hnone, atCall_init n inputs typs ordering i hi]
    simp [NewOrderedSynchronizer, OrderedSynchronizer.Init, Operator.Init, hi]
  constructor
  · intro hb i hi
    have hrows : b.rowsFrom typs.length 0 = [] := rowsFrom_nil _ _ _ (by omega)
    have hpq : o.atCall.pending = q.pending := emitsLowest_of_nil hem hrows
    have hqi : q.pending i = [] := pending_of_eq q i (hex (by omega) i hi)
    by_contra hne
    have hcons := pending_of_ne o.atCall hinv i hne
    rw [hpq, hqi] at hcons
    cases hcons
  · intro hall
    have hrows := emitsLowest_of_empty hem (fun i hi => pending_of_eq o.atCall i (hall i hi))
    have hl := rowsFrom_length typs.length b 0
    rw [hrows] at hl
    simp at hl
    omega

/-- Witness of C34: the second call of `Next` on the two sample inputs with
equal rows, in batches of 2. -/
theorem orderedSynchronizer_batch_protocol_witness :
    ∃ (o : OrderedSynchronizer) (rows : List Row) (q : OrderedSynchronizer) (b : Batch),
      runNext (fun _ => compareInt) 2 1
          (NewOrderedSynchronizer 2 sampleTieInputs [T.Int64] sampleOrdering).Init =
        Except.ok (o, rows) ∧
      o.Next (fun _ => compareInt) 2 = Except.ok (q, b) ∧
      b.length ≤ 2 ∧
      (b.length = 0 ↔ ∀ i, i < 2 → (o.atCall.batch i).length = 0) ∧
      (b.length < 2 → ∀ i, i < 2 → (q.batch i).length = 0) ∧
      EmitsLowest (Spec.compareRows (fun _ => compareInt) [T.Int64] sampleOrdering) 2
        o.atCall.pending (b.rowsFrom [T.Int64].length 0) q.pending ∧
      (o.inputBatches = none → ∀ i, i < 2 → o.atCall.batch i = (o.inputs i).Next.1) ∧
      (o.inputBatches ≠ none → o.atCall = o) :=
  orderedSynchronizer_batch_protocol (fun _ => compareInt) (fun _ => compareInt_isThreeWay) 2 2
    (by decide) sampleTieInputs [T.Int64] sampleOrdering
    (by
      intro info h
      simp only [sampleOrdering, List.mem_singleton] at h
      simp [h])
    (by
      intro info h
      simp only [sampleOrdering, List.mem_singleton] at h
      simp [h])
    1

end Exec

namespace Optbuilder

/-- C28 as stated fails: for a canned plan whose `exprgen.Build` returns an
error, building ends without a panic and `Build` returns that error, not nil. -/
theorem build_canned_returns_error :
    Build.body
        { isCanned := true, cannedBuild := Except.ok (some sampleExternal),
          buildSteps := Except.ok () } =
      Except.ok (some sampleExternal) ∧
    Build
        { isCanned := true, cannedBuild := Except.ok (some sampleExternal),
          buildSteps := Except.ok () } =
      Except.ok (some sampleExternal) ∧
    Build
        { isCanned := true, cannedBuild := Except.ok (some sampleExternal),
          buildSteps := Except.ok () } ≠
      Except.ok none := by
  refine ⟨rfl, rfl, ?_⟩
  intro h
  have hb : Build
      { isCanned := true, cannedBuild := Except.ok (some sampleExternal),
        buildSteps := Except.ok () } = Except.ok (some sampleExternal) := rfl
  rw [hb] at h
  cases h

/-- C28, amended: when building panics with an error, a `builderError` or an
error of another package, `Build` returns that error and does not panic; when
it panics with a value other than nil that is no error, `Build` panics with
that value; when it panics with the nil value, `Build` does not panic and
returns nil; when building ends without a panic, `Build` returns nil, or for a
canned plan the error that `exprgen.Build` returned. The panic of the body is
the panic of the steps it runs. -/
theorem build_recovers_errors (run : BuildRun) :
    (∀ e : GoError, Build.body run = Except.error (PanicValue.error e) →
      Build run = Except.ok (some e)) ∧
    (∀ v : String, Build.body run = Except.error (PanicValue.other v) →
      Build run = Except.error (PanicValue.other v)) ∧
    (Build.body run = Except.error PanicValue.nil → Build run = Except.ok none) ∧
    (∀ r : PanicValue, run.isCanned = false → run.buildSteps = Except.error r →
      Build.body run = Except.error r) ∧
    (∀ r : PanicValue, run.isCanned = true → run.cannedBuild = Except.error r →
      Build.body run = Except.error r) ∧
    (run.isCanned = false → run.buildSteps = Except.ok () → Build run = Except.ok none) ∧
    (∀ err : Option GoError, run.isCanned = true → run.cannedBuild = Except.ok err →
      Build run = Except.ok err) ∧
    (∀ err : Option GoError, Build.body run = Except.ok err → Build run = Except.ok err) := by
  refine ⟨?_, ?_, ?_, ?_, ?_, ?_, ?_, ?_⟩
  · intro e h
    simp [Build, h]
  · intro v h
    simp [Build, h]
  · intro h
    simp [Build, h]
  · intro r hc hs
    simp [Build.body, hc, hs]
  · intro r hc hs
    simp [Build.body, hc, hs]
  · intro hc hs
    simp [Build, Build.body, hc, hs]
  · intro err hc hs
    simp [Build, Build.body, hc, hs]
  · intro err h
    simp [Build, h]

/-- Witness of C28: a `builderError` thrown by the build steps is returned; a
panic with another value goes on; a panic with the nil value ends in the
return of nil. -/
theorem build_recovers_errors_witness :
    Build
        { isCanned := false, cannedBuild := Except.ok none,
          buildSteps := Except.error (PanicValue.error (GoError.builderError sampleExternal)) } =
      Except.ok (some (GoError.builderError sampleExternal)) ∧
    Build
        { isCanned := false, cannedBuild := Except.ok none,
          buildSteps := Except.error (PanicValue.other "index out of range") } =
      Except.error (PanicValue.other "index out of range") ∧
    Build
        { isCanned := false, cannedBuild := Except.ok none,
          buildSteps := Except.error PanicValue.nil } =
      Except.ok none :=
  ⟨(build_recovers_errors _).1 _ rfl, (build_recovers_errors _).2.1 _ rfl,
    (build_recovers_errors _).2.2.1 rfl⟩

/-- C29 fails on the code: `unimplementedWithIssueDetailf` returns the error
of `unimplemented.NewWithIssueDetailf` itself; the value is no `builderError`
and has no `Cause`. -/
theorem unimplementedWithIssueDetailf_not_wrapped
    (newWithIssueDetailf : Int → String → String → List String → ExternalError)
    (issue : Int) (detail format : String) (args : List String) :
    unimplementedWithIssueDetailf newWithIssueDetailf issue detail format args =
      GoError.external (newWithIssueDetailf issue detail format args) ∧
    (∀ inner : GoError,
      unimplementedWithIssueDetailf newWithIssueDetailf issue detail format args ≠
        GoError.builderError inner) ∧
    (unimplementedWithIssueDetailf newWithIssueDetailf issue detail format args).Cause = none := by
  refine ⟨rfl, ?_, rfl⟩
  intro inner h
  cases h

end Optbuilder
